import Mathlib

/-! Course registration handler of the ISUCHOLAR web application.

A shallow embedding of `webapp/go/main.go`: the handlers `RegisterCourses`
(`PUT /api/users/me/courses`), `SetCourseStatus`
(`PUT /api/courses/:courseID/status`) and `GetGrades`
(`GET /api/users/me/grades`), the relational rows and the key-value sets they
touch, the process-wide `courseCache` and the caches of the grade
distributions.

Modelling conventions.

* A Go `string` is a Lean `String`; Go compares strings byte-wise, which on
  UTF-8 text is the lexicographic order of the code points, `s.data`.
* The relational store is a pair of row lists.  `WHERE id = ?` is exact
  equality of the id.  A transaction reads the store as it was at `Beginx`
  and its writes reach the store on `Commit` only.
* The key-value store is a list of `(key, member)` pairs, read as a family of
  sets.
* `sync.Map` is an association list; `Store` shadows an older entry.
* Store operations that can fail are driven by a fault oracle `Faults`.
* A run-time panic that unwinds out of the handler is the response `Panic`
  (`middleware.Recover` turns it into a 500 at the HTTP layer).
-/

namespace Isucholar

/-! ## Data model -/

abbrev CourseType := String
abbrev DayOfWeek := String
abbrev CourseStatus := String

def StatusRegistration : CourseStatus := "registration"
def StatusInProgress : CourseStatus := "in-progress"
def StatusClosed : CourseStatus := "closed"

def StatusOK : Nat := 200
def StatusBadRequest : Nat := 400
def StatusInternalServerError : Nat := 500

/-- Row of the `courses` table (`type Course struct`); `Typ` is the field
`Type`, a reserved word here. -/
structure Course where
  ID : String
  Code : String
  Typ : CourseType
  Name : String
  Description : String
  Credit : Nat
  Period : Nat
  DayOfWeek : DayOfWeek
  TeacherID : String
  Keywords : String
  Status : CourseStatus
  deriving DecidableEq, Repr

/-- One element of the request body (`type RegisterCourseRequestContent`). -/
structure RegisterCourseRequestContent where
  ID : String
  deriving DecidableEq, Repr

/-- Body of the 400 response (`type RegisterCoursesErrorResponse`); a nil
slice is the empty list. -/
structure RegisterCoursesErrorResponse where
  CourseNotFound : List String
  NotRegistrableStatus : List String
  ScheduleConflict : List String
  deriving DecidableEq, Repr

/-- Outcome of the handler: `c.NoContent(code)`, `c.JSON(code, body)`, or a
panic unwinding out of it. -/
inductive Response where
  | NoContent (code : Nat)
  | JSON (code : Nat) (body : RegisterCoursesErrorResponse)
  | Panic (msg : String)
  deriving DecidableEq, Repr

/-- The relational store: the `courses` rows and the `registrations` rows
`(course_id, user_id)`. -/
structure DB where
  courses : List Course
  registrations : List (String × String)
  deriving DecidableEq, Repr

/-- Everything the handler can read or write: the relational store, the
key-value sets as `(key, member)` pairs, and the global `courseCache`. -/
structure State where
  db : DB
  redis : List (String × String)
  courseCache : List (String × Course)
  deriving DecidableEq, Repr

/-- Fault oracle: which store operations of a call return an error. -/
structure Faults where
  beginx : Bool
  getCourse : String → Bool
  countRegistration : String → Bool
  selectRegistered : Bool
  sadd : String → Bool
  exec : Bool
  commit : Bool

/-- The oracle under which no store operation fails. -/
def noFaults : Faults where
  beginx := false
  getCourse := fun _ => false
  countRegistration := fun _ => false
  selectRegistered := false
  sadd := fun _ => false
  exec := false
  commit := false

/-! ## The stores -/

/-- Method `sync.Map.Load`. -/
def syncMapLoad : List (String × Course) → String → Option Course
  | [], _ => none
  | (k, v) :: m, key => if k = key then some v else syncMapLoad m key

/-- Method `sync.Map.Store`. -/
def syncMapStore (m : List (String × Course)) (key : String) (v : Course) :
    List (String × Course) :=
  (key, v) :: m

/-- Query `SELECT * FROM courses WHERE id = ? FOR SHARE`; `none` is
`sql.ErrNoRows`. -/
def getCourse (db : DB) (courseID : String) : Option Course :=
  db.courses.find? (fun c => decide (c.ID = courseID))

/-- Query `SELECT COUNT(*) FROM registrations WHERE course_id = ? AND user_id = ?`. -/
def countRegistration (db : DB) (courseID userID : String) : Nat :=
  db.registrations.countP (fun r => decide (r.1 = courseID ∧ r.2 = userID))

/-- Query `SELECT courses.* FROM courses JOIN registrations ON courses.id =
registrations.course_id WHERE courses.status != ? AND registrations.user_id = ?`
with the arguments `StatusClosed, userID`, as a nested-loop join. -/
def selectRegistered (db : DB) (userID : String) : List Course :=
  db.courses.flatMap fun c =>
    (db.registrations.filter fun r =>
      decide (c.ID = r.1 ∧ c.Status ≠ StatusClosed ∧ r.2 = userID)).map fun _ => c

/-- Command `SADD key member`. -/
def redisSAdd (redis : List (String × String)) (key member : String) :
    List (String × String) :=
  if (key, member) ∈ redis then redis else redis ++ [(key, member)]

/-- Command `SISMEMBER key member`. -/
def redisSIsMember (redis : List (String × String)) (key member : String) : Bool :=
  decide ((key, member) ∈ redis)

/-- Rows bound to the `(?, ?)` tuples of the statement, two arguments each. -/
def bindRows : List String → List (String × String)
  | a :: b :: rest => (a, b) :: bindRows rest
  | _ => []

/-- Modelled from the spec: the schema of the `registrations` table is not
part of the source file; the store offers "a batched multi-row insert that
ignores pre-existing duplicate keys", the key being the pair
`(course_id, user_id)`.  Effect of `INSERT IGNORE INTO registrations
(course_id, user_id) VALUES ...` on the table: the rows are appended in order
and a row already present is skipped. -/
def insertIgnore (rows table : List (String × String)) : List (String × String) :=
  rows.foldl (fun t r => if r ∈ t then t else t ++ [r]) table

/-- Number of `?` placeholders of a statement. -/
def placeholders (query : String) : Nat :=
  query.data.count '?'

/-- Call `tx.Exec(query, args...)` of the insert: `none` when the driver
rejects it because the argument count differs from the placeholder count. -/
def execInsert (query : String) (args : List String) (table : List (String × String)) :
    Option (List (String × String)) :=
  if placeholders query = args.length then some (insertIgnore (bindRows args) table)
  else none

/-! ## Library functions -/

/-- Concatenation of `n` copies of `s`. -/
def repeatString (s : String) : Nat → String
  | 0 => ""
  | n + 1 => s ++ repeatString s n

/-- Function `strings.Repeat(s, count)`; `none` is the panic on a negative
count. -/
def stringsRepeat (s : String) (count : Int) : Option String :=
  if count < 0 then none else some (repeatString s count.toNat)

/-- The order `sort.Slice` establishes with the comparison
`req[i].ID < req[j].ID`: no element is less than an earlier one. -/
def reqLE (a b : RegisterCourseRequestContent) : Prop :=
  a.ID.data ≤ b.ID.data

instance reqLE.decidable : DecidableRel reqLE :=
  fun a b => inferInstanceAs (Decidable (a.ID.data ≤ b.ID.data))

/-- Call `sort.Slice(req, less)` with `less(i, j) = req[i].ID < req[j].ID`.
Elements with equal ids are equal, so the sorted slice does not depend on the
algorithm. -/
def sortSlice (req : List RegisterCourseRequestContent) : List RegisterCourseRequestContent :=
  req.insertionSort reqLE

/-! ## The handler `RegisterCourses` -/

/-- Result of resolving one requested id (lines 494-505): the course and the
cache after the lookup, `sql.ErrNoRows`, or another store error. -/
inductive Lookup where
  | found (course : Course) (cache : List (String × Course))
  | notFound
  | failed

/-- Lines 494-505: the course comes from `courseCache`, else from the store,
and a row read from the store is put in the cache. -/
def lookupCourse (flt : Faults) (db : DB) (cache : List (String × Course))
    (courseID : String) : Lookup :=
  match syncMapLoad cache courseID with
  | some cs => Lookup.found cs cache
  | none =>
    if flt.getCourse courseID then Lookup.failed
    else
      match getCourse db courseID with
      | none => Lookup.notFound
      | some course => Lookup.found course (syncMapStore cache courseID course)

/-- The variables the validation of a request builds: `errors`, `newlyAdded`
and the state of the global `courseCache`. -/
structure Validation where
  errors : RegisterCoursesErrorResponse
  newlyAdded : List Course
  courseCache : List (String × Course)
  deriving DecidableEq, Repr

/-- Lines 491-522, the loop over the sorted request.  An error is a store
failure, which ends the handler with a 500; it carries the cache, whose
updates are not undone. -/
def registerLoop (flt : Faults) (db : DB) (userID : String) :
    List RegisterCourseRequestContent → Validation →
      Except (List (String × Course)) Validation
  | [], v => Except.ok v
  | courseReq :: rest, v =>
    match lookupCourse flt db v.courseCache courseReq.ID with
    | Lookup.failed => Except.error v.courseCache
    | Lookup.notFound =>
      registerLoop flt db userID rest
        { v with errors :=
            { v.errors with CourseNotFound := v.errors.CourseNotFound ++ [courseReq.ID] } }
    | Lookup.found course cache =>
      if course.Status ≠ StatusRegistration then
        registerLoop flt db userID rest
          { v with
            errors :=
              { v.errors with
                NotRegistrableStatus := v.errors.NotRegistrableStatus ++ [course.ID] }
            courseCache := cache }
      else if flt.countRegistration course.ID then Except.error cache
      else if countRegistration db course.ID userID > 0 then
        registerLoop flt db userID rest { v with courseCache := cache }
      else
        registerLoop flt db userID rest
          { v with newlyAdded := v.newlyAdded ++ [course], courseCache := cache }

/-- Lines 536-541, the inner loop: whether some `course2` of the comparison
list has another id and the period and day of `course1`. -/
def hasConflict (course1 : Course) : List Course → Bool
  | [] => false
  | course2 :: rest =>
    if course1.ID ≠ course2.ID ∧ course1.Period = course2.Period
        ∧ course1.DayOfWeek = course2.DayOfWeek then true
    else hasConflict course1 rest

/-- Lines 535-542, the outer loop: the id of each `course1` that has a
conflict is appended once. -/
def conflictLoop (alreadyRegistered : List Course) :
    List Course → List String → List String
  | [], scheduleConflict => scheduleConflict
  | course1 :: rest, scheduleConflict =>
    if hasConflict course1 alreadyRegistered then
      conflictLoop alreadyRegistered rest (scheduleConflict ++ [course1.ID])
    else conflictLoop alreadyRegistered rest scheduleConflict

/-- Lines 489-542: the validation of the sorted request inside the
transaction. -/
def validate (flt : Faults) (db : DB) (cache : List (String × Course)) (userID : String)
    (req : List RegisterCourseRequestContent) :
    Except (List (String × Course)) Validation :=
  match registerLoop flt db userID req
      { errors := { CourseNotFound := [], NotRegistrableStatus := [], ScheduleConflict := [] }
        newlyAdded := []
        courseCache := cache } with
  | Except.error cache1 => Except.error cache1
  | Except.ok v =>
    if flt.selectRegistered then Except.error v.courseCache
    else
      let alreadyRegistered := selectRegistered db userID ++ v.newlyAdded
      Except.ok
        { v with
          errors :=
            { v.errors with
              ScheduleConflict :=
                conflictLoop alreadyRegistered v.newlyAdded v.errors.ScheduleConflict } }

/-- Lines 547-555: the arguments of the insert are collected and the user is
added to the set `registrations:<id>` of each course.  An error is a failed
`SADD`; it carries the sets, whose earlier additions stay. -/
def saddLoop (flt : Faults) (userID : String) :
    List Course → List String → List (String × String) →
      Except (List (String × String)) (List String × List (String × String))
  | [], regArgs, redis => Except.ok (regArgs, redis)
  | course :: rest, regArgs, redis =>
    if flt.sadd ("registrations:" ++ course.ID) then Except.error redis
    else
      saddLoop flt userID rest (regArgs ++ [course.ID] ++ [userID])
        (redisSAdd redis ("registrations:" ++ course.ID) userID)

/-- Text of the statement of lines 558-559, for `n` newly added courses;
`none` when `strings.Repeat` panics. -/
def insertQuery (n : Nat) : Option String :=
  (stringsRepeat ",(?,?)" ((n : Int) - 1)).map fun tuples =>
    "INSERT IGNORE INTO `registrations` (`course_id`, `user_id`) " ++ "VALUES (?, ?)" ++ tuples

/-- Lines 547-571: what the handler does once the validation found no error. -/
def commitRegistrations (flt : Faults) (st : State) (userID : String) (v : Validation) :
    Response × State :=
  match saddLoop flt userID v.newlyAdded [] st.redis with
  | Except.error redis =>
    (Response.NoContent StatusInternalServerError,
      { st with redis := redis, courseCache := v.courseCache })
  | Except.ok (regArgs, redis) =>
    match insertQuery v.newlyAdded.length with
    | none =>
      (Response.Panic "strings: negative Repeat count",
        { st with redis := redis, courseCache := v.courseCache })
    | some query =>
      if flt.exec then
        (Response.NoContent StatusInternalServerError,
          { st with redis := redis, courseCache := v.courseCache })
      else
        match execInsert query regArgs st.db.registrations with
        | none =>
          (Response.NoContent StatusInternalServerError,
            { st with redis := redis, courseCache := v.courseCache })
        | some registrations =>
          if flt.commit then
            (Response.NoContent StatusInternalServerError,
              { st with redis := redis, courseCache := v.courseCache })
          else
            (Response.NoContent StatusOK,
              { db := { st.db with registrations := registrations }
                redis := redis
                courseCache := v.courseCache })

/-- Handler `RegisterCourses` (lines 467-572), from the point where the user
id and the request body are known.  A transaction that is not committed is
rolled back by the deferred `tx.Rollback()`, so the relational store is then
the one of the start; the key-value sets and `courseCache` are outside the
transaction. -/
def RegisterCourses (flt : Faults) (st : State) (userID : String)
    (req : List RegisterCourseRequestContent) : Response × State :=
  let req := sortSlice req
  if flt.beginx then (Response.NoContent StatusInternalServerError, st)
  else
    match validate flt st.db st.courseCache userID req with
    | Except.error cache =>
      (Response.NoContent StatusInternalServerError, { st with courseCache := cache })
    | Except.ok v =>
      if v.errors.CourseNotFound.length > 0 ∨ v.errors.NotRegistrableStatus.length > 0
          ∨ v.errors.ScheduleConflict.length > 0 then
        (Response.JSON StatusBadRequest v.errors, { st with courseCache := v.courseCache })
      else commitRegistrations flt st userID v

/-! ## Vocabulary of the statements -/

/-- The course a requested id resolves to: the entry of `courseCache`, else
the row of the store. -/
def resolve (db : DB) (cache : List (String × Course)) (courseID : String) : Option Course :=
  match syncMapLoad cache courseID with
  | some cs => some cs
  | none => getCourse db courseID

/-- Every entry of `courseCache` is stored under the id of its course, as
both writers of the cache (lines 504 and 1092) do. -/
def CacheWF (cache : List (String × Course)) : Prop :=
  ∀ k c, (k, c) ∈ cache → c.ID = k

/-- Whether `id` is one of the requested ids. -/
def Requested (req : List RegisterCourseRequestContent) (id : String) : Prop :=
  ∃ r ∈ req, r.ID = id

/-- Course `c` is a newly-added candidate of the request: some requested id
resolves to it, its status is registration and the user has no registration
row for it. -/
def Candidate (st : State) (userID : String) (req : List RegisterCourseRequestContent)
    (c : Course) : Prop :=
  ∃ r ∈ req, resolve st.db st.courseCache r.ID = some c ∧ c.Status = StatusRegistration
    ∧ countRegistration st.db c.ID userID = 0

/-- Two courses with different ids in the same period of the same day. -/
def Clash (c1 c2 : Course) : Prop :=
  c1.ID ≠ c2.ID ∧ c1.Period = c2.Period ∧ c1.DayOfWeek = c2.DayOfWeek

/-- The error lists a response carries; a response without a body carries
none. -/
def Response.errors : Response → RegisterCoursesErrorResponse
  | Response.JSON _ body => body
  | _ => { CourseNotFound := [], NotRegistrableStatus := [], ScheduleConflict := [] }

/-- Every cache entry of a validation result, finished or cut short, is
stored under the id of its course. -/
def ResultWF : Except (List (String × Course)) Validation → Prop
  | Except.ok v => CacheWF v.courseCache
  | Except.error cache => CacheWF cache

/-! ## Functional description of the validation without store failures -/

/-- Ids of the requests that resolve to no course. -/
def notFoundIDs (rs : String → Option Course) (req : List RegisterCourseRequestContent) :
    List String :=
  req.filterMap fun r =>
    match rs r.ID with
    | none => some r.ID
    | some _ => none

/-- Ids of the resolved courses whose status is not registration. -/
def notRegistrableIDs (rs : String → Option Course) (req : List RegisterCourseRequestContent) :
    List String :=
  req.filterMap fun r =>
    match rs r.ID with
    | none => none
    | some c => if c.Status ≠ StatusRegistration then some c.ID else none

/-- The resolved courses open for registration in which the user is not
enrolled. -/
def candidates (rs : String → Option Course) (db : DB) (userID : String)
    (req : List RegisterCourseRequestContent) : List Course :=
  req.filterMap fun r =>
    match rs r.ID with
    | none => none
    | some c =>
      if c.Status = StatusRegistration ∧ countRegistration db c.ID userID = 0 then some c
      else none

/-- The cache after one lookup that does not fail. -/
def cacheStep (db : DB) (cache : List (String × Course)) (r : RegisterCourseRequestContent) :
    List (String × Course) :=
  match lookupCourse noFaults db cache r.ID with
  | Lookup.found _ cache1 => cache1
  | _ => cache

/-- The cache after the lookups of a whole request. -/
def cacheAfter (db : DB) (cache : List (String × Course))
    (req : List RegisterCourseRequestContent) : List (String × Course) :=
  req.foldl (cacheStep db) cache

/-- Ids of the candidates that clash with a course of the comparison list. -/
def conflictIDs (alreadyRegistered newlyAdded : List Course) : List String :=
  (newlyAdded.filter fun c => hasConflict c alreadyRegistered).map fun c => c.ID

/-- The validation of a request when no store operation fails, as a value. -/
def validationOf (db : DB) (cache : List (String × Course)) (userID : String)
    (req : List RegisterCourseRequestContent) : Validation :=
  { errors :=
      { CourseNotFound := notFoundIDs (resolve db cache) req
        NotRegistrableStatus := notRegistrableIDs (resolve db cache) req
        ScheduleConflict :=
          conflictIDs (selectRegistered db userID ++ candidates (resolve db cache) db userID req)
            (candidates (resolve db cache) db userID req) }
    newlyAdded := candidates (resolve db cache) db userID req
    courseCache := cacheAfter db cache req }

/-- The rows of the insert for a list of newly added courses. -/
def rowsOf (userID : String) (newlyAdded : List Course) : List (String × String) :=
  newlyAdded.map fun c => (c.ID, userID)

/-- The arguments of the insert for a list of newly added courses. -/
def regArgsOf (userID : String) (newlyAdded : List Course) : List String :=
  newlyAdded.flatMap fun c => [c.ID, userID]

/-- The key-value sets after the user joined the set of each course. -/
def saddAll (userID : String) (newlyAdded : List Course) (redis : List (String × String)) :
    List (String × String) :=
  newlyAdded.foldl (fun rd c => redisSAdd rd ("registrations:" ++ c.ID) userID) redis

/-! ## Example data -/

/-- A course row with the given id, period, day and status. -/
def exampleCourse (id : String) (period : Nat) (day status : String) : Course :=
  { ID := id
    Code := "X" ++ id
    Typ := "liberal-arts"
    Name := "course " ++ id
    Description := ""
    Credit := 2
    Period := period
    DayOfWeek := day
    TeacherID := "t"
    Keywords := ""
    Status := status }

/-- A store with four courses, `a` and `b` in the same period of Monday and
open, `c` closed, `d` open on Tuesday; user `u` is enrolled in `a` and `d`;
the cache holds `c`. -/
def exampleState : State :=
  { db :=
      { courses :=
          [exampleCourse "a" 1 "monday" "registration",
           exampleCourse "b" 1 "monday" "registration",
           exampleCourse "c" 2 "monday" "closed",
           exampleCourse "d" 3 "tuesday" "registration"]
        registrations := [("a", "u"), ("d", "u")] }
    redis := [("registrations:a", "u"), ("registrations:d", "u")]
    courseCache := [("c", exampleCourse "c" 2 "monday" "closed")] }

/-! ## The handler `SetCourseStatus` -/

def StatusNotFound : Nat := 404

/-- Outcome of `SetCourseStatus`: `c.NoContent(code)` or `c.String(code, msg)`. -/
inductive StatusResponse where
  | NoContent (code : Nat)
  | Text (code : Nat) (msg : String)
  deriving DecidableEq, Repr

/-- Statement `UPDATE courses SET status = ? WHERE id = ?`. -/
def updateStatus (courses : List Course) (courseID : String) (status : CourseStatus) :
    List Course :=
  courses.map fun c => if c.ID = courseID then { c with Status := status } else c

/-- Handler `SetCourseStatus` (lines 1064-1100), from the point where the
course id and the requested status are known.  The row is read with
`FOR UPDATE`, the status is updated inside the transaction, the row with the
new status is stored in `courseCache` (line 1092) and the transaction is
committed; the cache is outside the transaction. -/
def SetCourseStatus (flt : Faults) (st : State) (courseID : String) (status : CourseStatus) :
    StatusResponse × State :=
  if flt.beginx then (StatusResponse.NoContent StatusInternalServerError, st)
  else if flt.getCourse courseID then (StatusResponse.NoContent StatusInternalServerError, st)
  else
    match getCourse st.db courseID with
    | none => (StatusResponse.Text StatusNotFound "No such course.", st)
    | some course =>
      if flt.exec then (StatusResponse.NoContent StatusInternalServerError, st)
      else
        if flt.commit then
          (StatusResponse.NoContent StatusInternalServerError,
            { st with
              courseCache :=
                syncMapStore st.courseCache courseID { course with Status := status } })
        else
          (StatusResponse.NoContent StatusOK,
            { st with
              db := { st.db with courses := updateStatus st.db.courses courseID status }
              courseCache :=
                syncMapStore st.courseCache courseID { course with Status := status } })

/-! ## The handler `GetGrades`

The handler reads the relational store only; the results of its queries are
given by an environment `GradesEnv`, one per call.  A `time.Time` is a number
of nanoseconds.  The calls are sequential, so `singleflight.Group.Do` runs its
function once and returns its result.  The statistics of the response that
are computed in floating point from a distribution (T-score, average, maximum,
minimum) are not modelled: the response carries the distribution itself.  The
`float64` of the field `GPA` is carried as the expression that computes
it. -/

/-- Row of the `classes` table (`type Class struct`). -/
structure Class where
  ID : String
  CourseID : String
  Part : Nat
  Title : String
  Description : String
  SubmissionClosed : Bool
  deriving DecidableEq, Repr

/-- A `float64` by its bit pattern; no arithmetic on it is modelled. -/
structure Float64 where
  bits : Nat
  deriving DecidableEq, Repr

/-- The value of a Go `int` expression whose mathematical value is `x`: an
`int` has 64 bits and its arithmetic wraps around. -/
def wrapInt (x : Int) : Int :=
  (x + 2 ^ 63) % 2 ^ 64 - 2 ^ 63

/-- A `float64` the handler computes, as the expression that computes it:
`ofInt n` is the conversion `float64(n)`, `add` is `+` and `div` is `/`.  The
value of the expression, and so its rounding, is not modelled. -/
inductive FloatExpr where
  | ofInt (n : Int)
  | add (x y : FloatExpr)
  | div (x y : FloatExpr)
  deriving DecidableEq, Repr

/-- Element of the response (`type ClassScore struct`); a nil `Score` is
`none`. -/
structure ClassScore where
  ClassID : String
  Title : String
  Part : Nat
  Score : Option Int
  Submitters : Int
  deriving DecidableEq, Repr

/-- Element of the response (`type CourseResult struct`); `Totals` is the
distribution from which `TotalScoreTScore`, `TotalScoreAvg`, `TotalScoreMax`
and `TotalScoreMin` are derived. -/
structure CourseResult where
  Name : String
  Code : String
  TotalScore : Int
  Totals : Option (List Int)
  ClassScores : List ClassScore
  deriving DecidableEq, Repr

/-- Summary of the response (`type Summary struct`); `GPA` is the `float64`
of the field, as the expression of lines 684, 833 and 838 that computes it, and
`Gpas` is the distribution from which `GpaTScore`, `GpaAvg`, `GpaMax` and
`GpaMin` are derived. -/
structure Summary where
  Credits : Int
  GPA : FloatExpr
  Gpas : Option (List Float64)
  deriving DecidableEq, Repr

/-- Body of the response (`type GetGradeResponse struct`). -/
structure GetGradeResponse where
  Summary : Summary
  CourseResults : List CourseResult
  deriving DecidableEq, Repr

/-- Outcome of `GetGrades`: `c.NoContent(code)` or `c.JSON(code, res)`. -/
inductive GradesResponse where
  | NoContent (code : Nat)
  | JSON (code : Nat) (body : GetGradeResponse)
  deriving DecidableEq, Repr

/-- An aggregation query: the one of the global GPA distribution (line 639)
or the one of the total scores of a course (line 794). -/
inductive Aggregation where
  | gpas
  | totals (courseID : String)
  deriving DecidableEq, Repr

/-- The global variables of lines 616-623.  A nil slice is `none`.  Of
`totalScoreCalcGroup` only the keys are kept, a group having no state between
sequential calls.  The field `queries` is not a variable of the program: it
records the aggregation queries executed so far. -/
structure GradeCache where
  gpaCachedAt : Int
  cachedGPAs : Option (List Float64)
  totalScoreCachedAt : List (String × Int)
  cachedTotalScore : List (String × Option (List Int))
  totalScoreCalcGroup : List String
  queries : List Aggregation
  deriving DecidableEq, Repr

/-- What one call of `GetGrades` gets from outside: the reading of
`time.Now()` and the result of each query, `none` being a store error.  A
`Select` that reads no row leaves its destination slice nil.  A count or a
score of a row is an `int64`, a 64-bit value, which the conversion to `int`
leaves as it is. -/
structure GradesEnv where
  now : Int
  selectGPAs : Option (Option (List Float64))
  selectRegisteredCourses : String → Option (List Course)
  selectClasses : String → Option (List Class)
  querySubmissionsCounts : List String → Option (List (String × Int))
  queryMyScores : String → List String → Option (List (String × Option Int))
  selectTotals : String → Option (Option (List Int))

def Millisecond : Int := 1000000

def maxDuration : Int := 2 ^ 63 - 1

def minDuration : Int := -(2 ^ 63)

/-- Method `Time.Sub`: the difference, saturated to the range of a
`Duration`. -/
def timeSub (t u : Int) : Int :=
  if t - u > maxDuration then maxDuration
  else if t - u < minDuration then minDuration
  else t - u

/-- Method `Load` of a `sync.Map` with string keys, or the read of a Go map. -/
def mapLoad {α : Type} : List (String × α) → String → Option α
  | [], _ => none
  | (k, v) :: m, key => if k = key then some v else mapLoad m key

/-- Method `Store` of a `sync.Map` with string keys, or the write of a Go
map. -/
def mapStore {α : Type} (m : List (String × α)) (key : String) (v : α) : List (String × α) :=
  (key, v) :: m

/-- Lines 635-669: the global GPA distribution, from the cache or from the
aggregation query.  An error is the failure of the query, which ends the
handler with a 500. -/
def gpaLookup (env : GradesEnv) (gc : GradeCache) :
    Except GradeCache (Option (List Float64) × GradeCache) :=
  if timeSub env.now gc.gpaCachedAt > 900 * Millisecond ∨ gc.cachedGPAs = none then
    match env.selectGPAs with
    | none => Except.error { gc with queries := gc.queries ++ [Aggregation.gpas] }
    | some gpas =>
      Except.ok
        (gpas,
          { gc with
            cachedGPAs := gpas
            gpaCachedAt := env.now
            queries := gc.queries ++ [Aggregation.gpas] })
  else Except.ok (gc.cachedGPAs, gc)

/-- Lines 779-818: the distribution of the total scores of a course, from the
cache or from the aggregation query.  An error is the failure of the query,
which ends the handler with a 500. -/
def totalScoreLookup (env : GradesEnv) (gc : GradeCache) (courseID : String) :
    Except GradeCache (Option (List Int) × GradeCache) :=
  match mapLoad gc.totalScoreCachedAt courseID, mapLoad gc.cachedTotalScore courseID with
  | some cachedAt, some score =>
    if timeSub env.now cachedAt > 100 * Millisecond then
      match env.selectTotals courseID with
      | none =>
        Except.error
          { gc with
            totalScoreCalcGroup := courseID :: gc.totalScoreCalcGroup
            queries := gc.queries ++ [Aggregation.totals courseID] }
      | some totals =>
        Except.ok
          (totals,
            { gc with
              totalScoreCalcGroup := courseID :: gc.totalScoreCalcGroup
              cachedTotalScore := mapStore gc.cachedTotalScore courseID totals
              totalScoreCachedAt := mapStore gc.totalScoreCachedAt courseID env.now
              queries := gc.queries ++ [Aggregation.totals courseID] })
    else Except.ok (score, gc)
  | _, _ =>
    match env.selectTotals courseID with
    | none =>
      Except.error
        { gc with
          totalScoreCalcGroup := courseID :: gc.totalScoreCalcGroup
          queries := gc.queries ++ [Aggregation.totals courseID] }
    | some totals =>
      Except.ok
        (totals,
          { gc with
            totalScoreCalcGroup := courseID :: gc.totalScoreCalcGroup
            cachedTotalScore := mapStore gc.cachedTotalScore courseID totals
            totalScoreCachedAt := mapStore gc.totalScoreCachedAt courseID env.now
            queries := gc.queries ++ [Aggregation.totals courseID] })

/-- The Go map built from the rows of a query, a later row replacing an
earlier one with the same key. -/
def rowsToMap {α : Type} (rows : List (String × α)) : List (String × α) :=
  rows.foldl (fun m row => mapStore m row.1 row.2) []

/-- Lines 754-777: the class scores of a course and the total of the scores of
the user.  The total `myTotalScore` is an `int`: line 768 adds to it with
wrap-around. -/
def scoreLoop (submissionsCounts : List (String × Int))
    (myScores : List (String × Option Int)) :
    List Class → List ClassScore → Int → List ClassScore × Int
  | [], classScores, myTotalScore => (classScores, myTotalScore)
  | cls :: rest, classScores, myTotalScore =>
    match mapLoad myScores cls.ID with
    | some (some score) =>
      scoreLoop submissionsCounts myScores rest
        (classScores ++
          [{ ClassID := cls.ID
             Title := cls.Title
             Part := cls.Part
             Score := some score
             Submitters := (mapLoad submissionsCounts cls.ID).getD 0 }])
        (wrapInt (myTotalScore + score))
    | _ =>
      scoreLoop submissionsCounts myScores rest
        (classScores ++
          [{ ClassID := cls.ID
             Title := cls.Title
             Part := cls.Part
             Score := none
             Submitters := (mapLoad submissionsCounts cls.ID).getD 0 }])
        myTotalScore

/-- Lines 712-753: the submission counts and the scores of the user for the
classes of a course; `none` when a query fails. -/
def queryScores (env : GradesEnv) (userID : String) (classIDs : List String) :
    Option (List (String × Int) × List (String × Option Int)) :=
  if classIDs.length > 0 then
    match env.querySubmissionsCounts classIDs with
    | none => none
    | some countRows =>
      match env.queryMyScores userID classIDs with
      | none => none
      | some scoreRows => some (rowsToMap countRows, rowsToMap scoreRows)
  else some ([], [])

/-- The variables the loop over the registered courses builds. -/
structure GradesAcc where
  courseResults : List CourseResult
  myGPA : FloatExpr
  myCredits : Int
  cache : GradeCache
  deriving DecidableEq, Repr

/-- Lines 685-836, the loop over the registered courses.  An error is a store
failure, which ends the handler with a 500; it carries the cache.  Line 833
multiplies in `int`, converts the product and adds it to the `float64`
`myGPA`; line 834 adds to the `int` `myCredits`. -/
def courseLoop (env : GradesEnv) (userID : String) :
    List Course → GradesAcc → Except GradeCache GradesAcc
  | [], acc => Except.ok acc
  | course :: rest, acc =>
    match env.selectClasses course.ID with
    | none => Except.error acc.cache
    | some classes =>
      match queryScores env userID (classes.map fun cls => cls.ID) with
      | none => Except.error acc.cache
      | some (submissionsCounts, myScores) =>
        match totalScoreLookup env acc.cache course.ID with
        | Except.error gc => Except.error gc
        | Except.ok (totals, gc) =>
          courseLoop env userID rest
            { courseResults :=
                acc.courseResults ++
                  [{ Name := course.Name
                     Code := course.Code
                     TotalScore := (scoreLoop submissionsCounts myScores classes [] 0).2
                     Totals := totals
                     ClassScores := (scoreLoop submissionsCounts myScores classes [] 0).1 }]
              myGPA :=
                if course.Status = StatusClosed then
                  FloatExpr.add acc.myGPA
                    (FloatExpr.ofInt
                      (wrapInt
                        ((scoreLoop submissionsCounts myScores classes [] 0).2 *
                          (course.Credit : Int))))
                else acc.myGPA
              myCredits :=
                if course.Status = StatusClosed then
                  wrapInt (acc.myCredits + (course.Credit : Int))
                else acc.myCredits
              cache := gc }

/-- Handler `GetGrades` (lines 626-854), from the point where the user id is
known.  The `float64` `myGPA` starts as `0.0` (line 684), the value of
`float64(0)`; lines 837-839 divide it by 100 and by `float64(myCredits)` when
`myCredits > 0`. -/
def GetGrades (env : GradesEnv) (userID : String) (gc : GradeCache) :
    GradesResponse × GradeCache :=
  match gpaLookup env gc with
  | Except.error gc1 => (GradesResponse.NoContent StatusInternalServerError, gc1)
  | Except.ok (gpas, gc1) =>
    match env.selectRegisteredCourses userID with
    | none => (GradesResponse.NoContent StatusInternalServerError, gc1)
    | some registeredCourses =>
      match courseLoop env userID registeredCourses
          { courseResults := [], myGPA := FloatExpr.ofInt 0, myCredits := 0, cache := gc1 } with
      | Except.error gc2 => (GradesResponse.NoContent StatusInternalServerError, gc2)
      | Except.ok acc =>
        (GradesResponse.JSON StatusOK
            { Summary :=
                { Credits := acc.myCredits
                  GPA :=
                    if acc.myCredits > 0 then
                      FloatExpr.div (FloatExpr.div acc.myGPA (FloatExpr.ofInt 100))
                        (FloatExpr.ofInt acc.myCredits)
                    else acc.myGPA
                  Gpas := gpas }
              CourseResults := acc.courseResults },
          acc.cache)

/-- The value a lookup serves, `none` when it fails. -/
def served {α : Type} : Except GradeCache (α × GradeCache) → Option α
  | Except.ok (v, _) => some v
  | Except.error _ => none

/-- The cache a lookup leaves. -/
def cacheOf {α : Type} : Except GradeCache (α × GradeCache) → GradeCache
  | Except.ok (_, gc) => gc
  | Except.error gc => gc

/-- The cached global distribution is fresh at the time `now`: it is not nil
and at most 900 ms old. -/
def GpaFresh (now : Int) (gc : GradeCache) : Prop :=
  gc.cachedGPAs ≠ none ∧ now - gc.gpaCachedAt ≤ 900 * Millisecond

instance GpaFresh.decidable (now : Int) (gc : GradeCache) : Decidable (GpaFresh now gc) :=
  inferInstanceAs (Decidable (gc.cachedGPAs ≠ none ∧ now - gc.gpaCachedAt ≤ 900 * Millisecond))

/-- The cached distribution of course `courseID` is fresh at the time `now`
with the value `score`: a timestamp and a value are cached for the id and the
timestamp is at most 100 ms old. -/
def TotalsFresh (now : Int) (gc : GradeCache) (courseID : String) (score : Option (List Int)) :
    Prop :=
  ∃ cachedAt, mapLoad gc.totalScoreCachedAt courseID = some cachedAt ∧
    mapLoad gc.cachedTotalScore courseID = some score ∧ now - cachedAt ≤ 100 * Millisecond

/-- The zero `time.Time`, the first instant of year 1, in nanoseconds from
1970. -/
def zeroTime : Int := -62135596800000000000

/-- The cache of a process that has served no request. -/
def emptyGradeCache : GradeCache :=
  { gpaCachedAt := zeroTime
    cachedGPAs := none
    totalScoreCachedAt := []
    cachedTotalScore := []
    totalScoreCalcGroup := []
    queries := [] }

/-- A call at the time `now` whose aggregation of the GPAs has the result
`gpas` and whose user has no registered course. -/
def exampleEnv (now : Int) (gpas : Option (Option (List Float64))) : GradesEnv :=
  { now := now
    selectGPAs := gpas
    selectRegisteredCourses := fun _ => some []
    selectClasses := fun _ => some []
    querySubmissionsCounts := fun _ => some []
    queryMyScores := fun _ _ => some []
    selectTotals := fun _ => some none }

/-- The cache the loop over the registered courses leaves. -/
def accCache : Except GradeCache GradesAcc → GradeCache
  | Except.ok acc => acc.cache
  | Except.error gc => gc

/-- A cache whose global distribution was computed at the time 0. -/
def staleGradeCache : GradeCache :=
  { emptyGradeCache with cachedGPAs := some [{ bits := 1 }], gpaCachedAt := 0 }

/-- A cache that holds, for course `a`, the distribution `[10, 20]` computed
at the time 0. -/
def courseGradeCache : GradeCache :=
  { emptyGradeCache with
    totalScoreCachedAt := [("a", 0)]
    cachedTotalScore := [("a", some [10, 20])] }

/-- The cache a validation leaves, finished or cut short by a store
failure. -/
def validationCache : Except (List (String × Course)) Validation → List (String × Course)
  | Except.ok v => v.courseCache
  | Except.error cache => cache

/-- The order of two course ids: Go compares strings byte by byte, which on
UTF-8 text is the order of the lists of code points. -/
def idLE (a b : String) : Prop :=
  a.data ≤ b.data

instance idLE.decidable : DecidableRel idLE :=
  fun a b => inferInstanceAs (Decidable (a.data ≤ b.data))

/-! ## Vocabulary of the summary of `GetGrades` -/

/-- The score that counts for a class: the score of the user when the user has
a submission with a non-null score for the class, else nothing. -/
def nonNullScore (myScores : List (String × Option Int)) (cls : Class) : Int :=
  match mapLoad myScores cls.ID with
  | some (some score) => score
  | _ => 0

/-- Sum of the non-null scores of the user over the classes of a course. -/
def sumScores (myScores : List (String × Option Int)) (classes : List Class) : Int :=
  (classes.map (nonNullScore myScores)).sum

/-- The total score of the user for a course, from the classes of the course
and the scores of the user that the queries of the call return. -/
def courseTotalScore (env : GradesEnv) (userID : String) (course : Course) : Int :=
  match env.selectClasses course.ID with
  | none => 0
  | some classes =>
    match queryScores env userID (classes.map fun cls => cls.ID) with
    | none => 0
    | some (_, myScores) => sumScores myScores classes

/-- A call for a user registered in the open course `a`, which has no class,
and in the closed course `c`, which has two classes; the user has the score 80
for the first class and a submission without score for the second. -/
def gradesExampleEnv : GradesEnv :=
  { now := 1000
    selectGPAs := some (some [{ bits := 1 }])
    selectRegisteredCourses := fun _ =>
      some [exampleCourse "a" 1 "monday" "registration", exampleCourse "c" 2 "monday" "closed"]
    selectClasses := fun id =>
      if id = "c" then
        some
          [{ ID := "k2", CourseID := "c", Part := 2, Title := "second", Description := "",
             SubmissionClosed := true },
           { ID := "k1", CourseID := "c", Part := 1, Title := "first", Description := "",
             SubmissionClosed := true }]
      else some []
    querySubmissionsCounts := fun _ => some [("k1", 3), ("k2", 1)]
    queryMyScores := fun _ _ => some [("k1", some 80), ("k2", none)]
    selectTotals := fun _ => some (some [80, 60]) }

/-- A call at the time 1000 for a user registered in the closed course `c` of
2 credits, which has the two classes `k2` and `k1`; the stored score of the
user is 4611686018427387904 for each class.  The aggregation of the totals of
a course fails. -/
def overflowEnv : GradesEnv :=
  { now := 1000
    selectGPAs := some (some [{ bits := 1 }])
    selectRegisteredCourses := fun _ => some [exampleCourse "c" 2 "monday" "closed"]
    selectClasses := fun _ =>
      some
        [{ ID := "k2", CourseID := "c", Part := 2, Title := "second", Description := "",
           SubmissionClosed := true },
         { ID := "k1", CourseID := "c", Part := 1, Title := "first", Description := "",
           SubmissionClosed := true }]
    querySubmissionsCounts := fun _ => some [("k1", 1), ("k2", 1)]
    queryMyScores := fun _ _ =>
      some [("k1", some 4611686018427387904), ("k2", some 4611686018427387904)]
    selectTotals := fun _ => none }

/-- A cache that holds, for course `c`, the distribution `[0]` computed at the
time 990. -/
def overflowCache : GradeCache :=
  { emptyGradeCache with
    totalScoreCachedAt := [("c", 990)]
    cachedTotalScore := [("c", some [0])] }

/-- The body of the response to the call `overflowEnv` with the cache
`overflowCache`. -/
def overflowBody : GetGradeResponse :=
  { Summary :=
      { Credits := 2
        GPA :=
          FloatExpr.div
            (FloatExpr.div (FloatExpr.add (FloatExpr.ofInt 0) (FloatExpr.ofInt 0))
              (FloatExpr.ofInt 100))
            (FloatExpr.ofInt 2)
        Gpas := some [{ bits := 1 }] }
    CourseResults :=
      [{ Name := "course c", Code := "Xc", TotalScore := -9223372036854775808,
         Totals := some [0],
         ClassScores :=
           [{ ClassID := "k2", Title := "second", Part := 2,
              Score := some 4611686018427387904, Submitters := 1 },
            { ClassID := "k1", Title := "first", Part := 1,
              Score := some 4611686018427387904, Submitters := 1 }] }] }

/-! ## Sorting -/

instance reqLE.isTotal : IsTotal RegisterCourseRequestContent reqLE :=
  ⟨fun a b => le_total a.ID.data b.ID.data⟩

instance reqLE.isTrans : IsTrans RegisterCourseRequestContent reqLE :=
  ⟨fun _ _ _ hab hbc => le_trans (α := List Char) hab hbc⟩

instance reqLE.isAntisymm : IsAntisymm RegisterCourseRequestContent reqLE :=
  ⟨fun a b hab hba => by
    have h : a.ID.data = b.ID.data := le_antisymm hab hba
    cases a with
    | mk x =>
      cases b with
      | mk y =>
        have hxy : x = y := String.ext h
        rw [hxy]⟩

theorem sortSlice_perm (req : List RegisterCourseRequestContent) :
    (sortSlice req).Perm req :=
  List.perm_insertionSort reqLE req

theorem sortSlice_sorted (req : List RegisterCourseRequestContent) :
    (sortSlice req).Sorted reqLE :=
  List.sorted_insertionSort reqLE req

theorem sortSlice_eq_of_perm {req1 req2 : List RegisterCourseRequestContent}
    (h : req1.Perm req2) : sortSlice req1 = sortSlice req2 :=
  List.eq_of_perm_of_sorted
    ((sortSlice_perm req1).trans (h.trans (sortSlice_perm req2).symm))
    (sortSlice_sorted req1) (sortSlice_sorted req2)

theorem requested_sortSlice (req : List RegisterCourseRequestContent) (id : String) :
    Requested (sortSlice req) id ↔ Requested req id := by
  unfold Requested
  constructor
  · rintro ⟨r, hr, h⟩
    exact ⟨r, (sortSlice_perm req).mem_iff.mp hr, h⟩
  · rintro ⟨r, hr, h⟩
    exact ⟨r, (sortSlice_perm req).mem_iff.mpr hr, h⟩

/-! ## Resolution is stable under the cache updates of the loop -/

theorem getCourse_id {db : DB} {k : String} {c : Course} (h : getCourse db k = some c) :
    c.ID = k := by
  unfold getCourse at h
  have := List.find?_some h
  simpa using this

theorem getCourse_mem {db : DB} {k : String} {c : Course} (h : getCourse db k = some c) :
    c ∈ db.courses := by
  unfold getCourse at h
  exact List.mem_of_find?_eq_some h

theorem syncMapLoad_mem {cache : List (String × Course)} {k : String} {c : Course}
    (h : syncMapLoad cache k = some c) : (k, c) ∈ cache := by
  induction cache with
  | nil => simp [syncMapLoad] at h
  | cons e m ih =>
    obtain ⟨k1, v1⟩ := e
    simp only [syncMapLoad] at h
    split at h
    · rename_i hk
      simp only [Option.some.injEq] at h
      subst hk
      subst h
      exact List.mem_cons_self _ _
    · exact List.mem_cons_of_mem _ (ih h)

theorem resolve_id {db : DB} {cache : List (String × Course)} (hwf : CacheWF cache)
    {k : String} {c : Course} (h : resolve db cache k = some c) : c.ID = k := by
  unfold resolve at h
  split at h
  · rename_i cs hl
    simp only [Option.some.injEq] at h
    subst h
    exact hwf _ _ (syncMapLoad_mem hl)
  · exact getCourse_id h

theorem resolve_cacheStep (db : DB) (cache : List (String × Course))
    (r : RegisterCourseRequestContent) :
    resolve db (cacheStep db cache r) = resolve db cache := by
  funext id
  unfold cacheStep lookupCourse
  cases hl : syncMapLoad cache r.ID with
  | some cs => simp
  | none =>
    simp only [noFaults, Bool.false_eq_true, if_false]
    cases hg : getCourse db r.ID with
    | none => simp
    | some course =>
      simp only [syncMapStore, resolve, syncMapLoad]
      by_cases hk : r.ID = id
      · subst hk
        simp [hl, hg]
      · simp [hk]

theorem resolve_cacheAfter (db : DB) (req : List RegisterCourseRequestContent) :
    ∀ cache : List (String × Course), resolve db (cacheAfter db cache req) = resolve db cache := by
  induction req with
  | nil => intro cache; rfl
  | cons r rest ih =>
    intro cache
    show resolve db (cacheAfter db (cacheStep db cache r) rest) = _
    rw [ih, resolve_cacheStep]

theorem cacheWF_cacheStep {db : DB} {cache : List (String × Course)} (hwf : CacheWF cache)
    (r : RegisterCourseRequestContent) : CacheWF (cacheStep db cache r) := by
  unfold cacheStep lookupCourse
  cases hl : syncMapLoad cache r.ID with
  | some cs => simpa using hwf
  | none =>
    simp only [noFaults, Bool.false_eq_true, if_false]
    cases hg : getCourse db r.ID with
    | none => simpa using hwf
    | some course =>
      intro k c hmem
      simp only [syncMapStore, List.mem_cons, Prod.mk.injEq] at hmem
      rcases hmem with ⟨h1, h2⟩ | hmem
      · subst h1 h2
        exact getCourse_id hg
      · exact hwf k c hmem

theorem cacheWF_cacheAfter {db : DB} (req : List RegisterCourseRequestContent) :
    ∀ {cache : List (String × Course)}, CacheWF cache → CacheWF (cacheAfter db cache req) := by
  induction req with
  | nil => intro cache h; exact h
  | cons r rest ih =>
    intro cache h
    exact ih (cacheWF_cacheStep h r)

/-! ## The loop over the request, without store failures -/

theorem lookupCourse_noFaults (db : DB) (cache : List (String × Course))
    (r : RegisterCourseRequestContent) :
    (resolve db cache r.ID = none ∧ lookupCourse noFaults db cache r.ID = Lookup.notFound) ∨
    (∃ c, resolve db cache r.ID = some c ∧
      lookupCourse noFaults db cache r.ID = Lookup.found c (cacheStep db cache r)) := by
  unfold cacheStep
  unfold lookupCourse resolve
  cases hl : syncMapLoad cache r.ID with
  | some cs => right; exact ⟨cs, rfl, rfl⟩
  | none =>
    simp only [noFaults, Bool.false_eq_true, if_false]
    cases hg : getCourse db r.ID with
    | none => left; exact ⟨rfl, rfl⟩
    | some course => right; exact ⟨course, rfl, rfl⟩

theorem cacheStep_of_resolve_none {db : DB} {cache : List (String × Course)}
    {r : RegisterCourseRequestContent} (h : resolve db cache r.ID = none) :
    cacheStep db cache r = cache := by
  rcases lookupCourse_noFaults db cache r with ⟨_, hl⟩ | ⟨c, hc, _⟩
  · unfold cacheStep
    rw [hl]
  · rw [h] at hc
    cases hc

theorem registerLoop_noFaults (db : DB) (userID : String)
    (req : List RegisterCourseRequestContent) :
    ∀ v : Validation,
      registerLoop noFaults db userID req v = Except.ok
        { errors :=
            { CourseNotFound :=
                v.errors.CourseNotFound ++ notFoundIDs (resolve db v.courseCache) req
              NotRegistrableStatus :=
                v.errors.NotRegistrableStatus ++ notRegistrableIDs (resolve db v.courseCache) req
              ScheduleConflict := v.errors.ScheduleConflict }
          newlyAdded := v.newlyAdded ++ candidates (resolve db v.courseCache) db userID req
          courseCache := cacheAfter db v.courseCache req } := by
  induction req with
  | nil =>
    intro v
    simp [registerLoop, notFoundIDs, notRegistrableIDs, candidates, cacheAfter]
  | cons r rest ih =>
    intro v
    rcases lookupCourse_noFaults db v.courseCache r with ⟨hres, hl⟩ | ⟨c, hres, hl⟩
    · have hstep := cacheStep_of_resolve_none hres
      simp only [registerLoop, hl]
      rw [ih]
      simp [notFoundIDs, notRegistrableIDs, candidates, cacheAfter, hres, hstep,
        List.filterMap_cons]
    · simp only [registerLoop, hl]
      have hf : noFaults.countRegistration c.ID = false := rfl
      by_cases hs : c.Status = StatusRegistration
      · by_cases hc : countRegistration db c.ID userID = 0
        · have hc2 : ¬ countRegistration db c.ID userID > 0 := by omega
          simp only [hs, ne_eq, not_true_eq_false, if_false, hf, Bool.false_eq_true,
            hc2]
          rw [ih]
          simp [notFoundIDs, notRegistrableIDs, candidates, cacheAfter, hres,
            resolve_cacheStep, List.filterMap_cons, hs, hc]
        · have hc2 : countRegistration db c.ID userID > 0 := by omega
          simp only [hs, ne_eq, not_true_eq_false, if_false, hf, Bool.false_eq_true,
            hc2, if_true]
          rw [ih]
          simp [notFoundIDs, notRegistrableIDs, candidates, cacheAfter, hres,
            resolve_cacheStep, List.filterMap_cons, hs, hc]
      · simp only [ne_eq, hs, not_false_eq_true, if_true]
        rw [ih]
        simp [notFoundIDs, notRegistrableIDs, candidates, cacheAfter, hres,
          resolve_cacheStep, List.filterMap_cons, hs]

/-! ## The conflict check -/

theorem hasConflict_iff (c : Course) (l : List Course) :
    hasConflict c l = true ↔ ∃ c2 ∈ l, Clash c c2 := by
  induction l with
  | nil => simp [hasConflict]
  | cons d rest ih =>
    simp only [hasConflict]
    by_cases h : c.ID ≠ d.ID ∧ c.Period = d.Period ∧ c.DayOfWeek = d.DayOfWeek
    · rw [if_pos h]
      simp only [true_iff]
      exact ⟨d, List.mem_cons_self _ _, h⟩
    · rw [if_neg h, ih]
      constructor
      · rintro ⟨c2, hc2, hx⟩
        exact ⟨c2, List.mem_cons_of_mem _ hc2, hx⟩
      · rintro ⟨c2, hc2, hx⟩
        rcases List.mem_cons.mp hc2 with rfl | hm
        · exact absurd hx h
        · exact ⟨c2, hm, hx⟩

theorem conflictLoop_eq (ar : List Course) (l : List Course) :
    ∀ acc : List String, conflictLoop ar l acc = acc ++ conflictIDs ar l := by
  induction l with
  | nil => intro acc; simp [conflictLoop, conflictIDs]
  | cons c rest ih =>
    intro acc
    unfold conflictLoop
    by_cases h : hasConflict c ar = true
    · rw [if_pos h, ih]
      simp [conflictIDs, List.filter_cons, h]
    · rw [if_neg h, ih]
      simp [conflictIDs, List.filter_cons, h]

theorem mem_conflictIDs (ar l : List Course) (id : String) :
    id ∈ conflictIDs ar l ↔ ∃ c ∈ l, c.ID = id ∧ ∃ c2 ∈ ar, Clash c c2 := by
  unfold conflictIDs
  simp only [List.mem_map, List.mem_filter, hasConflict_iff]
  constructor
  · rintro ⟨c, ⟨hc, hx⟩, hid⟩
    exact ⟨c, hc, hid, hx⟩
  · rintro ⟨c, hc, hid, hx⟩
    exact ⟨c, ⟨hc, hx⟩, hid⟩

theorem mem_notFoundIDs (rs : String → Option Course)
    (req : List RegisterCourseRequestContent) (id : String) :
    id ∈ notFoundIDs rs req ↔ ∃ r ∈ req, r.ID = id ∧ rs r.ID = none := by
  unfold notFoundIDs
  simp only [List.mem_filterMap]
  constructor
  · rintro ⟨r, hr, h⟩
    cases hrs : rs r.ID with
    | none =>
      rw [hrs] at h
      simp only [Option.some.injEq] at h
      exact ⟨r, hr, h, hrs⟩
    | some c =>
      rw [hrs] at h
      cases h
  · rintro ⟨r, hr, hid, hrs⟩
    refine ⟨r, hr, ?_⟩
    rw [hrs, hid]

theorem mem_notRegistrableIDs (rs : String → Option Course)
    (req : List RegisterCourseRequestContent) (id : String) :
    id ∈ notRegistrableIDs rs req ↔
      ∃ r ∈ req, ∃ c, rs r.ID = some c ∧ c.Status ≠ StatusRegistration ∧ c.ID = id := by
  unfold notRegistrableIDs
  simp only [List.mem_filterMap]
  constructor
  · rintro ⟨r, hr, h⟩
    cases hrs : rs r.ID with
    | none =>
      simp only [hrs] at h
      cases h
    | some c =>
      simp only [hrs] at h
      by_cases hs : c.Status ≠ StatusRegistration
      · rw [if_pos hs] at h
        simp only [Option.some.injEq] at h
        exact ⟨r, hr, c, hrs, hs, h⟩
      · rw [if_neg hs] at h
        cases h
  · rintro ⟨r, hr, c, hrs, hs, hid⟩
    refine ⟨r, hr, ?_⟩
    simp only [hrs]
    rw [if_pos hs, hid]

theorem mem_candidates (rs : String → Option Course) (db : DB) (userID : String)
    (req : List RegisterCourseRequestContent) (c : Course) :
    c ∈ candidates rs db userID req ↔
      ∃ r ∈ req, rs r.ID = some c ∧ c.Status = StatusRegistration
        ∧ countRegistration db c.ID userID = 0 := by
  unfold candidates
  simp only [List.mem_filterMap]
  constructor
  · rintro ⟨r, hr, h⟩
    cases hrs : rs r.ID with
    | none =>
      simp only [hrs] at h
      cases h
    | some d =>
      simp only [hrs] at h
      by_cases hs : d.Status = StatusRegistration ∧ countRegistration db d.ID userID = 0
      · rw [if_pos hs] at h
        simp only [Option.some.injEq] at h
        subst h
        exact ⟨r, hr, hrs, hs.1, hs.2⟩
      · rw [if_neg hs] at h
        cases h
  · rintro ⟨r, hr, hrs, hs, hc⟩
    refine ⟨r, hr, ?_⟩
    simp only [hrs]
    rw [if_pos ⟨hs, hc⟩]

theorem validate_noFaults (db : DB) (cache : List (String × Course)) (userID : String)
    (req : List RegisterCourseRequestContent) :
    validate noFaults db cache userID req = Except.ok (validationOf db cache userID req) := by
  unfold validate
  rw [registerLoop_noFaults]
  have hf : noFaults.selectRegistered = false := rfl
  simp only [hf, Bool.false_eq_true, if_false, List.nil_append, conflictLoop_eq, validationOf]

/-! ## The insert and the key-value sets -/

theorem saddLoop_noFaults (userID : String) (l : List Course) :
    ∀ (regArgs : List String) (redis : List (String × String)),
      saddLoop noFaults userID l regArgs redis =
        Except.ok (regArgs ++ regArgsOf userID l, saddAll userID l redis) := by
  induction l with
  | nil => intro regArgs redis; simp [saddLoop, regArgsOf, saddAll]
  | cons c rest ih =>
    intro regArgs redis
    have hf : noFaults.sadd ("registrations:" ++ c.ID) = false := rfl
    simp only [saddLoop, hf, Bool.false_eq_true, if_false]
    rw [ih]
    simp [regArgsOf, saddAll]

theorem bindRows_regArgsOf (userID : String) (l : List Course) :
    bindRows (regArgsOf userID l) = rowsOf userID l := by
  induction l with
  | nil => simp [regArgsOf, rowsOf, bindRows]
  | cons c rest ih =>
    show bindRows (c.ID :: userID :: regArgsOf userID rest) = (c.ID, userID) :: rowsOf userID rest
    simp only [bindRows]
    rw [ih]

theorem length_regArgsOf (userID : String) (l : List Course) :
    (regArgsOf userID l).length = 2 * l.length := by
  induction l with
  | nil => simp [regArgsOf]
  | cons c rest ih =>
    simp only [regArgsOf, List.flatMap_cons, List.length_append, List.length_cons,
      List.length_nil] at ih ⊢
    omega

theorem placeholders_append (a b : String) :
    placeholders (a ++ b) = placeholders a + placeholders b := by
  simp [placeholders, String.data_append, List.count_append]

theorem placeholders_repeatString (n : Nat) :
    placeholders (repeatString ",(?,?)" n) = 2 * n := by
  induction n with
  | zero => simp [repeatString, placeholders]
  | succ k ih =>
    have h2 : placeholders ",(?,?)" = 2 := by decide
    simp only [repeatString, placeholders_append, ih, h2]
    omega

theorem insertQuery_zero : insertQuery 0 = none := by
  simp [insertQuery, stringsRepeat]

theorem insertQuery_succ (n : Nat) :
    ∃ q, insertQuery (n + 1) = some q ∧ placeholders q = 2 * (n + 1) := by
  have hn : ¬ (((n + 1 : Nat) : Int) - 1 < 0) := by omega
  have ht : (((n + 1 : Nat) : Int) - 1).toNat = n := by omega
  have h1 : placeholders "INSERT IGNORE INTO `registrations` (`course_id`, `user_id`) " = 0 := by
    decide
  have h2 : placeholders "VALUES (?, ?)" = 2 := by decide
  refine ⟨"INSERT IGNORE INTO `registrations` (`course_id`, `user_id`) " ++ "VALUES (?, ?)"
    ++ repeatString ",(?,?)" n, ?_, ?_⟩
  · simp only [insertQuery, stringsRepeat, if_neg hn, ht, Option.map_some']
  · simp only [placeholders_append, placeholders_repeatString, h1, h2]
    omega

theorem mem_insertIgnore (rows : List (String × String)) :
    ∀ (table : List (String × String)) (p : String × String),
      p ∈ insertIgnore rows table ↔ p ∈ table ∨ p ∈ rows := by
  induction rows with
  | nil => intro table p; simp [insertIgnore]
  | cons r rest ih =>
    intro table p
    have hstep : insertIgnore (r :: rest) table =
        insertIgnore rest (if r ∈ table then table else table ++ [r]) := rfl
    rw [hstep, ih]
    by_cases hr : r ∈ table
    · rw [if_pos hr]
      constructor
      · rintro (h | h)
        · exact Or.inl h
        · exact Or.inr (List.mem_cons_of_mem _ h)
      · rintro (h | h)
        · exact Or.inl h
        · rcases List.mem_cons.mp h with rfl | h
          · exact Or.inl hr
          · exact Or.inr h
    · rw [if_neg hr]
      simp only [List.mem_append, List.mem_singleton, List.mem_cons]
      tauto

theorem insertIgnore_append (rows : List (String × String)) :
    ∀ table : List (String × String),
      ∃ added, insertIgnore rows table = table ++ added ∧ added.Nodup ∧
        ∀ p, p ∈ added ↔ p ∈ rows ∧ p ∉ table := by
  induction rows with
  | nil =>
    intro table
    exact ⟨[], by simp [insertIgnore], List.nodup_nil, by simp⟩
  | cons r rest ih =>
    intro table
    have hstep : insertIgnore (r :: rest) table =
        insertIgnore rest (if r ∈ table then table else table ++ [r]) := rfl
    rw [hstep]
    by_cases hr : r ∈ table
    · rw [if_pos hr]
      obtain ⟨added, heq, hnd, hmem⟩ := ih table
      refine ⟨added, heq, hnd, ?_⟩
      intro p
      rw [hmem]
      constructor
      · rintro ⟨h1, h2⟩
        exact ⟨List.mem_cons_of_mem _ h1, h2⟩
      · rintro ⟨h1, h2⟩
        rcases List.mem_cons.mp h1 with rfl | h1
        · exact absurd hr h2
        · exact ⟨h1, h2⟩
    · rw [if_neg hr]
      obtain ⟨added, heq, hnd, hmem⟩ := ih (table ++ [r])
      refine ⟨r :: added, ?_, ?_, ?_⟩
      · rw [heq]
        simp
      · refine List.nodup_cons.mpr ⟨?_, hnd⟩
        intro hin
        have := ((hmem r).mp hin).2
        simp at this
      · intro p
        simp only [List.mem_cons, hmem, List.mem_append, List.mem_singleton]
        by_cases hp : p = r
        · subst hp
          simp [hr]
        · simp [hp]

theorem mem_saddAll (userID : String) (l : List Course) :
    ∀ (redis : List (String × String)) (p : String × String),
      p ∈ saddAll userID l redis ↔
        p ∈ redis ∨ ∃ c ∈ l, p = ("registrations:" ++ c.ID, userID) := by
  induction l with
  | nil => intro redis p; simp [saddAll]
  | cons c rest ih =>
    intro redis p
    have hstep : saddAll userID (c :: rest) redis =
        saddAll userID rest (redisSAdd redis ("registrations:" ++ c.ID) userID) := rfl
    rw [hstep, ih]
    have hadd : p ∈ redisSAdd redis ("registrations:" ++ c.ID) userID ↔
        p ∈ redis ∨ p = ("registrations:" ++ c.ID, userID) := by
      unfold redisSAdd
      by_cases hin : ("registrations:" ++ c.ID, userID) ∈ redis
      · rw [if_pos hin]
        constructor
        · intro h; exact Or.inl h
        · rintro (h | h)
          · exact h
          · rw [h]; exact hin
      · rw [if_neg hin]
        simp
    rw [hadd]
    simp only [List.mem_cons, exists_eq_or_imp]
    tauto

/-! ## The handler without store failures -/

theorem countRegistration_eq_zero (db : DB) (courseID userID : String) :
    countRegistration db courseID userID = 0 ↔ (courseID, userID) ∉ db.registrations := by
  unfold countRegistration
  rw [List.countP_eq_zero]
  constructor
  · intro h hmem
    have := h _ hmem
    simp at this
  · intro h r hr
    simp only [decide_eq_true_eq, not_and]
    intro h1 h2
    apply h
    rw [← h1, ← h2]
    exact hr

theorem mem_selectRegistered (db : DB) (userID : String) (c : Course) :
    c ∈ selectRegistered db userID ↔
      c ∈ db.courses ∧ c.Status ≠ StatusClosed ∧ (c.ID, userID) ∈ db.registrations := by
  unfold selectRegistered
  simp only [List.mem_flatMap, List.mem_map, List.mem_filter, decide_eq_true_eq]
  constructor
  · rintro ⟨d, hd, r, ⟨hr, h1, h2, h3⟩, hdc⟩
    subst hdc
    refine ⟨hd, h2, ?_⟩
    rw [h1, ← h3]
    exact hr
  · rintro ⟨hc, hs, hr⟩
    exact ⟨c, hc, (c.ID, userID), ⟨hr, rfl, hs, rfl⟩, rfl⟩

theorem commitRegistrations_nil (flt : Faults) (st : State) (userID : String) (v : Validation)
    (h : v.newlyAdded = []) :
    commitRegistrations flt st userID v =
      (Response.Panic "strings: negative Repeat count",
        { st with courseCache := v.courseCache }) := by
  unfold commitRegistrations
  rw [h]
  simp only [saddLoop, List.length_nil, insertQuery_zero]

theorem commitRegistrations_noFaults (st : State) (userID : String) (v : Validation)
    (h : v.newlyAdded ≠ []) :
    commitRegistrations noFaults st userID v =
      (Response.NoContent StatusOK,
        { db :=
            { st.db with
              registrations := insertIgnore (rowsOf userID v.newlyAdded) st.db.registrations }
          redis := saddAll userID v.newlyAdded st.redis
          courseCache := v.courseCache }) := by
  unfold commitRegistrations
  rw [saddLoop_noFaults]
  obtain ⟨n, hn⟩ : ∃ n, v.newlyAdded.length = n + 1 := by
    cases hl : v.newlyAdded with
    | nil => exact absurd hl h
    | cons c rest => exact ⟨rest.length, rfl⟩
  obtain ⟨q, hq, hp⟩ := insertQuery_succ n
  have he : noFaults.exec = false := rfl
  have hc : noFaults.commit = false := rfl
  have hlen : placeholders q = (regArgsOf userID v.newlyAdded).length := by
    rw [hp, length_regArgsOf, hn]
  simp only [hn, hq, he, hc, Bool.false_eq_true, if_false, List.nil_append, execInsert, hlen,
    if_true, bindRows_regArgsOf]

theorem RegisterCourses_noFaults (st : State) (userID : String)
    (req : List RegisterCourseRequestContent) :
    RegisterCourses noFaults st userID req =
      if (validationOf st.db st.courseCache userID (sortSlice req)).errors.CourseNotFound.length > 0
          ∨ (validationOf st.db st.courseCache userID
              (sortSlice req)).errors.NotRegistrableStatus.length > 0
          ∨ (validationOf st.db st.courseCache userID
              (sortSlice req)).errors.ScheduleConflict.length > 0 then
        (Response.JSON StatusBadRequest
            (validationOf st.db st.courseCache userID (sortSlice req)).errors,
          { st with
            courseCache :=
              (validationOf st.db st.courseCache userID (sortSlice req)).courseCache })
      else
        commitRegistrations noFaults st userID
          (validationOf st.db st.courseCache userID (sortSlice req)) := by
  unfold RegisterCourses
  have hb : noFaults.beginx = false := rfl
  simp only [hb, Bool.false_eq_true, if_false, validate_noFaults]

theorem errors_RegisterCourses_noFaults (st : State) (userID : String)
    (req : List RegisterCourseRequestContent) :
    (RegisterCourses noFaults st userID req).1.errors =
      (validationOf st.db st.courseCache userID (sortSlice req)).errors := by
  rw [RegisterCourses_noFaults]
  split
  · rfl
  · rename_i h
    simp only [gt_iff_lt, List.length_pos, not_or, ne_eq, not_not] at h
    obtain ⟨h1, h2, h3⟩ := h
    have hr : ∀ v : Validation, (commitRegistrations noFaults st userID v).1.errors =
        { CourseNotFound := [], NotRegistrableStatus := [], ScheduleConflict := [] } := by
      intro v
      by_cases hv : v.newlyAdded = []
      · rw [commitRegistrations_nil _ _ _ _ hv]
        rfl
      · rw [commitRegistrations_noFaults _ _ _ hv]
        rfl
    rw [hr]
    generalize (validationOf st.db st.courseCache userID (sortSlice req)).errors = e at h1 h2 h3
    cases e
    simp only at h1 h2 h3
    rw [h1, h2, h3]

theorem mem_candidates_sortSlice (st : State) (userID : String)
    (req : List RegisterCourseRequestContent) (c : Course) :
    c ∈ candidates (resolve st.db st.courseCache) st.db userID (sortSlice req) ↔
      Candidate st userID req c := by
  rw [mem_candidates]
  unfold Candidate
  constructor
  · rintro ⟨r, hr, h⟩
    exact ⟨r, (sortSlice_perm req).mem_iff.mp hr, h⟩
  · rintro ⟨r, hr, h⟩
    exact ⟨r, (sortSlice_perm req).mem_iff.mpr hr, h⟩

theorem resolve_eq_none (db : DB) (cache : List (String × Course)) (id : String) :
    resolve db cache id = none ↔ syncMapLoad cache id = none ∧ getCourse db id = none := by
  unfold resolve
  cases hl : syncMapLoad cache id with
  | none => simp
  | some c => simp

theorem scheduleConflict_aux (st : State) (userID : String)
    (req : List RegisterCourseRequestContent) :
    ∀ id, id ∈ (RegisterCourses noFaults st userID req).1.errors.ScheduleConflict ↔
      ∃ c, Candidate st userID req c ∧ c.ID = id ∧
        ∃ c2, (c2 ∈ selectRegistered st.db userID ∨ Candidate st userID req c2) ∧
          Clash c c2 := by
  intro id
  rw [errors_RegisterCourses_noFaults]
  show id ∈ conflictIDs _ _ ↔ _
  rw [mem_conflictIDs]
  constructor
  · rintro ⟨c, hc, hid, c2, hc2, hclash⟩
    refine ⟨c, (mem_candidates_sortSlice st userID req c).mp hc, hid, c2, ?_, hclash⟩
    rcases List.mem_append.mp hc2 with h | h
    · exact Or.inl h
    · exact Or.inr ((mem_candidates_sortSlice st userID req c2).mp h)
  · rintro ⟨c, hc, hid, c2, hc2, hclash⟩
    refine ⟨c, (mem_candidates_sortSlice st userID req c).mpr hc, hid, c2, ?_, hclash⟩
    rcases hc2 with h | h
    · exact List.mem_append_left _ h
    · exact List.mem_append_right _ ((mem_candidates_sortSlice st userID req c2).mpr h)

theorem cacheWF_lookupCourse {flt : Faults} {db : DB} {cache cache1 : List (String × Course)}
    {k : String} {c : Course} (hwf : CacheWF cache)
    (h : lookupCourse flt db cache k = Lookup.found c cache1) : CacheWF cache1 := by
  unfold lookupCourse at h
  split at h
  · cases h
    exact hwf
  · split at h
    · cases h
    · split at h
      · cases h
      · rename_i course hg
        cases h
        intro k1 c1 hmem
        simp only [syncMapStore, List.mem_cons, Prod.mk.injEq] at hmem
        rcases hmem with ⟨h1, h2⟩ | hmem
        · rw [h1, h2]
          exact getCourse_id hg
        · exact hwf k1 c1 hmem

/-- The loop keeps every cache entry under the id of its course, also when it
is cut short by a store failure. -/
theorem cacheWF_registerLoop (flt : Faults) (db : DB) (userID : String)
    (req : List RegisterCourseRequestContent) :
    ∀ v : Validation, CacheWF v.courseCache →
      ResultWF (registerLoop flt db userID req v) := by
  induction req with
  | nil => intro v hwf; exact hwf
  | cons r rest ih =>
    intro v hwf
    simp only [registerLoop]
    cases hl : lookupCourse flt db v.courseCache r.ID with
    | failed => exact hwf
    | notFound => exact ih _ hwf
    | found c cache1 =>
      have hwf1 : CacheWF cache1 := cacheWF_lookupCourse hwf hl
      simp only
      by_cases hs : c.Status ≠ StatusRegistration
      · rw [if_pos hs]
        exact ih _ hwf1
      · rw [if_neg hs]
        by_cases hf : flt.countRegistration c.ID = true
        · rw [if_pos hf]
          exact hwf1
        · rw [if_neg hf]
          by_cases hc : countRegistration db c.ID userID > 0
          · rw [if_pos hc]
            exact ih _ hwf1
          · rw [if_neg hc]
            exact ih _ hwf1

theorem cacheWF_validate (flt : Faults) (db : DB) (cache : List (String × Course))
    (userID : String) (req : List RegisterCourseRequestContent) (hwf : CacheWF cache) :
    ResultWF (validate flt db cache userID req) := by
  have hloop := cacheWF_registerLoop flt db userID req
    { errors := { CourseNotFound := [], NotRegistrableStatus := [], ScheduleConflict := [] }
      newlyAdded := []
      courseCache := cache } hwf
  unfold validate
  cases hr : registerLoop flt db userID req
      { errors := { CourseNotFound := [], NotRegistrableStatus := [], ScheduleConflict := [] }
        newlyAdded := []
        courseCache := cache } with
  | error c1 =>
    rw [hr] at hloop
    exact hloop
  | ok v1 =>
    rw [hr] at hloop
    simp only
    by_cases hf : flt.selectRegistered = true
    · rw [if_pos hf]
      exact hloop
    · rw [if_neg hf]
      exact hloop

theorem courseCache_commitRegistrations (flt : Faults) (st : State) (userID : String)
    (v : Validation) : (commitRegistrations flt st userID v).2.courseCache = v.courseCache := by
  unfold commitRegistrations
  cases saddLoop flt userID v.newlyAdded [] st.redis with
  | error redis => rfl
  | ok p =>
    obtain ⟨regArgs, redis⟩ := p
    simp only
    cases insertQuery v.newlyAdded.length with
    | none => rfl
    | some query =>
      simp only
      by_cases he : flt.exec = true
      · rw [if_pos he]
      · rw [if_neg he]
        cases execInsert query regArgs st.db.registrations with
        | none => rfl
        | some registrations =>
          simp only
          by_cases hc : flt.commit = true
          · rw [if_pos hc]
          · rw [if_neg hc]

/-- The handler keeps every cache entry under the id of its course, whatever
store operations fail. -/
theorem cacheWF_RegisterCourses (flt : Faults) (st : State) (userID : String)
    (req : List RegisterCourseRequestContent) (hwf : CacheWF st.courseCache) :
    CacheWF (RegisterCourses flt st userID req).2.courseCache := by
  have hval := cacheWF_validate flt st.db st.courseCache userID (sortSlice req) hwf
  unfold RegisterCourses
  simp only
  by_cases hb : flt.beginx = true
  · rw [if_pos hb]
    exact hwf
  · rw [if_neg hb]
    cases hv : validate flt st.db st.courseCache userID (sortSlice req) with
    | error c1 =>
      rw [hv] at hval
      exact hval
    | ok v1 =>
      rw [hv] at hval
      simp only
      split
      · exact hval
      · rw [courseCache_commitRegistrations]
        exact hval

/-! ## Claims about `RegisterCourses` -/

/-- C1 (the code departs from the claim): with an empty request list and no
store failure the handler does not answer 200; `strings.Repeat` is called with
the count `-1` and panics.  The store, the key-value sets and the cache are
left as they were. -/
theorem RegisterCourses_empty_request_panics (st : State) (userID : String) :
    RegisterCourses noFaults st userID [] =
      (Response.Panic "strings: negative Repeat count", st) := by
  rw [RegisterCourses_noFaults]
  have hs : sortSlice [] = [] := rfl
  have hv : validationOf st.db st.courseCache userID [] =
      { errors := { CourseNotFound := [], NotRegistrableStatus := [], ScheduleConflict := [] }
        newlyAdded := []
        courseCache := st.courseCache } := rfl
  rw [hs, hv]
  simp only [List.length_nil, gt_iff_lt, lt_self_iff_false, or_self, if_false]
  rw [commitRegistrations_nil _ _ _ _ rfl]

/-- C2 (the code departs from the claim): user `u` is enrolled in the open
course `a`; the request `[a]` passes the validation with three empty error
lists and no newly added course, and the handler panics in `strings.Repeat`
instead of answering 200.  No registration row is added. -/
theorem RegisterCourses_reregistration_panics :
    (RegisterCourses noFaults exampleState "u" [{ ID := "a" }]).1 =
        Response.Panic "strings: negative Repeat count" ∧
      (RegisterCourses noFaults exampleState "u" [{ ID := "a" }]).2.db = exampleState.db ∧
      (RegisterCourses noFaults exampleState "u" [{ ID := "a" }]).2.redis =
        exampleState.redis := by
  decide

/-- C4: whenever the validation ends with a non-empty `CourseNotFound`,
`NotRegistrableStatus` or `ScheduleConflict`, the handler answers 400 with
exactly these lists, and the relational store and the key-value sets are the
ones of the start. -/
theorem RegisterCourses_rejects_whole_batch (flt : Faults) (st : State) (userID : String)
    (req : List RegisterCourseRequestContent) (v : Validation)
    (hb : flt.beginx = false)
    (hv : validate flt st.db st.courseCache userID (sortSlice req) = Except.ok v)
    (herr : v.errors.CourseNotFound ≠ [] ∨ v.errors.NotRegistrableStatus ≠ []
      ∨ v.errors.ScheduleConflict ≠ []) :
    RegisterCourses flt st userID req =
        (Response.JSON StatusBadRequest v.errors, { st with courseCache := v.courseCache }) ∧
      (RegisterCourses flt st userID req).2.db = st.db ∧
      (RegisterCourses flt st userID req).2.redis = st.redis := by
  have hlen : v.errors.CourseNotFound.length > 0 ∨ v.errors.NotRegistrableStatus.length > 0
      ∨ v.errors.ScheduleConflict.length > 0 := by
    simpa only [gt_iff_lt, List.length_pos] using herr
  have h : RegisterCourses flt st userID req =
      (Response.JSON StatusBadRequest v.errors, { st with courseCache := v.courseCache }) := by
    unfold RegisterCourses
    simp only [hb, Bool.false_eq_true, if_false, hv, hlen, if_true]
  rw [h]
  exact ⟨rfl, rfl, rfl⟩

/-- Witness of C4: the request `[b, z]` of user `v`, where `b` is valid and
`z` does not exist, is answered 400 with `CourseNotFound = [z]`, and nothing
is committed. -/
theorem RegisterCourses_rejects_whole_batch_witness :
    validate noFaults exampleState.db exampleState.courseCache "v"
        (sortSlice [{ ID := "z" }, { ID := "b" }]) =
      Except.ok
        { errors :=
            { CourseNotFound := ["z"], NotRegistrableStatus := [], ScheduleConflict := [] }
          newlyAdded := [exampleCourse "b" 1 "monday" "registration"]
          courseCache :=
            [("b", exampleCourse "b" 1 "monday" "registration"),
             ("c", exampleCourse "c" 2 "monday" "closed")] } ∧
      (RegisterCourses noFaults exampleState "v" [{ ID := "z" }, { ID := "b" }] =
          (Response.JSON StatusBadRequest
              { CourseNotFound := ["z"], NotRegistrableStatus := [], ScheduleConflict := [] },
            { exampleState with
              courseCache :=
                [("b", exampleCourse "b" 1 "monday" "registration"),
                 ("c", exampleCourse "c" 2 "monday" "closed")] }) ∧
        (RegisterCourses noFaults exampleState "v" [{ ID := "z" }, { ID := "b" }]).2.db =
          exampleState.db ∧
        (RegisterCourses noFaults exampleState "v" [{ ID := "z" }, { ID := "b" }]).2.redis =
          exampleState.redis) :=
  ⟨rfl,
    RegisterCourses_rejects_whole_batch noFaults exampleState "v"
      [{ ID := "z" }, { ID := "b" }] _ rfl rfl (Or.inl (by decide))⟩

/-- C5 (the code departs from the claim): user `u` is enrolled in `a` and
`d`; for the request `[d, a]` no store operation fails and the three error
lists are empty, yet the batch is not accepted: the handler panics in
`strings.Repeat`. -/
theorem RegisterCourses_empty_lists_not_accepted :
    validate noFaults exampleState.db exampleState.courseCache "u"
        (sortSlice [{ ID := "d" }, { ID := "a" }]) =
      Except.ok
        { errors := { CourseNotFound := [], NotRegistrableStatus := [], ScheduleConflict := [] }
          newlyAdded := []
          courseCache :=
            [("d", exampleCourse "d" 3 "tuesday" "registration"),
             ("a", exampleCourse "a" 1 "monday" "registration"),
             ("c", exampleCourse "c" 2 "monday" "closed")] } ∧
      (RegisterCourses noFaults exampleState "u" [{ ID := "d" }, { ID := "a" }]).1 =
        Response.Panic "strings: negative Repeat count" := by
  constructor
  · rfl
  · decide

/-- C3: a non-empty request whose ids all resolve to a course of that id that
is open for registration and in which the user is not enrolled, and in which
no requested course clashes with another requested course or with a non-closed
enrollment of the user, is answered 200; the registrations table is the old
table followed by exactly the rows `(id, user)` of the requested ids, each
once, and the user is a member of the set `registrations:<id>` of every
requested id. -/
theorem RegisterCourses_commits_valid_batch (st : State) (userID : String)
    (req : List RegisterCourseRequestContent)
    (hne : req ≠ [])
    (hvalid : ∀ r ∈ req, ∃ c, resolve st.db st.courseCache r.ID = some c ∧ c.ID = r.ID ∧
      c.Status = StatusRegistration ∧ (r.ID, userID) ∉ st.db.registrations)
    (hfree : ∀ c1 c2, (∃ r ∈ req, resolve st.db st.courseCache r.ID = some c1) →
      (c2 ∈ selectRegistered st.db userID ∨
        ∃ r ∈ req, resolve st.db st.courseCache r.ID = some c2) → ¬ Clash c1 c2) :
    (RegisterCourses noFaults st userID req).1 = Response.NoContent StatusOK ∧
      (∃ added,
        (RegisterCourses noFaults st userID req).2.db.registrations =
          st.db.registrations ++ added ∧
        added.Nodup ∧ ∀ p, p ∈ added ↔ ∃ r ∈ req, p = (r.ID, userID)) ∧
      (RegisterCourses noFaults st userID req).2.db.courses = st.db.courses ∧
      ∀ r ∈ req,
        redisSIsMember (RegisterCourses noFaults st userID req).2.redis
          ("registrations:" ++ r.ID) userID = true := by
  have hperm := sortSlice_perm req
  have hcand : ∀ c, c ∈ candidates (resolve st.db st.courseCache) st.db userID (sortSlice req) ↔
      ∃ r ∈ req, resolve st.db st.courseCache r.ID = some c := by
    intro c
    rw [mem_candidates]
    constructor
    · rintro ⟨r, hr, hres, _, _⟩
      exact ⟨r, hperm.mem_iff.mp hr, hres⟩
    · rintro ⟨r, hr, hres⟩
      obtain ⟨d, hres2, hid, hs, hreg⟩ := hvalid r hr
      rw [hres] at hres2
      cases hres2
      refine ⟨r, hperm.mem_iff.mpr hr, hres, hs, ?_⟩
      rw [countRegistration_eq_zero, hid]
      exact hreg
  have hnf : notFoundIDs (resolve st.db st.courseCache) (sortSlice req) = [] := by
    rw [List.eq_nil_iff_forall_not_mem]
    intro id hid
    rw [mem_notFoundIDs] at hid
    obtain ⟨r, hr, _, hnone⟩ := hid
    obtain ⟨c, hres, _⟩ := hvalid r (hperm.mem_iff.mp hr)
    rw [hnone] at hres
    cases hres
  have hnr : notRegistrableIDs (resolve st.db st.courseCache) (sortSlice req) = [] := by
    rw [List.eq_nil_iff_forall_not_mem]
    intro id hid
    rw [mem_notRegistrableIDs] at hid
    obtain ⟨r, hr, c, hres, hs, _⟩ := hid
    obtain ⟨d, hres2, _, hs2, _⟩ := hvalid r (hperm.mem_iff.mp hr)
    rw [hres] at hres2
    cases hres2
    exact hs hs2
  have hsc : conflictIDs
      (selectRegistered st.db userID ++
        candidates (resolve st.db st.courseCache) st.db userID (sortSlice req))
      (candidates (resolve st.db st.courseCache) st.db userID (sortSlice req)) = [] := by
    rw [List.eq_nil_iff_forall_not_mem]
    intro id hid
    rw [mem_conflictIDs] at hid
    obtain ⟨c, hc, _, c2, hc2, hclash⟩ := hid
    refine hfree c c2 ((hcand c).mp hc) ?_ hclash
    rcases List.mem_append.mp hc2 with h | h
    · exact Or.inl h
    · exact Or.inr ((hcand c2).mp h)
  have hne2 : (validationOf st.db st.courseCache userID (sortSlice req)).newlyAdded ≠ [] := by
    obtain ⟨r, hr⟩ := List.exists_mem_of_ne_nil req hne
    obtain ⟨c, hres, _⟩ := hvalid r hr
    intro hnil
    have hc : c ∈ candidates (resolve st.db st.courseCache) st.db userID (sortSlice req) :=
      (hcand c).mpr ⟨r, hr, hres⟩
    have hnil2 : candidates (resolve st.db st.courseCache) st.db userID (sortSlice req) = [] :=
      hnil
    rw [hnil2] at hc
    cases hc
  have hR : RegisterCourses noFaults st userID req =
      (Response.NoContent StatusOK,
        { db :=
            { st.db with
              registrations :=
                insertIgnore
                  (rowsOf userID
                    (candidates (resolve st.db st.courseCache) st.db userID (sortSlice req)))
                  st.db.registrations }
          redis :=
            saddAll userID
              (candidates (resolve st.db st.courseCache) st.db userID (sortSlice req)) st.redis
          courseCache := cacheAfter st.db st.courseCache (sortSlice req) }) := by
    rw [RegisterCourses_noFaults, commitRegistrations_noFaults _ _ _ hne2]
    simp only [validationOf, hnf, hnr, hsc, List.length_nil, gt_iff_lt, lt_self_iff_false,
      or_self, if_false]
  rw [hR]
  refine ⟨rfl, ?_, rfl, ?_⟩
  · obtain ⟨added, heq, hnd, hmem⟩ :=
      insertIgnore_append
        (rowsOf userID (candidates (resolve st.db st.courseCache) st.db userID (sortSlice req)))
        st.db.registrations
    refine ⟨added, heq, hnd, ?_⟩
    intro p
    rw [hmem]
    constructor
    · rintro ⟨hp, _⟩
      unfold rowsOf at hp
      rw [List.mem_map] at hp
      obtain ⟨c, hc, hpc⟩ := hp
      obtain ⟨r, hr, hres⟩ := (hcand c).mp hc
      obtain ⟨d, hres2, hid, _, _⟩ := hvalid r hr
      rw [hres] at hres2
      cases hres2
      exact ⟨r, hr, by rw [← hpc, hid]⟩
    · rintro ⟨r, hr, hp⟩
      obtain ⟨c, hres, hid, _, hreg⟩ := hvalid r hr
      refine ⟨?_, by rw [hp]; exact hreg⟩
      unfold rowsOf
      rw [List.mem_map]
      exact ⟨c, (hcand c).mpr ⟨r, hr, hres⟩, by rw [hp, hid]⟩
  · intro r hr
    obtain ⟨c, hres, hid, _, _⟩ := hvalid r hr
    unfold redisSIsMember
    simp only [decide_eq_true_eq]
    rw [mem_saddAll]
    right
    exact ⟨c, (hcand c).mpr ⟨r, hr, hres⟩, by rw [hid]⟩

/-- Witness of C3: user `v` has no enrollment; the request `[d, a]` is
answered 200, the rows `(a, v)` and `(d, v)` follow the old table and `v` is a
member of the sets of `a` and `d`. -/
theorem RegisterCourses_commits_valid_batch_witness :
    (RegisterCourses noFaults exampleState "v" [{ ID := "d" }, { ID := "a" }]).1 =
        Response.NoContent StatusOK ∧
      (∃ added,
        (RegisterCourses noFaults exampleState "v"
            [{ ID := "d" }, { ID := "a" }]).2.db.registrations =
          exampleState.db.registrations ++ added ∧
        added.Nodup ∧
        ∀ p, p ∈ added ↔
          ∃ r ∈ ([{ ID := "d" }, { ID := "a" }] : List RegisterCourseRequestContent),
            p = (r.ID, "v")) ∧
      (RegisterCourses noFaults exampleState "v" [{ ID := "d" }, { ID := "a" }]).2.db.courses =
        exampleState.db.courses ∧
      ∀ r ∈ ([{ ID := "d" }, { ID := "a" }] : List RegisterCourseRequestContent),
        redisSIsMember
          (RegisterCourses noFaults exampleState "v" [{ ID := "d" }, { ID := "a" }]).2.redis
          ("registrations:" ++ r.ID) "v" = true := by
  have hd : resolve exampleState.db exampleState.courseCache "d" =
      some (exampleCourse "d" 3 "tuesday" "registration") := by decide
  have ha : resolve exampleState.db exampleState.courseCache "a" =
      some (exampleCourse "a" 1 "monday" "registration") := by decide
  have hsel : selectRegistered exampleState.db "v" = [] := by decide
  have hda : ¬ Clash (exampleCourse "d" 3 "tuesday" "registration")
      (exampleCourse "a" 1 "monday" "registration") := by
    unfold Clash
    decide
  have had : ¬ Clash (exampleCourse "a" 1 "monday" "registration")
      (exampleCourse "d" 3 "tuesday" "registration") := by
    unfold Clash
    decide
  refine RegisterCourses_commits_valid_batch exampleState "v" [{ ID := "d" }, { ID := "a" }]
    (List.cons_ne_nil _ _) ?_ ?_
  · intro r hr
    simp only [List.mem_cons, List.mem_singleton, List.not_mem_nil, or_false] at hr
    rcases hr with rfl | rfl
    · exact ⟨_, hd, rfl, rfl, by decide⟩
    · exact ⟨_, ha, rfl, rfl, by decide⟩
  · rintro c1 c2 ⟨r1, hr1, h1⟩ h2 hclash
    rw [hsel] at h2
    rcases h2 with h2 | ⟨r2, hr2, h2⟩
    · cases h2
    · simp only [List.mem_cons, List.mem_singleton, List.not_mem_nil, or_false] at hr1 hr2
      rcases hr1 with rfl | rfl <;> rcases hr2 with rfl | rfl
      · rw [hd] at h1 h2
        cases h1
        cases h2
        exact hclash.1 rfl
      · rw [hd] at h1
        rw [ha] at h2
        cases h1
        cases h2
        exact hda hclash
      · rw [ha] at h1
        rw [hd] at h2
        cases h1
        cases h2
        exact had hclash
      · rw [ha] at h1 h2
        cases h1
        cases h2
        exact hclash.1 rfl

/-- C6: when the user holds a registration for a non-closed course `a` and a
requested id resolves to a course `b` that is open for registration, not yet
an enrollment of the user, of another id than `a` and in the period and day of
`a`, the handler answers 400 with the id of `b` in `ScheduleConflict`; the
relational store and the key-value sets are unchanged, so no row `(b, user)`
exists afterwards and the row `(a, user)` and the course `a` are still
there. -/
theorem RegisterCourses_flags_schedule_conflict (st : State) (userID : String)
    (req : List RegisterCourseRequestContent) (a b : Course)
    (r : RegisterCourseRequestContent)
    (ha : a ∈ st.db.courses) (hopen : a.Status ≠ StatusClosed)
    (hareg : (a.ID, userID) ∈ st.db.registrations)
    (hr : r ∈ req) (hres : resolve st.db st.courseCache r.ID = some b)
    (hbs : b.Status = StatusRegistration) (hbreg : (b.ID, userID) ∉ st.db.registrations)
    (hid : b.ID ≠ a.ID) (hp : b.Period = a.Period) (hd : b.DayOfWeek = a.DayOfWeek) :
    (RegisterCourses noFaults st userID req).1 =
        Response.JSON StatusBadRequest (RegisterCourses noFaults st userID req).1.errors ∧
      b.ID ∈ (RegisterCourses noFaults st userID req).1.errors.ScheduleConflict ∧
      (RegisterCourses noFaults st userID req).2.db = st.db ∧
      (RegisterCourses noFaults st userID req).2.redis = st.redis ∧
      (b.ID, userID) ∉ (RegisterCourses noFaults st userID req).2.db.registrations ∧
      (a.ID, userID) ∈ (RegisterCourses noFaults st userID req).2.db.registrations ∧
      a ∈ (RegisterCourses noFaults st userID req).2.db.courses := by
  have hb : b ∈ candidates (resolve st.db st.courseCache) st.db userID (sortSlice req) := by
    rw [mem_candidates]
    exact ⟨r, (sortSlice_perm req).mem_iff.mpr hr, hres, hbs,
      (countRegistration_eq_zero _ _ _).mpr hbreg⟩
  have hsel : a ∈ selectRegistered st.db userID :=
    (mem_selectRegistered _ _ _).mpr ⟨ha, hopen, hareg⟩
  have hmem : b.ID ∈
      (validationOf st.db st.courseCache userID (sortSlice req)).errors.ScheduleConflict := by
    show b.ID ∈ conflictIDs _ _
    rw [mem_conflictIDs]
    exact ⟨b, hb, rfl, a, List.mem_append_left _ hsel, hid, hp, hd⟩
  have hlen :
      (validationOf st.db st.courseCache userID (sortSlice req)).errors.CourseNotFound.length > 0
      ∨ (validationOf st.db st.courseCache userID
          (sortSlice req)).errors.NotRegistrableStatus.length > 0
      ∨ (validationOf st.db st.courseCache userID
          (sortSlice req)).errors.ScheduleConflict.length > 0 :=
    Or.inr (Or.inr (List.length_pos_of_mem hmem))
  rw [RegisterCourses_noFaults, if_pos hlen]
  exact ⟨rfl, hmem, rfl, rfl, hbreg, hareg, ha⟩

/-- Witness of C6: user `u` is enrolled in `a` (period 1, Monday); the request
`[b]`, with `b` in period 1 of Monday, is answered 400 with `b` in
`ScheduleConflict` and the store is unchanged. -/
theorem RegisterCourses_flags_schedule_conflict_witness :
    (RegisterCourses noFaults exampleState "u" [{ ID := "b" }]).1 =
        Response.JSON StatusBadRequest
          (RegisterCourses noFaults exampleState "u" [{ ID := "b" }]).1.errors ∧
      "b" ∈ (RegisterCourses noFaults exampleState "u" [{ ID := "b" }]).1.errors.ScheduleConflict ∧
      (RegisterCourses noFaults exampleState "u" [{ ID := "b" }]).2.db = exampleState.db ∧
      (RegisterCourses noFaults exampleState "u" [{ ID := "b" }]).2.redis = exampleState.redis ∧
      ("b", "u") ∉ (RegisterCourses noFaults exampleState "u" [{ ID := "b" }]).2.db.registrations ∧
      ("a", "u") ∈ (RegisterCourses noFaults exampleState "u" [{ ID := "b" }]).2.db.registrations ∧
      exampleCourse "a" 1 "monday" "registration" ∈
        (RegisterCourses noFaults exampleState "u" [{ ID := "b" }]).2.db.courses :=
  RegisterCourses_flags_schedule_conflict exampleState "u" [{ ID := "b" }]
    (exampleCourse "a" 1 "monday" "registration") (exampleCourse "b" 1 "monday" "registration")
    { ID := "b" } (by decide) (by decide) (by decide) (by decide) (by decide) (by decide)
    (by decide) (by decide) (by decide) (by decide)

/-- C7: without store failures, an id is in `ScheduleConflict` exactly when it
is the id of a newly-added candidate, a course the user has no registration
row for, that clashes (other id, same period, same day) with an existing
non-closed enrollment of the user, that is a row of `courses` whose status is
not closed and for which `registrations` has a row of the user, or with a
newly-added candidate; the id of an existing non-closed enrollment is never
listed. -/
theorem scheduleConflict_iff (st : State) (userID : String)
    (req : List RegisterCourseRequestContent) :
    (∀ id, id ∈ (RegisterCourses noFaults st userID req).1.errors.ScheduleConflict ↔
        ∃ c, Candidate st userID req c ∧ (c.ID, userID) ∉ st.db.registrations ∧ c.ID = id ∧
          ∃ c2,
            ((c2 ∈ st.db.courses ∧ c2.Status ≠ StatusClosed ∧
                (c2.ID, userID) ∈ st.db.registrations) ∨
              (Candidate st userID req c2 ∧ (c2.ID, userID) ∉ st.db.registrations)) ∧
            Clash c c2) ∧
      ∀ e, e ∈ st.db.courses → e.Status ≠ StatusClosed →
        (e.ID, userID) ∈ st.db.registrations →
        e.ID ∉ (RegisterCourses noFaults st userID req).1.errors.ScheduleConflict := by
  have key := scheduleConflict_aux st userID req
  have hsel : ∀ c, c ∈ selectRegistered st.db userID ↔
      c ∈ st.db.courses ∧ c.Status ≠ StatusClosed ∧ (c.ID, userID) ∈ st.db.registrations := by
    intro c
    unfold selectRegistered
    simp only [List.mem_flatMap, List.mem_map, List.mem_filter, decide_eq_true_eq]
    constructor
    · rintro ⟨d, hd, r, ⟨hr, h1, h2, h3⟩, hdc⟩
      subst hdc
      refine ⟨hd, h2, ?_⟩
      rw [h1, ← h3]
      exact hr
    · rintro ⟨hc, hs, hr⟩
      exact ⟨c, hc, (c.ID, userID), ⟨hr, rfl, hs, rfl⟩, rfl⟩
  have hc : ∀ c, Candidate st userID req c → (c.ID, userID) ∉ st.db.registrations := by
    rintro c ⟨_, _, _, _, hcount⟩ hmem
    unfold countRegistration at hcount
    rw [List.countP_eq_zero] at hcount
    have := hcount _ hmem
    simp at this
  refine ⟨?_, ?_⟩
  · intro id
    rw [key id]
    constructor
    · rintro ⟨c, hcand, hid, c2, h2, hclash⟩
      refine ⟨c, hcand, hc c hcand, hid, c2, ?_, hclash⟩
      rcases h2 with h | h
      · exact Or.inl ((hsel c2).mp h)
      · exact Or.inr ⟨h, hc c2 h⟩
    · rintro ⟨c, hcand, _, hid, c2, h2, hclash⟩
      refine ⟨c, hcand, hid, c2, ?_, hclash⟩
      rcases h2 with h | h
      · exact Or.inl ((hsel c2).mpr h)
      · exact Or.inr h.1
  · intro e _ _ hr hin
    obtain ⟨c, hcand, hid, _⟩ := (key e.ID).mp hin
    have hn := hc c hcand
    rw [hid] at hn
    exact hn hr

/-- Witness of C7: user `u` is enrolled in the open course `a` (period 1,
Monday) and requests `b` (period 1, Monday): `b` is listed in
`ScheduleConflict` and `a` is not. -/
theorem scheduleConflict_iff_witness :
    "b" ∈ (RegisterCourses noFaults exampleState "u" [{ ID := "b" }]).1.errors.ScheduleConflict ∧
      "a" ∉
        (RegisterCourses noFaults exampleState "u" [{ ID := "b" }]).1.errors.ScheduleConflict :=
  ⟨((scheduleConflict_iff exampleState "u" [{ ID := "b" }]).1 "b").mpr
      ⟨exampleCourse "b" 1 "monday" "registration",
        ⟨{ ID := "b" }, by decide, by decide, by decide, by decide⟩, by decide, rfl,
        exampleCourse "a" 1 "monday" "registration",
        Or.inl ⟨by decide, by decide, by decide⟩, ⟨by decide, by decide, by decide⟩⟩,
    (scheduleConflict_iff exampleState "u" [{ ID := "b" }]).2
      (exampleCourse "a" 1 "monday" "registration") (by decide) (by decide) (by decide)⟩

/-- C8: without store failures, an id is in `CourseNotFound` exactly when it
is requested and neither `courseCache` nor the store has a course for it,
whatever else the request contains; the store has no course for an id exactly
when no row of `courses` has the id. -/
theorem courseNotFound_iff (st : State) (userID : String)
    (req : List RegisterCourseRequestContent) (id : String) :
    (id ∈ (RegisterCourses noFaults st userID req).1.errors.CourseNotFound ↔
        Requested req id ∧ syncMapLoad st.courseCache id = none ∧
          getCourse st.db id = none) ∧
      (getCourse st.db id = none ↔ ∀ c ∈ st.db.courses, c.ID ≠ id) := by
  refine ⟨?_, ?_⟩
  · rw [errors_RegisterCourses_noFaults]
    show id ∈ notFoundIDs _ _ ↔ _
    rw [mem_notFoundIDs, ← resolve_eq_none, ← requested_sortSlice]
    unfold Requested
    constructor
    · rintro ⟨r, hr, hid, hnone⟩
      rw [hid] at hnone
      exact ⟨⟨r, hr, hid⟩, hnone⟩
    · rintro ⟨⟨r, hr, hid⟩, hnone⟩
      rw [← hid] at hnone
      exact ⟨r, hr, hid, hnone⟩
  · unfold getCourse
    rw [List.find?_eq_none]
    simp only [decide_eq_true_eq]

/-- C9: when every cache entry is stored under the id of its course and no
store operation fails, an id is in `NotRegistrableStatus` exactly when it is
requested and resolves to a course whose status is not registration; such an
id is the id of no newly-added candidate and is not in `ScheduleConflict`. -/
theorem notRegistrableStatus_iff (st : State) (userID : String)
    (req : List RegisterCourseRequestContent) (hwf : CacheWF st.courseCache) :
    (∀ id, id ∈ (RegisterCourses noFaults st userID req).1.errors.NotRegistrableStatus ↔
        Requested req id ∧
          ∃ c, resolve st.db st.courseCache id = some c ∧ c.Status ≠ StatusRegistration) ∧
      ∀ id ∈ (RegisterCourses noFaults st userID req).1.errors.NotRegistrableStatus,
        (∀ c, Candidate st userID req c → c.ID ≠ id) ∧
          id ∉ (RegisterCourses noFaults st userID req).1.errors.ScheduleConflict := by
  have key : ∀ id,
      id ∈ (RegisterCourses noFaults st userID req).1.errors.NotRegistrableStatus ↔
        Requested req id ∧
          ∃ c, resolve st.db st.courseCache id = some c ∧ c.Status ≠ StatusRegistration := by
    intro id
    rw [errors_RegisterCourses_noFaults]
    show id ∈ notRegistrableIDs _ _ ↔ _
    rw [mem_notRegistrableIDs, ← requested_sortSlice]
    unfold Requested
    constructor
    · rintro ⟨r, hr, c, hres, hs, hid⟩
      have hrid : r.ID = id := by rw [← resolve_id hwf hres, hid]
      rw [hrid] at hres
      exact ⟨⟨r, hr, hrid⟩, c, hres, hs⟩
    · rintro ⟨⟨r, hr, hrid⟩, c, hres, hs⟩
      refine ⟨r, hr, c, ?_, hs, resolve_id hwf hres⟩
      rw [hrid]
      exact hres
  refine ⟨key, ?_⟩
  intro id hin
  obtain ⟨_, c, hres, hs⟩ := (key id).mp hin
  have hno : ∀ d, Candidate st userID req d → d.ID ≠ id := by
    rintro d ⟨r, _, hresd, hsd, _⟩ hid
    have hrid : r.ID = id := by rw [← resolve_id hwf hresd, hid]
    rw [hrid, hres] at hresd
    cases hresd
    exact hs hsd
  refine ⟨hno, ?_⟩
  intro hsc
  obtain ⟨d, hd, hid, _⟩ := ((scheduleConflict_aux st userID req) id).mp hsc
  exact hno d hd hid

/-- Witness of C9: the cache of the example holds the closed course `c` under
its id; the request `[c, b]` of user `v` lists `c` in `NotRegistrableStatus`
and not in `ScheduleConflict`. -/
theorem notRegistrableStatus_iff_witness :
    CacheWF exampleState.courseCache ∧
      "c" ∈ (RegisterCourses noFaults exampleState "v"
        [{ ID := "c" }, { ID := "b" }]).1.errors.NotRegistrableStatus ∧
      "c" ∉ (RegisterCourses noFaults exampleState "v"
        [{ ID := "c" }, { ID := "b" }]).1.errors.ScheduleConflict := by
  have hwf : CacheWF exampleState.courseCache := by
    intro k c h
    simp only [exampleState, List.mem_singleton, Prod.mk.injEq] at h
    obtain ⟨hk, hc⟩ := h
    rw [hk, hc]
    rfl
  have hin : "c" ∈ (RegisterCourses noFaults exampleState "v"
      [{ ID := "c" }, { ID := "b" }]).1.errors.NotRegistrableStatus :=
    ((notRegistrableStatus_iff exampleState "v" [{ ID := "c" }, { ID := "b" }] hwf).1 "c").mpr
      ⟨⟨{ ID := "c" }, by decide, rfl⟩, exampleCourse "c" 2 "monday" "closed", by decide,
        by decide⟩
  exact ⟨hwf, hin,
    ((notRegistrableStatus_iff exampleState "v" [{ ID := "c" }, { ID := "b" }] hwf).2 "c" hin).2⟩

/-- C10: two request lists that are permutations of each other are validated
to the same error lists, in the same order, and lead to the same response and
the same state, whatever store operations fail. -/
theorem RegisterCourses_perm (flt : Faults) (st : State) (userID : String)
    (req1 req2 : List RegisterCourseRequestContent) (h : req1.Perm req2) :
    validate flt st.db st.courseCache userID (sortSlice req1) =
        validate flt st.db st.courseCache userID (sortSlice req2) ∧
      RegisterCourses flt st userID req1 = RegisterCourses flt st userID req2 := by
  unfold RegisterCourses
  rw [sortSlice_eq_of_perm h]
  exact ⟨rfl, rfl⟩

/-- Witness of C10: the requests `[b, a]` and `[a, b]` of user `v` have the
same outcome. -/
theorem RegisterCourses_perm_witness :
    ([{ ID := "b" }, { ID := "a" }] : List RegisterCourseRequestContent).Perm
        [{ ID := "a" }, { ID := "b" }] ∧
      validate noFaults exampleState.db exampleState.courseCache "v"
          (sortSlice [{ ID := "b" }, { ID := "a" }]) =
        validate noFaults exampleState.db exampleState.courseCache "v"
          (sortSlice [{ ID := "a" }, { ID := "b" }]) ∧
      RegisterCourses noFaults exampleState "v" [{ ID := "b" }, { ID := "a" }] =
        RegisterCourses noFaults exampleState "v" [{ ID := "a" }, { ID := "b" }] :=
  ⟨List.Perm.swap _ _ _,
    RegisterCourses_perm noFaults exampleState "v" [{ ID := "b" }, { ID := "a" }]
      [{ ID := "a" }, { ID := "b" }] (List.Perm.swap _ _ _)⟩

/-! ## Duplicate ids and schedule conflicts -/

theorem courseNotFound_aux (st : State) (userID : String)
    (req : List RegisterCourseRequestContent) (id : String) :
    id ∈ (RegisterCourses noFaults st userID req).1.errors.CourseNotFound ↔
      ∃ r ∈ req, r.ID = id ∧ resolve st.db st.courseCache r.ID = none := by
  rw [errors_RegisterCourses_noFaults]
  show id ∈ notFoundIDs _ _ ↔ _
  rw [mem_notFoundIDs]
  constructor
  · rintro ⟨r, hr, h⟩
    exact ⟨r, (sortSlice_perm req).mem_iff.mp hr, h⟩
  · rintro ⟨r, hr, h⟩
    exact ⟨r, (sortSlice_perm req).mem_iff.mpr hr, h⟩

theorem notRegistrable_aux (st : State) (userID : String)
    (req : List RegisterCourseRequestContent) (id : String) :
    id ∈ (RegisterCourses noFaults st userID req).1.errors.NotRegistrableStatus ↔
      ∃ r ∈ req, ∃ c, resolve st.db st.courseCache r.ID = some c ∧
        c.Status ≠ StatusRegistration ∧ c.ID = id := by
  rw [errors_RegisterCourses_noFaults]
  show id ∈ notRegistrableIDs _ _ ↔ _
  rw [mem_notRegistrableIDs]
  constructor
  · rintro ⟨r, hr, h⟩
    exact ⟨r, (sortSlice_perm req).mem_iff.mp hr, h⟩
  · rintro ⟨r, hr, h⟩
    exact ⟨r, (sortSlice_perm req).mem_iff.mpr hr, h⟩

theorem candidate_congr (st : State) (userID : String)
    {req1 req2 : List RegisterCourseRequestContent} (h : ∀ r, r ∈ req1 ↔ r ∈ req2)
    (c : Course) : Candidate st userID req1 c ↔ Candidate st userID req2 c := by
  unfold Candidate
  constructor
  · rintro ⟨r, hr, hx⟩
    exact ⟨r, (h r).mp hr, hx⟩
  · rintro ⟨r, hr, hx⟩
    exact ⟨r, (h r).mpr hr, hx⟩

/-- The registration rows after a call without store failure: the old rows,
and the rows of the candidates when no error list has an entry. -/
theorem mem_registrations_RegisterCourses (st : State) (userID : String)
    (req : List RegisterCourseRequestContent) (p : String × String) :
    p ∈ (RegisterCourses noFaults st userID req).2.db.registrations ↔
      p ∈ st.db.registrations ∨
        ((∀ id, id ∉ (RegisterCourses noFaults st userID req).1.errors.CourseNotFound ∧
            id ∉ (RegisterCourses noFaults st userID req).1.errors.NotRegistrableStatus ∧
            id ∉ (RegisterCourses noFaults st userID req).1.errors.ScheduleConflict) ∧
          ∃ c, Candidate st userID req c ∧ p = (c.ID, userID)) := by
  rw [errors_RegisterCourses_noFaults, RegisterCourses_noFaults]
  split
  · rename_i h
    simp only [gt_iff_lt, List.length_pos] at h
    constructor
    · intro hp
      exact Or.inl hp
    · rintro (hp | ⟨hno, _⟩)
      · exact hp
      · exfalso
        rcases h with h | h | h
        · obtain ⟨x, hx⟩ := List.exists_mem_of_ne_nil _ h
          exact (hno x).1 hx
        · obtain ⟨x, hx⟩ := List.exists_mem_of_ne_nil _ h
          exact (hno x).2.1 hx
        · obtain ⟨x, hx⟩ := List.exists_mem_of_ne_nil _ h
          exact (hno x).2.2 hx
  · rename_i h
    simp only [gt_iff_lt, List.length_pos, not_or, ne_eq, not_not] at h
    obtain ⟨h1, h2, h3⟩ := h
    have hno : ∀ id,
        id ∉ (validationOf st.db st.courseCache userID (sortSlice req)).errors.CourseNotFound ∧
        id ∉ (validationOf st.db st.courseCache userID
          (sortSlice req)).errors.NotRegistrableStatus ∧
        id ∉ (validationOf st.db st.courseCache userID
          (sortSlice req)).errors.ScheduleConflict := by
      intro id
      rw [h1, h2, h3]
      exact ⟨List.not_mem_nil _, List.not_mem_nil _, List.not_mem_nil _⟩
    by_cases hv : (validationOf st.db st.courseCache userID (sortSlice req)).newlyAdded = []
    · rw [commitRegistrations_nil _ _ _ _ hv]
      constructor
      · intro hp
        exact Or.inl hp
      · rintro (hp | ⟨_, c, hc, _⟩)
        · exact hp
        · exfalso
          have hmem := (mem_candidates_sortSlice st userID req c).mpr hc
          have hv2 : candidates (resolve st.db st.courseCache) st.db userID (sortSlice req) = [] :=
            hv
          rw [hv2] at hmem
          cases hmem
    · rw [commitRegistrations_noFaults _ _ _ hv]
      show p ∈ insertIgnore _ _ ↔ _
      rw [mem_insertIgnore]
      constructor
      · rintro (hp | hp)
        · exact Or.inl hp
        · right
          refine ⟨hno, ?_⟩
          unfold rowsOf at hp
          rw [List.mem_map] at hp
          obtain ⟨c, hc, hpc⟩ := hp
          exact ⟨c, (mem_candidates_sortSlice st userID req c).mp hc, hpc.symm⟩
      · rintro (hp | ⟨_, c, hc, hpc⟩)
        · exact Or.inl hp
        · right
          unfold rowsOf
          rw [List.mem_map]
          exact ⟨c, (mem_candidates_sortSlice st userID req c).mpr hc, hpc.symm⟩

/-- Requests with the same elements have, without store failure, the same
ids in each error list and the same registration rows afterwards. -/
theorem RegisterCourses_congr_mem (st : State) (userID : String)
    {req1 req2 : List RegisterCourseRequestContent} (h : ∀ r, r ∈ req1 ↔ r ∈ req2) :
    (∀ id, id ∈ (RegisterCourses noFaults st userID req1).1.errors.CourseNotFound ↔
        id ∈ (RegisterCourses noFaults st userID req2).1.errors.CourseNotFound) ∧
      (∀ id, id ∈ (RegisterCourses noFaults st userID req1).1.errors.NotRegistrableStatus ↔
        id ∈ (RegisterCourses noFaults st userID req2).1.errors.NotRegistrableStatus) ∧
      (∀ id, id ∈ (RegisterCourses noFaults st userID req1).1.errors.ScheduleConflict ↔
        id ∈ (RegisterCourses noFaults st userID req2).1.errors.ScheduleConflict) ∧
      ∀ p, p ∈ (RegisterCourses noFaults st userID req1).2.db.registrations ↔
        p ∈ (RegisterCourses noFaults st userID req2).2.db.registrations := by
  have hnf : ∀ id, id ∈ (RegisterCourses noFaults st userID req1).1.errors.CourseNotFound ↔
      id ∈ (RegisterCourses noFaults st userID req2).1.errors.CourseNotFound := by
    intro id
    rw [courseNotFound_aux, courseNotFound_aux]
    constructor
    · rintro ⟨r, hr, hx⟩
      exact ⟨r, (h r).mp hr, hx⟩
    · rintro ⟨r, hr, hx⟩
      exact ⟨r, (h r).mpr hr, hx⟩
  have hnr : ∀ id,
      id ∈ (RegisterCourses noFaults st userID req1).1.errors.NotRegistrableStatus ↔
      id ∈ (RegisterCourses noFaults st userID req2).1.errors.NotRegistrableStatus := by
    intro id
    rw [notRegistrable_aux, notRegistrable_aux]
    constructor
    · rintro ⟨r, hr, hx⟩
      exact ⟨r, (h r).mp hr, hx⟩
    · rintro ⟨r, hr, hx⟩
      exact ⟨r, (h r).mpr hr, hx⟩
  have hsc : ∀ id, id ∈ (RegisterCourses noFaults st userID req1).1.errors.ScheduleConflict ↔
      id ∈ (RegisterCourses noFaults st userID req2).1.errors.ScheduleConflict := by
    intro id
    rw [scheduleConflict_aux, scheduleConflict_aux]
    simp only [candidate_congr st userID h]
  refine ⟨hnf, hnr, hsc, ?_⟩
  intro p
  rw [mem_registrations_RegisterCourses, mem_registrations_RegisterCourses]
  simp only [hnf, hnr, hsc, candidate_congr st userID h]

/-- Counterexample to C11 as stated: the missing id `z` requested twice is
listed twice in `CourseNotFound`, while the request without the repetition
lists it once. -/
theorem duplicate_ids_listed_twice :
    (RegisterCourses noFaults exampleState "v"
        [{ ID := "z" }, { ID := "z" }]).1.errors.CourseNotFound = ["z", "z"] ∧
      (RegisterCourses noFaults exampleState "v"
        ([{ ID := "z" }, { ID := "z" }] :
          List RegisterCourseRequestContent).dedup).1.errors.CourseNotFound = ["z"] := by
  decide

/-- C11 (amended): without store failure, a request and the same request
with repeated ids removed have the same ids in `CourseNotFound`, in
`NotRegistrableStatus` and in `ScheduleConflict`, and leave the same set of
registration rows. -/
theorem RegisterCourses_dedup (st : State) (userID : String)
    (req : List RegisterCourseRequestContent) :
    (∀ id, id ∈ (RegisterCourses noFaults st userID req).1.errors.CourseNotFound ↔
        id ∈ (RegisterCourses noFaults st userID req.dedup).1.errors.CourseNotFound) ∧
      (∀ id, id ∈ (RegisterCourses noFaults st userID req).1.errors.NotRegistrableStatus ↔
        id ∈ (RegisterCourses noFaults st userID req.dedup).1.errors.NotRegistrableStatus) ∧
      (∀ id, id ∈ (RegisterCourses noFaults st userID req).1.errors.ScheduleConflict ↔
        id ∈ (RegisterCourses noFaults st userID req.dedup).1.errors.ScheduleConflict) ∧
      ∀ p, p ∈ (RegisterCourses noFaults st userID req).2.db.registrations ↔
        p ∈ (RegisterCourses noFaults st userID req.dedup).2.db.registrations :=
  RegisterCourses_congr_mem st userID (fun _ => List.mem_dedup.symm)

/-- C12: without store failure, when two newly-added candidates of a request
have different ids and the same period and day, the ids of both are in
`ScheduleConflict`. -/
theorem both_candidates_flagged (st : State) (userID : String)
    (req : List RegisterCourseRequestContent) (c1 c2 : Course)
    (h1 : Candidate st userID req c1) (h2 : Candidate st userID req c2)
    (hid : c1.ID ≠ c2.ID) (hp : c1.Period = c2.Period) (hd : c1.DayOfWeek = c2.DayOfWeek) :
    c1.ID ∈ (RegisterCourses noFaults st userID req).1.errors.ScheduleConflict ∧
      c2.ID ∈ (RegisterCourses noFaults st userID req).1.errors.ScheduleConflict := by
  constructor
  · rw [scheduleConflict_aux]
    exact ⟨c1, h1, rfl, c2, Or.inr h2, hid, hp, hd⟩
  · rw [scheduleConflict_aux]
    exact ⟨c2, h2, rfl, c1, Or.inr h1, fun h => hid h.symm, hp.symm, hd.symm⟩

/-- Witness of C12: user `v` requests `a` and `b`, both open and both in
period 1 of Monday; both ids are in `ScheduleConflict`. -/
theorem both_candidates_flagged_witness :
    "a" ∈ (RegisterCourses noFaults exampleState "v"
        [{ ID := "a" }, { ID := "b" }]).1.errors.ScheduleConflict ∧
      "b" ∈ (RegisterCourses noFaults exampleState "v"
        [{ ID := "a" }, { ID := "b" }]).1.errors.ScheduleConflict :=
  both_candidates_flagged exampleState "v" [{ ID := "a" }, { ID := "b" }]
    (exampleCourse "a" 1 "monday" "registration") (exampleCourse "b" 1 "monday" "registration")
    ⟨{ ID := "a" }, by decide, by decide, by decide, by decide⟩
    ⟨{ ID := "b" }, by decide, by decide, by decide, by decide⟩
    (by decide) (by decide) (by decide)

/-- C13: without store failure, an id is not in `ScheduleConflict` when, for
every newly-added candidate with that id, each course of the comparison set
(the non-closed enrollments of the user and the newly-added candidates) in its
period and day has that same id; a repeated id in the request makes no
conflict. -/
theorem no_self_conflict (st : State) (userID : String)
    (req : List RegisterCourseRequestContent) (id : String)
    (honly : ∀ c c2, Candidate st userID req c → c.ID = id →
      (c2 ∈ selectRegistered st.db userID ∨ Candidate st userID req c2) →
      c.Period = c2.Period → c.DayOfWeek = c2.DayOfWeek → c2.ID = id) :
    id ∉ (RegisterCourses noFaults st userID req).1.errors.ScheduleConflict := by
  rw [scheduleConflict_aux]
  rintro ⟨c, hc, hid, c2, hc2, hne, hp, hd⟩
  apply hne
  rw [hid, honly c c2 hc hid hc2 hp hd]

/-- Witness of C13: user `v` requests `a` twice; the only courses of the
comparison set are the two occurrences of `a`, and `a` is not in
`ScheduleConflict`. -/
theorem no_self_conflict_witness :
    "a" ∉ (RegisterCourses noFaults exampleState "v"
      [{ ID := "a" }, { ID := "a" }]).1.errors.ScheduleConflict := by
  have ha : resolve exampleState.db exampleState.courseCache "a" =
      some (exampleCourse "a" 1 "monday" "registration") := by decide
  have hsel : selectRegistered exampleState.db "v" = [] := by decide
  refine no_self_conflict exampleState "v" [{ ID := "a" }, { ID := "a" }] "a" ?_
  rintro c c2 _ _ hc2 _ _
  rw [hsel] at hc2
  rcases hc2 with hc2 | ⟨r2, hr2, hres2, _, _⟩
  · cases hc2
  · simp only [List.mem_cons, List.mem_singleton, List.not_mem_nil, or_false, or_self] at hr2
    rw [hr2, ha] at hres2
    cases hres2
    rfl

/-! ## The course cache as a read-through memo -/

theorem syncMapLoad_cacheStep_of_some {db : DB} {cache : List (String × Course)}
    (r : RegisterCourseRequestContent) {id : String} {c : Course}
    (h : syncMapLoad cache id = some c) : syncMapLoad (cacheStep db cache r) id = some c := by
  unfold cacheStep lookupCourse
  cases hl : syncMapLoad cache r.ID with
  | some cs => exact h
  | none =>
    have hf : noFaults.getCourse r.ID = false := rfl
    simp only [hf, Bool.false_eq_true, if_false]
    cases hg : getCourse db r.ID with
    | none => exact h
    | some course =>
      simp only [syncMapStore, syncMapLoad]
      by_cases hk : r.ID = id
      · rw [hk, h] at hl
        cases hl
      · rw [if_neg hk]
        exact h

theorem syncMapLoad_cacheAfter_of_some {db : DB} (req : List RegisterCourseRequestContent) :
    ∀ {cache : List (String × Course)} {id : String} {c : Course},
      syncMapLoad cache id = some c → syncMapLoad (cacheAfter db cache req) id = some c := by
  induction req with
  | nil => intro cache id c h; exact h
  | cons r rest ih =>
    intro cache id c h
    exact ih (syncMapLoad_cacheStep_of_some r h)

theorem syncMapLoad_cacheStep_self {db : DB} {cache : List (String × Course)}
    (r : RegisterCourseRequestContent) (h : syncMapLoad cache r.ID = none) :
    syncMapLoad (cacheStep db cache r) r.ID = getCourse db r.ID := by
  unfold cacheStep lookupCourse
  have hf : noFaults.getCourse r.ID = false := rfl
  simp only [h, hf, Bool.false_eq_true, if_false]
  cases hg : getCourse db r.ID with
  | none => exact h
  | some course => simp [syncMapStore, syncMapLoad]

theorem syncMapLoad_cacheStep_other {db : DB} {cache : List (String × Course)}
    (r : RegisterCourseRequestContent) {id : String} (hne : r.ID ≠ id) :
    syncMapLoad (cacheStep db cache r) id = syncMapLoad cache id := by
  unfold cacheStep lookupCourse
  cases hl : syncMapLoad cache r.ID with
  | some cs => rfl
  | none =>
    have hf : noFaults.getCourse r.ID = false := rfl
    simp only [hf, Bool.false_eq_true, if_false]
    cases hg : getCourse db r.ID with
    | none => rfl
    | some course => simp [syncMapStore, syncMapLoad, hne]

theorem syncMapLoad_cacheAfter_of_none {db : DB} {id : String}
    (req : List RegisterCourseRequestContent) :
    ∀ {cache : List (String × Course)}, syncMapLoad cache id = none →
      (∃ r ∈ req, r.ID = id) → syncMapLoad (cacheAfter db cache req) id = getCourse db id := by
  induction req with
  | nil =>
    rintro cache _ ⟨r, hr, _⟩
    cases hr
  | cons r rest ih =>
    intro cache hnone hreq
    show syncMapLoad (cacheAfter db (cacheStep db cache r) rest) id = _
    by_cases hk : r.ID = id
    · have hself : syncMapLoad (cacheStep db cache r) id = getCourse db id := by
        rw [← hk]
        exact syncMapLoad_cacheStep_self r (by rw [hk]; exact hnone)
      cases hg : getCourse db id with
      | some row =>
        rw [hg] at hself
        exact syncMapLoad_cacheAfter_of_some rest hself
      | none =>
        have hres : resolve db (cacheAfter db (cacheStep db cache r) rest) id = none := by
          rw [resolve_cacheAfter, resolve_cacheStep, resolve_eq_none]
          exact ⟨hnone, hg⟩
        exact ((resolve_eq_none _ _ _).mp hres).1
    · have hother : syncMapLoad (cacheStep db cache r) id = none := by
        rw [syncMapLoad_cacheStep_other r hk]
        exact hnone
      obtain ⟨r2, hr2, hid2⟩ := hreq
      rcases List.mem_cons.mp hr2 with rfl | hr2
      · exact absurd hid2 hk
      · exact ih hother ⟨r2, hr2, hid2⟩

theorem courseCache_RegisterCourses_noFaults (st : State) (userID : String)
    (req : List RegisterCourseRequestContent) :
    (RegisterCourses noFaults st userID req).2.courseCache =
      cacheAfter st.db st.courseCache (sortSlice req) := by
  rw [RegisterCourses_noFaults]
  split
  · rfl
  · rw [courseCache_commitRegistrations]
    rfl

theorem lookupCourse_of_cached (flt : Faults) (db : DB) {cache : List (String × Course)}
    {id : String} {c : Course} (h : syncMapLoad cache id = some c) :
    lookupCourse flt db cache id = Lookup.found c cache := by
  unfold lookupCourse
  rw [h]

theorem getCourse_updateStatus (db : DB) (courseID : String) (status : CourseStatus) :
    getCourse { db with courses := updateStatus db.courses courseID status } courseID =
      (getCourse db courseID).map fun c => { c with Status := status } := by
  unfold getCourse updateStatus
  simp only
  induction db.courses with
  | nil => rfl
  | cons c rest ih =>
    by_cases hc : c.ID = courseID
    · simp [List.find?_cons, hc]
    · simp only [List.map_cons, List.find?_cons, hc, if_false, decide_False]
      exact ih

/-- C19: without store failure, for a requested id that is absent from
`courseCache`: when the store has a row for it, the cache after the call maps
the id to exactly that row, and a later lookup of the id returns the cached
row and leaves the cache as it is whatever the store then holds and even if
reading the store would fail; when the store has no row for it, the cache
still has no entry for the id. -/
theorem courseCache_read_through (st : State) (userID : String)
    (req : List RegisterCourseRequestContent) (id : String)
    (hreq : Requested req id) (hmiss : syncMapLoad st.courseCache id = none) :
    (∀ row, getCourse st.db id = some row →
        syncMapLoad (RegisterCourses noFaults st userID req).2.courseCache id = some row ∧
        ∀ (flt : Faults) (db1 : DB),
          lookupCourse flt db1 (RegisterCourses noFaults st userID req).2.courseCache id =
            Lookup.found row (RegisterCourses noFaults st userID req).2.courseCache) ∧
      (getCourse st.db id = none →
        syncMapLoad (RegisterCourses noFaults st userID req).2.courseCache id = none) := by
  have hload : syncMapLoad (RegisterCourses noFaults st userID req).2.courseCache id =
      getCourse st.db id := by
    rw [courseCache_RegisterCourses_noFaults]
    exact syncMapLoad_cacheAfter_of_none (sortSlice req) hmiss
      ((requested_sortSlice req id).mpr hreq)
  constructor
  · intro row hrow
    rw [hrow] at hload
    exact ⟨hload, fun flt db1 => lookupCourse_of_cached flt db1 hload⟩
  · intro hnone
    rw [hnone] at hload
    exact hload

/-- Witness of C19: user `v` requests the open course `b`, which the store
has and the cache has not; afterwards the cache maps `b` to the row of the
store, and a lookup of `b` in an empty store whose reads fail returns it. -/
theorem courseCache_read_through_witness :
    syncMapLoad (RegisterCourses noFaults exampleState "v" [{ ID := "b" }]).2.courseCache "b" =
        some (exampleCourse "b" 1 "monday" "registration") ∧
      lookupCourse
          { noFaults with getCourse := fun _ => true }
          { courses := [], registrations := [] }
          (RegisterCourses noFaults exampleState "v" [{ ID := "b" }]).2.courseCache "b" =
        Lookup.found (exampleCourse "b" 1 "monday" "registration")
          (RegisterCourses noFaults exampleState "v" [{ ID := "b" }]).2.courseCache :=
  ⟨((courseCache_read_through exampleState "v" [{ ID := "b" }] "b"
        ⟨{ ID := "b" }, by decide, rfl⟩ (by decide)).1 _ (by decide)).1,
    ((courseCache_read_through exampleState "v" [{ ID := "b" }] "b"
        ⟨{ ID := "b" }, by decide, rfl⟩ (by decide)).1 _ (by decide)).2 _ _⟩

/-- C20: when `SetCourseStatus` answers 200 for course `id` and status `s`,
the store had a row for `id`; afterwards the store's row of `id` and the entry
of `id` in `courseCache` are both that row with the status `s` and every other
field unchanged; and if `s` is not registration, every later request
containing `id` lists it in `NotRegistrableStatus` (when no store operation
of that request fails). -/
theorem SetCourseStatus_updates_cache (flt : Faults) (st : State) (id : String)
    (s : CourseStatus)
    (hok : (SetCourseStatus flt st id s).1 = StatusResponse.NoContent StatusOK) :
    ∃ row, getCourse st.db id = some row ∧
      syncMapLoad (SetCourseStatus flt st id s).2.courseCache id =
        some { row with Status := s } ∧
      getCourse (SetCourseStatus flt st id s).2.db id = some { row with Status := s } ∧
      (s ≠ StatusRegistration →
        ∀ (userID : String) (req : List RegisterCourseRequestContent), Requested req id →
          id ∈ (RegisterCourses noFaults (SetCourseStatus flt st id s).2 userID
            req).1.errors.NotRegistrableStatus) := by
  unfold SetCourseStatus at hok ⊢
  by_cases hb : flt.beginx = true
  · rw [if_pos hb] at hok
    cases hok
  · rw [if_neg hb] at hok ⊢
    by_cases hg : flt.getCourse id = true
    · rw [if_pos hg] at hok
      cases hok
    · rw [if_neg hg] at hok ⊢
      cases hrow : getCourse st.db id with
      | none =>
        rw [hrow] at hok
        cases hok
      | some row =>
        simp only [hrow] at hok ⊢
        by_cases he : flt.exec = true
        · rw [if_pos he] at hok
          cases hok
        · rw [if_neg he] at hok ⊢
          by_cases hc : flt.commit = true
          · rw [if_pos hc] at hok
            cases hok
          · rw [if_neg hc]
            have hload : syncMapLoad
                (syncMapStore st.courseCache id { row with Status := s }) id =
                some { row with Status := s } := by
              simp [syncMapStore, syncMapLoad]
            refine ⟨row, rfl, hload, ?_, ?_⟩
            · show getCourse { st.db with courses := updateStatus st.db.courses id s } id = _
              rw [getCourse_updateStatus, hrow]
              rfl
            · intro hs userID req hreq
              rw [notRegistrable_aux]
              obtain ⟨r, hr, hrid⟩ := hreq
              have hid : row.ID = id := getCourse_id hrow
              refine ⟨r, hr, { row with Status := s }, ?_, hs, hid⟩
              rw [hrid]
              unfold resolve
              simp only [hload]

/-- Witness of C20: closing course `a` of the example answers 200; the cache
then holds `a` with status closed. -/
theorem SetCourseStatus_updates_cache_witness :
    ∃ row, getCourse exampleState.db "a" = some row ∧
      syncMapLoad (SetCourseStatus noFaults exampleState "a" StatusClosed).2.courseCache "a" =
        some { row with Status := StatusClosed } ∧
      getCourse (SetCourseStatus noFaults exampleState "a" StatusClosed).2.db "a" =
        some { row with Status := StatusClosed } ∧
      (StatusClosed ≠ StatusRegistration →
        ∀ (userID : String) (req : List RegisterCourseRequestContent), Requested req "a" →
          "a" ∈ (RegisterCourses noFaults (SetCourseStatus noFaults exampleState "a"
            StatusClosed).2 userID req).1.errors.NotRegistrableStatus) :=
  SetCourseStatus_updates_cache noFaults exampleState "a" StatusClosed (by decide)

/-! ## The two lookups of `GetGrades` -/

theorem timeSub_gt_iff (t u b : Int) (h1 : minDuration ≤ b) (h2 : b < maxDuration) :
    timeSub t u > b ↔ t - u > b := by
  unfold timeSub
  unfold minDuration at h1
  unfold maxDuration at h2
  simp only [maxDuration, minDuration]
  split
  · constructor <;> intro <;> omega
  · split
    · constructor <;> intro <;> omega
    · exact Iff.rfl

theorem timeSub_gt_900 (t u : Int) : timeSub t u > 900 * Millisecond ↔ t - u > 900 * Millisecond :=
  timeSub_gt_iff t u _ (by decide) (by decide)

theorem timeSub_gt_100 (t u : Int) : timeSub t u > 100 * Millisecond ↔ t - u > 100 * Millisecond :=
  timeSub_gt_iff t u _ (by decide) (by decide)

theorem gpaLookup_hit (env : GradesEnv) (gc : GradeCache) (h : GpaFresh env.now gc) :
    gpaLookup env gc = Except.ok (gc.cachedGPAs, gc) := by
  unfold gpaLookup
  have hc : ¬ (timeSub env.now gc.gpaCachedAt > 900 * Millisecond ∨ gc.cachedGPAs = none) := by
    rw [timeSub_gt_900]
    rintro (h1 | h1)
    · exact absurd h.2 (not_le.mpr h1)
    · exact h.1 h1
  rw [if_neg hc]

theorem gpaLookup_miss (env : GradesEnv) (gc : GradeCache) (h : ¬ GpaFresh env.now gc) :
    gpaLookup env gc =
      match env.selectGPAs with
      | none => Except.error { gc with queries := gc.queries ++ [Aggregation.gpas] }
      | some gpas =>
        Except.ok
          (gpas,
            { gc with
              cachedGPAs := gpas
              gpaCachedAt := env.now
              queries := gc.queries ++ [Aggregation.gpas] }) := by
  unfold gpaLookup
  have hc : timeSub env.now gc.gpaCachedAt > 900 * Millisecond ∨ gc.cachedGPAs = none := by
    rw [timeSub_gt_900]
    by_cases h1 : gc.cachedGPAs = none
    · exact Or.inr h1
    · left
      by_contra h2
      exact h ⟨h1, not_lt.mp h2⟩
  rw [if_pos hc]

theorem totalScoreLookup_hit (env : GradesEnv) (gc : GradeCache) (courseID : String)
    (score : Option (List Int)) (h : TotalsFresh env.now gc courseID score) :
    totalScoreLookup env gc courseID = Except.ok (score, gc) := by
  obtain ⟨cachedAt, h1, h2, h3⟩ := h
  unfold totalScoreLookup
  rw [h1, h2]
  have hc : ¬ timeSub env.now cachedAt > 100 * Millisecond := by
    rw [timeSub_gt_100]
    exact not_lt.mpr h3
  simp only [hc, if_false]

theorem totalScoreLookup_miss (env : GradesEnv) (gc : GradeCache) (courseID : String)
    (h : ∀ score, ¬ TotalsFresh env.now gc courseID score) :
    totalScoreLookup env gc courseID =
      match env.selectTotals courseID with
      | none =>
        Except.error
          { gc with
            totalScoreCalcGroup := courseID :: gc.totalScoreCalcGroup
            queries := gc.queries ++ [Aggregation.totals courseID] }
      | some totals =>
        Except.ok
          (totals,
            { gc with
              totalScoreCalcGroup := courseID :: gc.totalScoreCalcGroup
              cachedTotalScore := mapStore gc.cachedTotalScore courseID totals
              totalScoreCachedAt := mapStore gc.totalScoreCachedAt courseID env.now
              queries := gc.queries ++ [Aggregation.totals courseID] }) := by
  unfold totalScoreLookup
  split
  · rename_i cachedAt score h1 h2
    have hc : timeSub env.now cachedAt > 100 * Millisecond := by
      rw [timeSub_gt_100]
      by_contra h3
      exact h score ⟨cachedAt, h1, h2, not_lt.mp h3⟩
    rw [if_pos hc]
  · rfl

theorem mapLoad_mapStore_self {α : Type} (m : List (String × α)) (key : String) (v : α) :
    mapLoad (mapStore m key v) key = some v := by
  simp [mapStore, mapLoad]

theorem mapLoad_mapStore_other {α : Type} (m : List (String × α)) {key k : String} (v : α)
    (h : key ≠ k) : mapLoad (mapStore m key v) k = mapLoad m k := by
  simp [mapStore, mapLoad, h]

/-- The three ways a lookup of the distribution of a course ends: a hit that
leaves the cache as it is, a miss whose query fails, a miss whose query
succeeds. -/
theorem totalScoreLookup_cases (env : GradesEnv) (gc : GradeCache) (courseID : String) :
    (∃ score, TotalsFresh env.now gc courseID score ∧
        totalScoreLookup env gc courseID = Except.ok (score, gc)) ∨
      ((∀ score, ¬ TotalsFresh env.now gc courseID score) ∧ env.selectTotals courseID = none ∧
        totalScoreLookup env gc courseID =
          Except.error
            { gc with
              totalScoreCalcGroup := courseID :: gc.totalScoreCalcGroup
              queries := gc.queries ++ [Aggregation.totals courseID] }) ∨
      ((∀ score, ¬ TotalsFresh env.now gc courseID score) ∧
        ∃ totals, env.selectTotals courseID = some totals ∧
          totalScoreLookup env gc courseID =
            Except.ok
              (totals,
                { gc with
                  totalScoreCalcGroup := courseID :: gc.totalScoreCalcGroup
                  cachedTotalScore := mapStore gc.cachedTotalScore courseID totals
                  totalScoreCachedAt := mapStore gc.totalScoreCachedAt courseID env.now
                  queries := gc.queries ++ [Aggregation.totals courseID] })) := by
  by_cases hfresh : ∃ score, TotalsFresh env.now gc courseID score
  · obtain ⟨score, hs⟩ := hfresh
    exact Or.inl ⟨score, hs, totalScoreLookup_hit env gc courseID score hs⟩
  · have hno : ∀ score, ¬ TotalsFresh env.now gc courseID score :=
      fun score hs => hfresh ⟨score, hs⟩
    have hmiss := totalScoreLookup_miss env gc courseID hno
    cases hq : env.selectTotals courseID with
    | none =>
      rw [hq] at hmiss
      exact Or.inr (Or.inl ⟨hno, rfl, hmiss⟩)
    | some totals =>
      rw [hq] at hmiss
      exact Or.inr (Or.inr ⟨hno, totals, rfl, hmiss⟩)

theorem count_append_singleton_ne (l : List Aggregation) {a b : Aggregation} (h : b ≠ a) :
    (l ++ [b]).count a = l.count a := by
  rw [List.count_append, List.count_singleton]
  have hba : (b == a) = false := by simpa using h
  simp [hba]

theorem count_append_singleton_self (l : List Aggregation) (a : Aggregation) :
    (l ++ [a]).count a = l.count a + 1 := by
  rw [List.count_append, List.count_singleton]
  simp

/-- The loop over the courses leaves the cached global distribution and its
timestamp as they are and runs no aggregation of the GPAs. -/
theorem courseLoop_gpa (env : GradesEnv) (userID : String) (courses : List Course) :
    ∀ acc : GradesAcc,
      (accCache (courseLoop env userID courses acc)).cachedGPAs = acc.cache.cachedGPAs ∧
      (accCache (courseLoop env userID courses acc)).gpaCachedAt = acc.cache.gpaCachedAt ∧
      (accCache (courseLoop env userID courses acc)).queries.count Aggregation.gpas =
        acc.cache.queries.count Aggregation.gpas := by
  induction courses with
  | nil => intro acc; exact ⟨rfl, rfl, rfl⟩
  | cons course rest ih =>
    intro acc
    simp only [courseLoop]
    cases hc : env.selectClasses course.ID with
    | none => exact ⟨rfl, rfl, rfl⟩
    | some classes =>
      simp only
      cases hq : queryScores env userID (classes.map fun cls => cls.ID) with
      | none => exact ⟨rfl, rfl, rfl⟩
      | some p =>
        obtain ⟨submissionsCounts, myScores⟩ := p
        simp only
        rcases totalScoreLookup_cases env acc.cache course.ID with
          ⟨score, _, hl⟩ | ⟨_, _, hl⟩ | ⟨_, totals, _, hl⟩
        · rw [hl]
          simp only
          exact ih _
        · rw [hl]
          refine ⟨rfl, rfl, ?_⟩
          exact count_append_singleton_ne _ (by simp)
        · rw [hl]
          simp only
          obtain ⟨h1, h2, h3⟩ := ih
            { courseResults :=
                acc.courseResults ++
                  [{ Name := course.Name
                     Code := course.Code
                     TotalScore := (scoreLoop submissionsCounts myScores classes [] 0).2
                     Totals := totals
                     ClassScores := (scoreLoop submissionsCounts myScores classes [] 0).1 }]
              myGPA :=
                if course.Status = StatusClosed then
                  FloatExpr.add acc.myGPA
                    (FloatExpr.ofInt
                      (wrapInt
                        ((scoreLoop submissionsCounts myScores classes [] 0).2 *
                          (course.Credit : Int))))
                else acc.myGPA
              myCredits :=
                if course.Status = StatusClosed then
                  wrapInt (acc.myCredits + (course.Credit : Int))
                else acc.myCredits
              cache :=
                { acc.cache with
                  totalScoreCalcGroup := course.ID :: acc.cache.totalScoreCalcGroup
                  cachedTotalScore := mapStore acc.cache.cachedTotalScore course.ID totals
                  totalScoreCachedAt := mapStore acc.cache.totalScoreCachedAt course.ID env.now
                  queries := acc.cache.queries ++ [Aggregation.totals course.ID] } }
          refine ⟨h1, h2, ?_⟩
          rw [h3]
          exact count_append_singleton_ne _ (by simp)

/-- One round of the loop over the courses: it ends the loop with the cache
as it is (a query of the round fails), or with the cache of a failed lookup,
or goes on with the cache of a successful lookup. -/
theorem courseLoop_cons (env : GradesEnv) (userID : String) (course : Course)
    (rest : List Course) (acc : GradesAcc) :
    courseLoop env userID (course :: rest) acc = Except.error acc.cache ∨
      (∃ gc, totalScoreLookup env acc.cache course.ID = Except.error gc ∧
        courseLoop env userID (course :: rest) acc = Except.error gc) ∨
      ∃ totals acc1, totalScoreLookup env acc.cache course.ID = Except.ok (totals, acc1.cache) ∧
        courseLoop env userID (course :: rest) acc = courseLoop env userID rest acc1 := by
  simp only [courseLoop]
  cases hc : env.selectClasses course.ID with
  | none => exact Or.inl rfl
  | some classes =>
    simp only
    cases hq : queryScores env userID (classes.map fun cls => cls.ID) with
    | none => exact Or.inl rfl
    | some p =>
      obtain ⟨submissionsCounts, myScores⟩ := p
      simp only
      cases hl : totalScoreLookup env acc.cache course.ID with
      | error gc => exact Or.inr (Or.inl ⟨gc, rfl, rfl⟩)
      | ok q =>
        obtain ⟨totals, gc⟩ := q
        exact Or.inr (Or.inr ⟨totals, _, rfl, rfl⟩)

/-- A distribution that is fresh for course `k` at the start of the loop stays
cached, and the loop runs no aggregation for `k`. -/
theorem courseLoop_fresh (env : GradesEnv) (userID : String) (k : String)
    (score : Option (List Int)) (courses : List Course) :
    ∀ acc : GradesAcc, TotalsFresh env.now acc.cache k score →
      (accCache (courseLoop env userID courses acc)).queries.count (Aggregation.totals k) =
        acc.cache.queries.count (Aggregation.totals k) := by
  induction courses with
  | nil => intro acc _; rfl
  | cons course rest ih =>
    intro acc hfresh
    rcases courseLoop_cons env userID course rest acc with
      h | ⟨gc, hl, h⟩ | ⟨totals, acc1, hl, h⟩
    · rw [h]
      rfl
    · rw [h]
      by_cases hj : course.ID = k
      · rw [hj, totalScoreLookup_hit env acc.cache k score hfresh] at hl
        cases hl
      · rcases totalScoreLookup_cases env acc.cache course.ID with
          ⟨s2, _, hl2⟩ | ⟨_, _, hl2⟩ | ⟨_, t2, _, hl2⟩
        · rw [hl2] at hl
          cases hl
        · rw [hl2] at hl
          cases hl
          exact count_append_singleton_ne _ (fun hx => hj (Aggregation.totals.inj hx))
        · rw [hl2] at hl
          cases hl
    · rw [h]
      by_cases hj : course.ID = k
      · rw [hj, totalScoreLookup_hit env acc.cache k score hfresh] at hl
        simp only [Except.ok.injEq, Prod.mk.injEq] at hl
        rw [ih acc1 (by rw [← hl.2]; exact hfresh), ← hl.2]
      · rcases totalScoreLookup_cases env acc.cache course.ID with
          ⟨s2, _, hl2⟩ | ⟨_, _, hl2⟩ | ⟨_, t2, _, hl2⟩
        · rw [hl2] at hl
          simp only [Except.ok.injEq, Prod.mk.injEq] at hl
          rw [ih acc1 (by rw [← hl.2]; exact hfresh), ← hl.2]
        · rw [hl2] at hl
          cases hl
        · rw [hl2] at hl
          simp only [Except.ok.injEq, Prod.mk.injEq] at hl
          obtain ⟨cachedAt, h1, h2, h3⟩ := hfresh
          have hf1 : TotalsFresh env.now acc1.cache k score := by
            rw [← hl.2]
            exact ⟨cachedAt, by simpa [mapLoad_mapStore_other _ _ hj] using h1,
              by simpa [mapLoad_mapStore_other _ _ hj] using h2, h3⟩
          rw [ih acc1 hf1, ← hl.2]
          exact count_append_singleton_ne _ (fun hx => hj (Aggregation.totals.inj hx))

/-- When the aggregation of course `k` fails in this call, the loop leaves the
cached value and the cached timestamp of `k` as they are, and it either runs
no aggregation for `k` or ends with an error. -/
theorem courseLoop_failing (env : GradesEnv) (userID : String) (k : String)
    (hfail : env.selectTotals k = none) (courses : List Course) :
    ∀ acc : GradesAcc,
      mapLoad (accCache (courseLoop env userID courses acc)).cachedTotalScore k =
          mapLoad acc.cache.cachedTotalScore k ∧
        mapLoad (accCache (courseLoop env userID courses acc)).totalScoreCachedAt k =
          mapLoad acc.cache.totalScoreCachedAt k ∧
        ((accCache (courseLoop env userID courses acc)).queries.count (Aggregation.totals k) =
            acc.cache.queries.count (Aggregation.totals k) ∨
          ∃ gc, courseLoop env userID courses acc = Except.error gc) := by
  induction courses with
  | nil => intro acc; exact ⟨rfl, rfl, Or.inl rfl⟩
  | cons course rest ih =>
    intro acc
    rcases courseLoop_cons env userID course rest acc with
      h | ⟨gc, hl, h⟩ | ⟨totals, acc1, hl, h⟩
    · rw [h]
      exact ⟨rfl, rfl, Or.inl rfl⟩
    · rw [h]
      rcases totalScoreLookup_cases env acc.cache course.ID with
        ⟨s2, _, hl2⟩ | ⟨_, _, hl2⟩ | ⟨_, t2, _, hl2⟩
      · rw [hl2] at hl
        cases hl
      · rw [hl2] at hl
        cases hl
        exact ⟨rfl, rfl, Or.inr ⟨_, rfl⟩⟩
      · rw [hl2] at hl
        cases hl
    · rw [h]
      obtain ⟨ih1, ih2, ih3⟩ := ih acc1
      rcases totalScoreLookup_cases env acc.cache course.ID with
        ⟨s2, _, hl2⟩ | ⟨_, _, hl2⟩ | ⟨_, t2, hq, hl2⟩
      · rw [hl2] at hl
        simp only [Except.ok.injEq, Prod.mk.injEq] at hl
        rw [← hl.2] at ih1 ih2 ih3
        exact ⟨ih1, ih2, ih3⟩
      · rw [hl2] at hl
        cases hl
      · rw [hl2] at hl
        simp only [Except.ok.injEq, Prod.mk.injEq] at hl
        have hj : course.ID ≠ k := by
          intro hj
          rw [hj, hfail] at hq
          cases hq
        rw [← hl.2] at ih1 ih2 ih3
        refine ⟨?_, ?_, ?_⟩
        · rw [ih1]
          exact mapLoad_mapStore_other _ _ hj
        · rw [ih2]
          exact mapLoad_mapStore_other _ _ hj
        · rcases ih3 with ih3 | ih3
          · left
            rw [ih3]
            exact count_append_singleton_ne _ (fun hx => hj (Aggregation.totals.inj hx))
          · exact Or.inr ih3

/-! ## The handler `GetGrades` as a whole -/

theorem GetGrades_cache (env : GradesEnv) (userID : String) (gc : GradeCache) :
    (GetGrades env userID gc).2 =
      match gpaLookup env gc with
      | Except.error gc1 => gc1
      | Except.ok (_, gc1) =>
        match env.selectRegisteredCourses userID with
        | none => gc1
        | some registeredCourses =>
          accCache (courseLoop env userID registeredCourses
            { courseResults := [], myGPA := FloatExpr.ofInt 0, myCredits := 0, cache := gc1 }) := by
  unfold GetGrades
  cases gpaLookup env gc with
  | error gc1 => rfl
  | ok p =>
    obtain ⟨gpas, gc1⟩ := p
    simp only
    cases env.selectRegisteredCourses userID with
    | none => rfl
    | some registeredCourses =>
      simp only
      cases courseLoop env userID registeredCourses
          { courseResults := [], myGPA := FloatExpr.ofInt 0, myCredits := 0, cache := gc1 } with
      | error gc2 => rfl
      | ok acc => rfl

theorem GetGrades_gpas (env : GradesEnv) (userID : String) (gc : GradeCache)
    (body : GetGradeResponse)
    (h : (GetGrades env userID gc).1 = GradesResponse.JSON StatusOK body) :
    served (gpaLookup env gc) = some body.Summary.Gpas := by
  unfold GetGrades at h
  cases hl : gpaLookup env gc with
  | error gc1 =>
    rw [hl] at h
    cases h
  | ok p =>
    obtain ⟨gpas, gc1⟩ := p
    rw [hl] at h
    simp only at h
    cases hs : env.selectRegisteredCourses userID with
    | none =>
      rw [hs] at h
      cases h
    | some registeredCourses =>
      rw [hs] at h
      simp only at h
      cases hc : courseLoop env userID registeredCourses
          { courseResults := [], myGPA := FloatExpr.ofInt 0, myCredits := 0, cache := gc1 } with
      | error gc2 =>
        rw [hc] at h
        cases h
      | ok acc =>
        rw [hc] at h
        simp only [GradesResponse.JSON.injEq] at h
        rw [← h.2]
        rfl

theorem GetGrades_error_of_loop (env : GradesEnv) (userID : String) (gc gc1 : GradeCache)
    (gpas : Option (List Float64)) (registeredCourses : List Course)
    (hl : gpaLookup env gc = Except.ok (gpas, gc1))
    (hs : env.selectRegisteredCourses userID = some registeredCourses)
    (hc : ∃ gc2, courseLoop env userID registeredCourses
      { courseResults := [], myGPA := FloatExpr.ofInt 0, myCredits := 0, cache := gc1 } = Except.error gc2) :
    (GetGrades env userID gc).1 = GradesResponse.NoContent StatusInternalServerError := by
  obtain ⟨gc2, hc⟩ := hc
  unfold GetGrades
  rw [hl]
  simp only [hs, hc]

/-- The lookup of the global distribution leaves the per-course maps as they
are and runs no aggregation of a course. -/
theorem gpaLookup_frame (env : GradesEnv) (gc : GradeCache) (k : String) :
    (cacheOf (gpaLookup env gc)).cachedTotalScore = gc.cachedTotalScore ∧
      (cacheOf (gpaLookup env gc)).totalScoreCachedAt = gc.totalScoreCachedAt ∧
      (cacheOf (gpaLookup env gc)).queries.count (Aggregation.totals k) =
        gc.queries.count (Aggregation.totals k) := by
  by_cases hf : GpaFresh env.now gc
  · rw [gpaLookup_hit env gc hf]
    exact ⟨rfl, rfl, rfl⟩
  · rw [gpaLookup_miss env gc hf]
    cases env.selectGPAs with
    | none => exact ⟨rfl, rfl, count_append_singleton_ne _ (by simp)⟩
    | some gpas => exact ⟨rfl, rfl, count_append_singleton_ne _ (by simp)⟩

/-! ## Claims about `GetGrades` -/

/-- C14: the cached global distribution is fresh when it is not nil and
`now - gpaCachedAt` is at most 900 ms.  When it is fresh the lookup returns
the cached value and leaves the cache, and the call of `GetGrades` runs no
aggregation of the GPAs, keeps the cached value and timestamp and, if it
answers 200, uses the cached value.  When it is not fresh the lookup runs the
aggregation once and its outcome is the outcome of the query, and the call
runs the aggregation exactly once.  An entry that is exactly 900 ms old and
not nil is fresh; a nil value is never fresh. -/
theorem gpa_distribution_freshness (env : GradesEnv) (userID : String) (gc : GradeCache) :
    (GpaFresh env.now gc → gpaLookup env gc = Except.ok (gc.cachedGPAs, gc)) ∧
      (¬ GpaFresh env.now gc →
        (cacheOf (gpaLookup env gc)).queries = gc.queries ++ [Aggregation.gpas] ∧
        served (gpaLookup env gc) = env.selectGPAs) ∧
      (GetGrades env userID gc).2.queries.count Aggregation.gpas =
        gc.queries.count Aggregation.gpas + (if GpaFresh env.now gc then 0 else 1) ∧
      (GpaFresh env.now gc →
        (GetGrades env userID gc).2.cachedGPAs = gc.cachedGPAs ∧
        (GetGrades env userID gc).2.gpaCachedAt = gc.gpaCachedAt ∧
        ∀ body, (GetGrades env userID gc).1 = GradesResponse.JSON StatusOK body →
          body.Summary.Gpas = gc.cachedGPAs) ∧
      (gc.cachedGPAs ≠ none → env.now - gc.gpaCachedAt = 900 * Millisecond →
        GpaFresh env.now gc) ∧
      (gc.cachedGPAs = none → ¬ GpaFresh env.now gc) := by
  refine ⟨gpaLookup_hit env gc, ?_, ?_, ?_, ?_, ?_⟩
  · intro hf
    rw [gpaLookup_miss env gc hf]
    cases env.selectGPAs with
    | none => exact ⟨rfl, rfl⟩
    | some gpas => exact ⟨rfl, rfl⟩
  · rw [GetGrades_cache]
    by_cases hf : GpaFresh env.now gc
    · rw [gpaLookup_hit env gc hf, if_pos hf]
      simp only [add_zero]
      cases env.selectRegisteredCourses userID with
      | none => rfl
      | some registeredCourses => exact (courseLoop_gpa env userID registeredCourses _).2.2
    · rw [gpaLookup_miss env gc hf, if_neg hf]
      cases env.selectGPAs with
      | none => exact count_append_singleton_self _ _
      | some gpas =>
        simp only
        cases env.selectRegisteredCourses userID with
        | none => exact count_append_singleton_self _ _
        | some registeredCourses =>
          simp only
          rw [(courseLoop_gpa env userID registeredCourses _).2.2]
          exact count_append_singleton_self _ _
  · intro hf
    refine ⟨?_, ?_, ?_⟩
    · rw [GetGrades_cache, gpaLookup_hit env gc hf]
      simp only
      cases env.selectRegisteredCourses userID with
      | none => rfl
      | some registeredCourses => exact (courseLoop_gpa env userID registeredCourses _).1
    · rw [GetGrades_cache, gpaLookup_hit env gc hf]
      simp only
      cases env.selectRegisteredCourses userID with
      | none => rfl
      | some registeredCourses => exact (courseLoop_gpa env userID registeredCourses _).2.1
    · intro body hbody
      have h := GetGrades_gpas env userID gc body hbody
      rw [gpaLookup_hit env gc hf] at h
      simp only [served, Option.some.injEq] at h
      exact h.symm
  · intro hne heq
    exact ⟨hne, le_of_eq heq⟩
  · intro hnil hf
    exact hf.1 hnil

/-- C15: the cached distribution of a course is fresh when both a timestamp
and a value are cached for its id and `now - cachedAt` is at most 100 ms.
When it is fresh the lookup returns the cached value and leaves the cache, and
the call of `GetGrades` runs no aggregation for that course.  When it is not
fresh the lookup runs the aggregation of that course once and its outcome is
the outcome of the query. -/
theorem totalScore_distribution_freshness (env : GradesEnv) (userID : String)
    (gc : GradeCache) (courseID : String) :
    (∀ score, TotalsFresh env.now gc courseID score →
        totalScoreLookup env gc courseID = Except.ok (score, gc)) ∧
      ((∀ score, ¬ TotalsFresh env.now gc courseID score) →
        (cacheOf (totalScoreLookup env gc courseID)).queries =
          gc.queries ++ [Aggregation.totals courseID] ∧
        served (totalScoreLookup env gc courseID) = env.selectTotals courseID) ∧
      ∀ score, TotalsFresh env.now gc courseID score →
        (GetGrades env userID gc).2.queries.count (Aggregation.totals courseID) =
          gc.queries.count (Aggregation.totals courseID) := by
  refine ⟨totalScoreLookup_hit env gc courseID, ?_, ?_⟩
  · intro hf
    rw [totalScoreLookup_miss env gc courseID hf]
    cases env.selectTotals courseID with
    | none => exact ⟨rfl, rfl⟩
    | some totals => exact ⟨rfl, rfl⟩
  · intro score hf
    obtain ⟨h1, h2, h3⟩ := gpaLookup_frame env gc courseID
    rw [GetGrades_cache]
    cases hl : gpaLookup env gc with
    | error gc1 =>
      rw [hl] at h3
      exact h3
    | ok p =>
      obtain ⟨gpas, gc1⟩ := p
      rw [hl] at h1 h2 h3
      simp only [cacheOf] at h1 h2 h3
      simp only
      cases env.selectRegisteredCourses userID with
      | none => exact h3
      | some registeredCourses =>
        simp only
        have hf1 : TotalsFresh env.now gc1 courseID score := by
          obtain ⟨cachedAt, hx1, hx2, hx3⟩ := hf
          exact ⟨cachedAt, by rw [h2]; exact hx1, by rw [h1]; exact hx2, hx3⟩
        rw [courseLoop_fresh env userID courseID score registeredCourses
          { courseResults := [], myGPA := FloatExpr.ofInt 0, myCredits := 0, cache := gc1 } hf1]
        exact h3

/-- Counterexample to C16 as stated: on an empty cache a call at the time 1000
whose aggregation of the GPAs succeeds with no row (a nil slice) answers 200
and stores the timestamp 1000; the following call, at the same time 1000,
runs the aggregation again instead of being a hit. -/
theorem nil_distribution_not_served :
    (GetGrades (exampleEnv 1000 (some none)) "u" emptyGradeCache).1 =
        GradesResponse.JSON StatusOK
          { Summary := { Credits := 0, GPA := FloatExpr.ofInt 0, Gpas := none }
            CourseResults := [] } ∧
      (GetGrades (exampleEnv 1000 (some none)) "u" emptyGradeCache).2.gpaCachedAt = 1000 ∧
      (GetGrades (exampleEnv 1000 (some none)) "u" emptyGradeCache).2.queries =
        [Aggregation.gpas] ∧
      (GetGrades (exampleEnv 1000 (some none)) "u"
        (GetGrades (exampleEnv 1000 (some none)) "u" emptyGradeCache).2).2.queries =
        [Aggregation.gpas, Aggregation.gpas] := by
  decide

/-- C16 (amended): after a miss whose aggregation succeeds, the lookup serves
the recomputed value and the cache holds exactly that value with the `now` of
the call as timestamp; a following lookup of a course at a time `t` with
`t - now ≤ 100 ms` is a hit that returns the value, and a following lookup of
the global distribution at a time `t` with `t - now ≤ 900 ms` is a hit that
returns the value provided the value is not nil.  The global entry published
by a call of `GetGrades` is still the one in the cache when the call ends. -/
theorem cache_publication :
    (∀ (env : GradesEnv) (gc : GradeCache) (gpas : Option (List Float64)),
        ¬ GpaFresh env.now gc → env.selectGPAs = some gpas →
          served (gpaLookup env gc) = some gpas ∧
          (cacheOf (gpaLookup env gc)).cachedGPAs = gpas ∧
          (cacheOf (gpaLookup env gc)).gpaCachedAt = env.now ∧
          ∀ env2 : GradesEnv, env2.now - env.now ≤ 900 * Millisecond → gpas ≠ none →
            gpaLookup env2 (cacheOf (gpaLookup env gc)) =
              Except.ok (gpas, cacheOf (gpaLookup env gc))) ∧
      (∀ (env : GradesEnv) (gc : GradeCache) (courseID : String) (totals : Option (List Int)),
        (∀ score, ¬ TotalsFresh env.now gc courseID score) →
          env.selectTotals courseID = some totals →
            served (totalScoreLookup env gc courseID) = some totals ∧
            mapLoad (cacheOf (totalScoreLookup env gc courseID)).cachedTotalScore courseID =
              some totals ∧
            mapLoad (cacheOf (totalScoreLookup env gc courseID)).totalScoreCachedAt courseID =
              some env.now ∧
            ∀ env2 : GradesEnv, env2.now - env.now ≤ 100 * Millisecond →
              totalScoreLookup env2 (cacheOf (totalScoreLookup env gc courseID)) courseID =
                Except.ok (totals, cacheOf (totalScoreLookup env gc courseID))) ∧
      ∀ (env : GradesEnv) (userID : String) (gc : GradeCache) (gpas : Option (List Float64)),
        ¬ GpaFresh env.now gc → env.selectGPAs = some gpas →
          (GetGrades env userID gc).2.cachedGPAs = gpas ∧
          (GetGrades env userID gc).2.gpaCachedAt = env.now ∧
          ∀ env2 : GradesEnv, env2.now - env.now ≤ 900 * Millisecond → gpas ≠ none →
            gpaLookup env2 (GetGrades env userID gc).2 =
              Except.ok (gpas, (GetGrades env userID gc).2) := by
  refine ⟨?_, ?_, ?_⟩
  · intro env gc gpas hf hq
    rw [gpaLookup_miss env gc hf, hq]
    refine ⟨rfl, rfl, rfl, ?_⟩
    intro env2 ht hne
    exact gpaLookup_hit env2 _ ⟨hne, ht⟩
  · intro env gc courseID totals hf hq
    rw [totalScoreLookup_miss env gc courseID hf, hq]
    refine ⟨rfl, mapLoad_mapStore_self _ _ _, mapLoad_mapStore_self _ _ _, ?_⟩
    intro env2 ht
    exact totalScoreLookup_hit env2 _ courseID totals
      ⟨env.now, mapLoad_mapStore_self _ _ _, mapLoad_mapStore_self _ _ _, ht⟩
  · intro env userID gc gpas hf hq
    have hfields : (GetGrades env userID gc).2.cachedGPAs = gpas ∧
        (GetGrades env userID gc).2.gpaCachedAt = env.now := by
      rw [GetGrades_cache, gpaLookup_miss env gc hf, hq]
      simp only
      cases env.selectRegisteredCourses userID with
      | none => exact ⟨rfl, rfl⟩
      | some registeredCourses =>
        simp only
        exact ⟨(courseLoop_gpa env userID registeredCourses _).1,
          (courseLoop_gpa env userID registeredCourses _).2.1⟩
    refine ⟨hfields.1, hfields.2, ?_⟩
    intro env2 ht hne
    have hfresh : GpaFresh env2.now (GetGrades env userID gc).2 := by
      refine ⟨?_, ?_⟩
      · rw [hfields.1]
        exact hne
      · rw [hfields.2]
        exact ht
    rw [gpaLookup_hit env2 _ hfresh, hfields.1]

/-- Witness of C16 (amended): on an empty cache a call at the time 1000 whose
aggregation gives one GPA publishes it, and a lookup 900 ms later is a hit. -/
theorem cache_publication_witness :
    served (gpaLookup (exampleEnv 1000 (some (some [{ bits := 7 }]))) emptyGradeCache) =
        some (some [{ bits := 7 }]) ∧
      gpaLookup (exampleEnv 900001000 none)
          (cacheOf (gpaLookup (exampleEnv 1000 (some (some [{ bits := 7 }]))) emptyGradeCache)) =
        Except.ok (some [{ bits := 7 }],
          cacheOf (gpaLookup (exampleEnv 1000 (some (some [{ bits := 7 }]))) emptyGradeCache)) :=
  ⟨(cache_publication.1 (exampleEnv 1000 (some (some [{ bits := 7 }]))) emptyGradeCache
      (some [{ bits := 7 }]) (by decide) rfl).1,
    (cache_publication.1 (exampleEnv 1000 (some (some [{ bits := 7 }]))) emptyGradeCache
      (some [{ bits := 7 }]) (by decide) rfl).2.2.2 (exampleEnv 900001000 none) (by decide)
      (by decide)⟩

/-- C17: when the aggregation of the GPAs fails on a miss, `GetGrades` answers
500 and the cache is the one of the start (only the record of executed queries
grows).  When the aggregation of a course fails on a miss, the lookup fails
and the cached values, the cached timestamps and the global entry are the ones
of the start.  In a call of `GetGrades` in which the aggregation of course `k`
fails, the cached value and timestamp of `k` after the call are those before
it, and if that aggregation was run the call answers 500. -/
theorem failed_recomputation_keeps_cache :
    (∀ (env : GradesEnv) (userID : String) (gc : GradeCache),
        ¬ GpaFresh env.now gc → env.selectGPAs = none →
          GetGrades env userID gc =
            (GradesResponse.NoContent StatusInternalServerError,
              { gc with queries := gc.queries ++ [Aggregation.gpas] })) ∧
      (∀ (env : GradesEnv) (gc : GradeCache) (k : String),
        (∀ score, ¬ TotalsFresh env.now gc k score) → env.selectTotals k = none →
          ∃ gc1, totalScoreLookup env gc k = Except.error gc1 ∧
            gc1.cachedTotalScore = gc.cachedTotalScore ∧
            gc1.totalScoreCachedAt = gc.totalScoreCachedAt ∧
            gc1.cachedGPAs = gc.cachedGPAs ∧ gc1.gpaCachedAt = gc.gpaCachedAt) ∧
      ∀ (env : GradesEnv) (userID : String) (gc : GradeCache) (k : String),
        env.selectTotals k = none →
          mapLoad (GetGrades env userID gc).2.cachedTotalScore k =
              mapLoad gc.cachedTotalScore k ∧
            mapLoad (GetGrades env userID gc).2.totalScoreCachedAt k =
              mapLoad gc.totalScoreCachedAt k ∧
            ((GetGrades env userID gc).2.queries.count (Aggregation.totals k) ≠
                gc.queries.count (Aggregation.totals k) →
              (GetGrades env userID gc).1 =
                GradesResponse.NoContent StatusInternalServerError) := by
  refine ⟨?_, ?_, ?_⟩
  · intro env userID gc hf hq
    unfold GetGrades
    rw [gpaLookup_miss env gc hf, hq]
  · intro env gc k hf hq
    rw [totalScoreLookup_miss env gc k hf, hq]
    exact ⟨_, rfl, rfl, rfl, rfl, rfl⟩
  · intro env userID gc k hq
    obtain ⟨h1, h2, h3⟩ := gpaLookup_frame env gc k
    rw [GetGrades_cache]
    cases hl : gpaLookup env gc with
    | error gc1 =>
      rw [hl] at h1 h2 h3
      simp only [cacheOf] at h1 h2 h3
      refine ⟨by rw [h1], by rw [h2], ?_⟩
      intro hne
      exact absurd h3 hne
    | ok p =>
      obtain ⟨gpas, gc1⟩ := p
      rw [hl] at h1 h2 h3
      simp only [cacheOf] at h1 h2 h3
      simp only
      cases hs : env.selectRegisteredCourses userID with
      | none =>
        refine ⟨by rw [h1], by rw [h2], ?_⟩
        intro hne
        exact absurd h3 hne
      | some registeredCourses =>
        simp only
        obtain ⟨l1, l2, l3⟩ := courseLoop_failing env userID k hq registeredCourses
          { courseResults := [], myGPA := FloatExpr.ofInt 0, myCredits := 0, cache := gc1 }
        refine ⟨by rw [l1, h1], by rw [l2, h2], ?_⟩
        intro hne
        rcases l3 with l3 | l3
        · exact absurd (l3.trans h3) hne
        · exact GetGrades_error_of_loop env userID gc gc1 gpas registeredCourses hl hs l3

/-- Witness of C17: the global distribution was computed at the time 0; a
call one second later whose aggregation fails answers 500 and leaves the
cached value and timestamp. -/
theorem failed_recomputation_keeps_cache_witness :
    GetGrades (exampleEnv 1000000000 none) "u" staleGradeCache =
      (GradesResponse.NoContent StatusInternalServerError,
        { staleGradeCache with queries := staleGradeCache.queries ++ [Aggregation.gpas] }) :=
  failed_recomputation_keeps_cache.1 (exampleEnv 1000000000 none) "u" staleGradeCache
    (by decide) rfl

/-- Counterexample to C18 as stated: the global distribution `[1]` was
computed at the time 0; the call at 1 s finds it stale, its aggregation fails
and it answers 500; the next call, at 2 s, is not served the previous value:
it runs the aggregation again and is served the new value `[2]`, or answers
500 when the aggregation fails again. -/
theorem stale_entry_not_served_after_failure :
    (GetGrades (exampleEnv 1000000000 none) "u" staleGradeCache).1 =
        GradesResponse.NoContent StatusInternalServerError ∧
      (GetGrades (exampleEnv 1000000000 none) "u" staleGradeCache).2.cachedGPAs =
        some [{ bits := 1 }] ∧
      (GetGrades (exampleEnv 2000000000 (some (some [{ bits := 2 }]))) "u"
          (GetGrades (exampleEnv 1000000000 none) "u" staleGradeCache).2).1 =
        GradesResponse.JSON StatusOK
          { Summary := { Credits := 0, GPA := FloatExpr.ofInt 0, Gpas := some [{ bits := 2 }] }
            CourseResults := [] } ∧
      (GetGrades (exampleEnv 2000000000 none) "u"
          (GetGrades (exampleEnv 1000000000 none) "u" staleGradeCache).2).1 =
        GradesResponse.NoContent StatusInternalServerError := by
  decide

/-- C18 (amended): after a call whose recomputation for a key failed, the
next lookup of that key is served the previous entry's value exactly when
that entry is fresh at the time of the next call; otherwise it runs the
aggregation again and its outcome is the outcome of that query.  When the
clock of the next call is not behind the clock of the failed call, the entry
is not fresh, so the aggregation is run again. -/
theorem next_call_after_failure :
    (∀ (env1 : GradesEnv) (userID : String) (gc : GradeCache),
        ¬ GpaFresh env1.now gc → env1.selectGPAs = none →
          ∀ env2 : GradesEnv,
            (GpaFresh env2.now gc →
              served (gpaLookup env2 (GetGrades env1 userID gc).2) = some gc.cachedGPAs) ∧
            (¬ GpaFresh env2.now gc →
              served (gpaLookup env2 (GetGrades env1 userID gc).2) = env2.selectGPAs) ∧
            (env1.now ≤ env2.now → ¬ GpaFresh env2.now gc)) ∧
      ∀ (env1 : GradesEnv) (gc : GradeCache) (k : String),
        (∀ score, ¬ TotalsFresh env1.now gc k score) → env1.selectTotals k = none →
          ∀ env2 : GradesEnv,
            (∀ score, TotalsFresh env2.now gc k score →
              served (totalScoreLookup env2 (cacheOf (totalScoreLookup env1 gc k)) k) =
                some score) ∧
            ((∀ score, ¬ TotalsFresh env2.now gc k score) →
              served (totalScoreLookup env2 (cacheOf (totalScoreLookup env1 gc k)) k) =
                env2.selectTotals k) ∧
            (env1.now ≤ env2.now → ∀ score, ¬ TotalsFresh env2.now gc k score) := by
  constructor
  · intro env1 userID gc hf hq env2
    have hcall : GetGrades env1 userID gc =
        (GradesResponse.NoContent StatusInternalServerError,
          { gc with queries := gc.queries ++ [Aggregation.gpas] }) := by
      unfold GetGrades
      rw [gpaLookup_miss env1 gc hf, hq]
    rw [hcall]
    refine ⟨?_, ?_, ?_⟩
    · intro hf2
      have hf3 : GpaFresh env2.now { gc with queries := gc.queries ++ [Aggregation.gpas] } :=
        hf2
      rw [gpaLookup_hit env2 _ hf3]
      rfl
    · intro hf2
      have hf3 : ¬ GpaFresh env2.now { gc with queries := gc.queries ++ [Aggregation.gpas] } :=
        hf2
      rw [gpaLookup_miss env2 _ hf3]
      cases env2.selectGPAs with
      | none => rfl
      | some gpas => rfl
    · intro hle hf2
      apply hf
      refine ⟨hf2.1, ?_⟩
      have := hf2.2
      omega
  · intro env1 gc k hf hq env2
    rw [totalScoreLookup_miss env1 gc k hf, hq]
    refine ⟨?_, ?_, ?_⟩
    · intro score hf2
      have hf3 : TotalsFresh env2.now
          { gc with
            totalScoreCalcGroup := k :: gc.totalScoreCalcGroup
            queries := gc.queries ++ [Aggregation.totals k] } k score := hf2
      simp only [cacheOf]
      rw [totalScoreLookup_hit env2 _ k score hf3]
      rfl
    · intro hf2
      have hf3 : ∀ score, ¬ TotalsFresh env2.now
          { gc with
            totalScoreCalcGroup := k :: gc.totalScoreCalcGroup
            queries := gc.queries ++ [Aggregation.totals k] } k score := hf2
      simp only [cacheOf]
      rw [totalScoreLookup_miss env2 _ k hf3]
      cases env2.selectTotals k with
      | none => rfl
      | some totals => rfl
    · rintro hle score ⟨cachedAt, h1, h2, h3⟩
      apply hf score
      refine ⟨cachedAt, h1, h2, ?_⟩
      omega

/-- Witness of C18 (amended): after the failed call at 1 s on the cache
computed at the time 0, the lookup of the call at 2 s runs the aggregation
and is served its result. -/
theorem next_call_after_failure_witness :
    served (gpaLookup (exampleEnv 2000000000 (some (some [{ bits := 2 }])))
        (GetGrades (exampleEnv 1000000000 none) "u" staleGradeCache).2) =
      some (some [{ bits := 2 }]) :=
  ((next_call_after_failure.1 (exampleEnv 1000000000 none) "u" staleGradeCache
      (by decide) rfl (exampleEnv 2000000000 (some (some [{ bits := 2 }])))).2.1 (by decide))

/-- Witness of C14: the global distribution computed at the time 0 is served
from the cache by a lookup exactly 900 ms later. -/
theorem gpa_distribution_freshness_witness :
    gpaLookup (exampleEnv 900000000 none) staleGradeCache =
      Except.ok (some [{ bits := 1 }], staleGradeCache) :=
  (gpa_distribution_freshness (exampleEnv 900000000 none) "u" staleGradeCache).1 (by decide)

/-- Witness of C15: the distribution of course `a` computed at the time 0 is
served from the cache by a lookup exactly 100 ms later. -/
theorem totalScore_distribution_freshness_witness :
    totalScoreLookup (exampleEnv 100000000 none) courseGradeCache "a" =
      Except.ok (some [10, 20], courseGradeCache) :=
  (totalScore_distribution_freshness (exampleEnv 100000000 none) "u" courseGradeCache "a").1
    (some [10, 20]) ⟨0, rfl, rfl, by decide⟩

/-! ## Frame and growth of the caches -/

theorem mapLoad_mapStore_isSome {α : Type} (m : List (String × α)) (key k : String) (v : α)
    (h : (mapLoad m k).isSome = true) : (mapLoad (mapStore m key v) k).isSome = true := by
  by_cases hk : key = k
  · rw [hk, mapLoad_mapStore_self]
    rfl
  · rw [mapLoad_mapStore_other _ _ hk]
    exact h

/-- A lookup of the distribution of course `k` leaves the entries of every
other course and the global entry as they are. -/
theorem totalScoreLookup_frame (env : GradesEnv) (gc : GradeCache) (k : String) :
    (∀ j, j ≠ k →
        mapLoad (cacheOf (totalScoreLookup env gc k)).cachedTotalScore j =
          mapLoad gc.cachedTotalScore j ∧
        mapLoad (cacheOf (totalScoreLookup env gc k)).totalScoreCachedAt j =
          mapLoad gc.totalScoreCachedAt j) ∧
      (cacheOf (totalScoreLookup env gc k)).cachedGPAs = gc.cachedGPAs ∧
      (cacheOf (totalScoreLookup env gc k)).gpaCachedAt = gc.gpaCachedAt := by
  rcases totalScoreLookup_cases env gc k with ⟨score, _, hl⟩ | ⟨_, _, hl⟩ | ⟨_, totals, _, hl⟩
  · rw [hl]
    exact ⟨fun j _ => ⟨rfl, rfl⟩, rfl, rfl⟩
  · rw [hl]
    exact ⟨fun j _ => ⟨rfl, rfl⟩, rfl, rfl⟩
  · rw [hl]
    refine ⟨fun j hj => ⟨?_, ?_⟩, rfl, rfl⟩
    · exact mapLoad_mapStore_other _ _ (fun h => hj h.symm)
    · exact mapLoad_mapStore_other _ _ (fun h => hj h.symm)

/-- A lookup of the distribution of a course removes no key of the two
per-course maps. -/
theorem totalScoreLookup_keys (env : GradesEnv) (gc : GradeCache) (j k : String) :
    ((mapLoad gc.cachedTotalScore k).isSome = true →
        (mapLoad (cacheOf (totalScoreLookup env gc j)).cachedTotalScore k).isSome = true) ∧
      ((mapLoad gc.totalScoreCachedAt k).isSome = true →
        (mapLoad (cacheOf (totalScoreLookup env gc j)).totalScoreCachedAt k).isSome = true) := by
  rcases totalScoreLookup_cases env gc j with ⟨score, _, hl⟩ | ⟨_, _, hl⟩ | ⟨_, totals, _, hl⟩
  · rw [hl]
    exact ⟨id, id⟩
  · rw [hl]
    exact ⟨id, id⟩
  · rw [hl]
    exact ⟨mapLoad_mapStore_isSome _ _ _ _, mapLoad_mapStore_isSome _ _ _ _⟩

/-- The loop over the courses removes no key of the two per-course maps. -/
theorem courseLoop_keys (env : GradesEnv) (userID : String) (k : String)
    (courses : List Course) :
    ∀ acc : GradesAcc,
      ((mapLoad acc.cache.cachedTotalScore k).isSome = true →
          (mapLoad (accCache (courseLoop env userID courses acc)).cachedTotalScore k).isSome =
            true) ∧
        ((mapLoad acc.cache.totalScoreCachedAt k).isSome = true →
          (mapLoad (accCache (courseLoop env userID courses acc)).totalScoreCachedAt k).isSome =
            true) := by
  induction courses with
  | nil => intro acc; exact ⟨id, id⟩
  | cons course rest ih =>
    intro acc
    have hk := totalScoreLookup_keys env acc.cache course.ID k
    rcases courseLoop_cons env userID course rest acc with
      h | ⟨gc, hl, h⟩ | ⟨totals, acc1, hl, h⟩
    · rw [h]
      exact ⟨id, id⟩
    · rw [h]
      rw [hl] at hk
      exact hk
    · rw [h]
      rw [hl] at hk
      exact ⟨fun hx => (ih acc1).1 (hk.1 hx), fun hx => (ih acc1).2 (hk.2 hx)⟩

/-- C24: a lookup of the distribution of course `k`, whether a hit, a refresh
or a failed refresh, leaves the cached value and the cached timestamp of every
other course id and the global value and timestamp as they are; a lookup of
the global distribution leaves the two per-course maps as they are. -/
theorem cache_keys_independent :
    (∀ (env : GradesEnv) (gc : GradeCache) (k j : String), j ≠ k →
        mapLoad (cacheOf (totalScoreLookup env gc k)).cachedTotalScore j =
          mapLoad gc.cachedTotalScore j ∧
        mapLoad (cacheOf (totalScoreLookup env gc k)).totalScoreCachedAt j =
          mapLoad gc.totalScoreCachedAt j) ∧
      (∀ (env : GradesEnv) (gc : GradeCache) (k : String),
        (cacheOf (totalScoreLookup env gc k)).cachedGPAs = gc.cachedGPAs ∧
        (cacheOf (totalScoreLookup env gc k)).gpaCachedAt = gc.gpaCachedAt) ∧
      ∀ (env : GradesEnv) (gc : GradeCache),
        (cacheOf (gpaLookup env gc)).cachedTotalScore = gc.cachedTotalScore ∧
        (cacheOf (gpaLookup env gc)).totalScoreCachedAt = gc.totalScoreCachedAt :=
  ⟨fun env gc k j hj => (totalScoreLookup_frame env gc k).1 j hj,
    fun env gc k => (totalScoreLookup_frame env gc k).2,
    fun env gc => ⟨(gpaLookup_frame env gc "").1, (gpaLookup_frame env gc "").2.1⟩⟩

theorem syncMapLoad_syncMapStore_isSome (m : List (String × Course)) (key k : String)
    (v : Course) (h : (syncMapLoad m k).isSome = true) :
    (syncMapLoad (syncMapStore m key v) k).isSome = true := by
  simp only [syncMapStore, syncMapLoad]
  by_cases hk : key = k
  · rw [if_pos hk]
    rfl
  · rw [if_neg hk]
    exact h

theorem keys_lookupCourse {flt : Faults} {db : DB} {cache cache1 : List (String × Course)}
    {id : String} {c : Course} (k : String)
    (h : lookupCourse flt db cache id = Lookup.found c cache1)
    (hk : (syncMapLoad cache k).isSome = true) : (syncMapLoad cache1 k).isSome = true := by
  unfold lookupCourse at h
  split at h
  · cases h
    exact hk
  · split at h
    · cases h
    · split at h
      · cases h
      · cases h
        exact syncMapLoad_syncMapStore_isSome _ _ _ _ hk

/-- The loop over the request removes no key of `courseCache`, also when it is
cut short by a store failure. -/
theorem keys_registerLoop (flt : Faults) (db : DB) (userID : String) (k : String)
    (req : List RegisterCourseRequestContent) :
    ∀ v : Validation, (syncMapLoad v.courseCache k).isSome = true →
      (syncMapLoad (validationCache (registerLoop flt db userID req v)) k).isSome = true := by
  induction req with
  | nil => intro v hk; exact hk
  | cons r rest ih =>
    intro v hk
    simp only [registerLoop]
    cases hl : lookupCourse flt db v.courseCache r.ID with
    | failed => exact hk
    | notFound => exact ih _ hk
    | found c cache1 =>
      have hk1 : (syncMapLoad cache1 k).isSome = true := keys_lookupCourse k hl hk
      simp only
      by_cases hs : c.Status ≠ StatusRegistration
      · rw [if_pos hs]
        exact ih _ hk1
      · rw [if_neg hs]
        by_cases hf : flt.countRegistration c.ID = true
        · rw [if_pos hf]
          exact hk1
        · rw [if_neg hf]
          by_cases hc : countRegistration db c.ID userID > 0
          · rw [if_pos hc]
            exact ih _ hk1
          · rw [if_neg hc]
            exact ih _ hk1

theorem keys_validate (flt : Faults) (db : DB) (cache : List (String × Course))
    (userID : String) (req : List RegisterCourseRequestContent) (k : String)
    (hk : (syncMapLoad cache k).isSome = true) :
    (syncMapLoad (validationCache (validate flt db cache userID req)) k).isSome = true := by
  have hloop := keys_registerLoop flt db userID k req
    { errors := { CourseNotFound := [], NotRegistrableStatus := [], ScheduleConflict := [] }
      newlyAdded := []
      courseCache := cache } hk
  unfold validate
  cases hr : registerLoop flt db userID req
      { errors := { CourseNotFound := [], NotRegistrableStatus := [], ScheduleConflict := [] }
        newlyAdded := []
        courseCache := cache } with
  | error c1 =>
    rw [hr] at hloop
    exact hloop
  | ok v1 =>
    rw [hr] at hloop
    simp only
    by_cases hf : flt.selectRegistered = true
    · rw [if_pos hf]
      exact hloop
    · rw [if_neg hf]
      exact hloop

theorem courseCache_RegisterCourses (flt : Faults) (st : State) (userID : String)
    (req : List RegisterCourseRequestContent) :
    (RegisterCourses flt st userID req).2.courseCache =
      if flt.beginx = true then st.courseCache
      else validationCache (validate flt st.db st.courseCache userID (sortSlice req)) := by
  unfold RegisterCourses
  simp only
  by_cases hb : flt.beginx = true
  · rw [if_pos hb, if_pos hb]
  · rw [if_neg hb, if_neg hb]
    cases hv : validate flt st.db st.courseCache userID (sortSlice req) with
    | error c1 => rfl
    | ok v1 =>
      simp only
      split
      · rfl
      · rw [courseCache_commitRegistrations]
        rfl

/-- C23: no operation that touches a cache removes a key of it.  A key of
`courseCache` before `RegisterCourses` or `SetCourseStatus` is a key of it
afterwards, and a key of the cached total scores or of their timestamps before
`GetGrades` is a key afterwards, whatever store operations fail. -/
theorem cache_keys_only_grow :
    (∀ (flt : Faults) (st : State) (userID : String)
        (req : List RegisterCourseRequestContent) (k : String),
        (syncMapLoad st.courseCache k).isSome = true →
          (syncMapLoad (RegisterCourses flt st userID req).2.courseCache k).isSome = true) ∧
      (∀ (flt : Faults) (st : State) (id : String) (s : CourseStatus) (k : String),
        (syncMapLoad st.courseCache k).isSome = true →
          (syncMapLoad (SetCourseStatus flt st id s).2.courseCache k).isSome = true) ∧
      (∀ (env : GradesEnv) (userID : String) (gc : GradeCache) (k : String),
        (mapLoad gc.cachedTotalScore k).isSome = true →
          (mapLoad (GetGrades env userID gc).2.cachedTotalScore k).isSome = true) ∧
      ∀ (env : GradesEnv) (userID : String) (gc : GradeCache) (k : String),
        (mapLoad gc.totalScoreCachedAt k).isSome = true →
          (mapLoad (GetGrades env userID gc).2.totalScoreCachedAt k).isSome = true := by
  refine ⟨?_, ?_, ?_, ?_⟩
  · intro flt st userID req k hk
    rw [courseCache_RegisterCourses]
    by_cases hb : flt.beginx = true
    · rw [if_pos hb]
      exact hk
    · rw [if_neg hb]
      exact keys_validate flt st.db st.courseCache userID (sortSlice req) k hk
  · intro flt st id s k hk
    unfold SetCourseStatus
    by_cases hb : flt.beginx = true
    · rw [if_pos hb]
      exact hk
    · rw [if_neg hb]
      by_cases hg : flt.getCourse id = true
      · rw [if_pos hg]
        exact hk
      · rw [if_neg hg]
        cases getCourse st.db id with
        | none => exact hk
        | some course =>
          simp only
          by_cases he : flt.exec = true
          · rw [if_pos he]
            exact hk
          · rw [if_neg he]
            by_cases hc : flt.commit = true
            · rw [if_pos hc]
              exact syncMapLoad_syncMapStore_isSome _ _ _ _ hk
            · rw [if_neg hc]
              exact syncMapLoad_syncMapStore_isSome _ _ _ _ hk
  · intro env userID gc k hk
    obtain ⟨h1, _, _⟩ := gpaLookup_frame env gc k
    rw [GetGrades_cache]
    cases hl : gpaLookup env gc with
    | error gc1 =>
      rw [hl] at h1
      simp only [cacheOf] at h1
      simp only
      rw [h1]
      exact hk
    | ok p =>
      obtain ⟨gpas, gc1⟩ := p
      rw [hl] at h1
      simp only [cacheOf] at h1
      simp only
      cases env.selectRegisteredCourses userID with
      | none =>
        simp only
        rw [h1]
        exact hk
      | some registeredCourses =>
        simp only
        exact (courseLoop_keys env userID k registeredCourses
          { courseResults := [], myGPA := FloatExpr.ofInt 0, myCredits := 0, cache := gc1 }).1
          (by rw [h1]; exact hk)
  · intro env userID gc k hk
    obtain ⟨_, h2, _⟩ := gpaLookup_frame env gc k
    rw [GetGrades_cache]
    cases hl : gpaLookup env gc with
    | error gc1 =>
      rw [hl] at h2
      simp only [cacheOf] at h2
      simp only
      rw [h2]
      exact hk
    | ok p =>
      obtain ⟨gpas, gc1⟩ := p
      rw [hl] at h2
      simp only [cacheOf] at h2
      simp only
      cases env.selectRegisteredCourses userID with
      | none =>
        simp only
        rw [h2]
        exact hk
      | some registeredCourses =>
        simp only
        exact (courseLoop_keys env userID k registeredCourses
          { courseResults := [], myGPA := FloatExpr.ofInt 0, myCredits := 0, cache := gc1 }).2
          (by rw [h2]; exact hk)

/-! ## Order and disjointness of the error lists -/

theorem sortSlice_ids_sorted (req : List RegisterCourseRequestContent) :
    ((sortSlice req).map fun r => r.ID).Pairwise idLE := by
  rw [List.pairwise_map]
  exact sortSlice_sorted req

theorem notFoundIDs_sublist (rs : String → Option Course)
    (req : List RegisterCourseRequestContent) :
    (notFoundIDs rs req).Sublist (req.map fun r => r.ID) := by
  induction req with
  | nil => exact List.Sublist.slnil
  | cons r rest ih =>
    unfold notFoundIDs at ih ⊢
    cases hrs : rs r.ID with
    | none =>
      simp only [List.filterMap_cons, hrs, List.map_cons]
      exact List.Sublist.cons₂ _ ih
    | some c =>
      simp only [List.filterMap_cons, hrs, List.map_cons]
      exact List.Sublist.cons _ ih

theorem notRegistrableIDs_sublist (rs : String → Option Course)
    (hid : ∀ id c, rs id = some c → c.ID = id) (req : List RegisterCourseRequestContent) :
    (notRegistrableIDs rs req).Sublist (req.map fun r => r.ID) := by
  induction req with
  | nil => exact List.Sublist.slnil
  | cons r rest ih =>
    unfold notRegistrableIDs at ih ⊢
    cases hrs : rs r.ID with
    | none =>
      simp only [List.filterMap_cons, hrs, List.map_cons]
      exact List.Sublist.cons _ ih
    | some c =>
      by_cases hs : c.Status ≠ StatusRegistration
      · simp only [List.filterMap_cons, hrs, List.map_cons, if_pos hs]
        rw [hid _ _ hrs]
        exact List.Sublist.cons₂ _ ih
      · simp only [List.filterMap_cons, hrs, List.map_cons, if_neg hs]
        exact List.Sublist.cons _ ih

theorem candidates_ids_sublist (rs : String → Option Course)
    (hid : ∀ id c, rs id = some c → c.ID = id) (db : DB) (userID : String)
    (req : List RegisterCourseRequestContent) :
    ((candidates rs db userID req).map fun c => c.ID).Sublist (req.map fun r => r.ID) := by
  induction req with
  | nil => exact List.Sublist.slnil
  | cons r rest ih =>
    unfold candidates at ih ⊢
    cases hrs : rs r.ID with
    | none =>
      simp only [List.filterMap_cons, hrs, List.map_cons]
      exact List.Sublist.cons _ ih
    | some c =>
      by_cases hs : c.Status = StatusRegistration ∧ countRegistration db c.ID userID = 0
      · simp only [List.filterMap_cons, hrs, List.map_cons, if_pos hs]
        rw [hid _ _ hrs]
        exact List.Sublist.cons₂ _ ih
      · simp only [List.filterMap_cons, hrs, List.map_cons, if_neg hs]
        exact List.Sublist.cons _ ih

theorem conflictIDs_sublist (ar l : List Course) :
    (conflictIDs ar l).Sublist (l.map fun c => c.ID) := by
  unfold conflictIDs
  exact List.Sublist.map _ (List.filter_sublist l)

/-- C25: when every cache entry is stored under the id of its course and no
store operation fails, each of `CourseNotFound`, `NotRegistrableStatus` and
`ScheduleConflict` is in non-decreasing order of the ids, whatever the order
of the request; `CourseNotFound` is so for every cache. -/
theorem error_lists_sorted (st : State) (userID : String)
    (req : List RegisterCourseRequestContent) :
    (RegisterCourses noFaults st userID req).1.errors.CourseNotFound.Pairwise idLE ∧
      (CacheWF st.courseCache →
        (RegisterCourses noFaults st userID req).1.errors.NotRegistrableStatus.Pairwise idLE ∧
        (RegisterCourses noFaults st userID req).1.errors.ScheduleConflict.Pairwise idLE) := by
  rw [errors_RegisterCourses_noFaults]
  have hsorted := sortSlice_ids_sorted req
  refine ⟨hsorted.sublist (notFoundIDs_sublist _ _), ?_⟩
  intro hwf
  have hid : ∀ id c, resolve st.db st.courseCache id = some c → c.ID = id :=
    fun id c h => resolve_id hwf h
  refine ⟨hsorted.sublist (notRegistrableIDs_sublist _ hid _), ?_⟩
  exact hsorted.sublist
    ((conflictIDs_sublist _ _).trans (candidates_ids_sublist _ hid st.db userID _))

/-- C27: when every cache entry is stored under the id of its course and no
store operation fails, no id is in two of `CourseNotFound`,
`NotRegistrableStatus` and `ScheduleConflict`. -/
theorem error_lists_disjoint (st : State) (userID : String)
    (req : List RegisterCourseRequestContent) (hwf : CacheWF st.courseCache) (id : String) :
    ¬ (id ∈ (RegisterCourses noFaults st userID req).1.errors.CourseNotFound ∧
        id ∈ (RegisterCourses noFaults st userID req).1.errors.NotRegistrableStatus) ∧
      ¬ (id ∈ (RegisterCourses noFaults st userID req).1.errors.CourseNotFound ∧
        id ∈ (RegisterCourses noFaults st userID req).1.errors.ScheduleConflict) ∧
      ¬ (id ∈ (RegisterCourses noFaults st userID req).1.errors.NotRegistrableStatus ∧
        id ∈ (RegisterCourses noFaults st userID req).1.errors.ScheduleConflict) := by
  have hnf : id ∈ (RegisterCourses noFaults st userID req).1.errors.CourseNotFound →
      resolve st.db st.courseCache id = none := by
    intro h
    obtain ⟨r, _, hrid, hnone⟩ := (courseNotFound_aux st userID req id).mp h
    rw [← hrid]
    exact hnone
  have hnr : id ∈ (RegisterCourses noFaults st userID req).1.errors.NotRegistrableStatus →
      ∃ c, resolve st.db st.courseCache id = some c ∧ c.Status ≠ StatusRegistration := by
    intro h
    obtain ⟨r, _, c, hres, hs, hcid⟩ := (notRegistrable_aux st userID req id).mp h
    have hrid : r.ID = id := by rw [← resolve_id hwf hres, hcid]
    rw [hrid] at hres
    exact ⟨c, hres, hs⟩
  have hsc : id ∈ (RegisterCourses noFaults st userID req).1.errors.ScheduleConflict →
      ∃ c, resolve st.db st.courseCache id = some c ∧ c.Status = StatusRegistration := by
    intro h
    obtain ⟨c, ⟨r, _, hres, hs, _⟩, hcid, _⟩ := (scheduleConflict_aux st userID req id).mp h
    have hrid : r.ID = id := by rw [← resolve_id hwf hres, hcid]
    rw [hrid] at hres
    exact ⟨c, hres, hs⟩
  refine ⟨?_, ?_, ?_⟩
  · rintro ⟨h1, h2⟩
    obtain ⟨c, hc, _⟩ := hnr h2
    rw [hnf h1] at hc
    cases hc
  · rintro ⟨h1, h2⟩
    obtain ⟨c, hc, _⟩ := hsc h2
    rw [hnf h1] at hc
    cases hc
  · rintro ⟨h1, h2⟩
    obtain ⟨c, hc, hs⟩ := hnr h1
    obtain ⟨d, hd, hs2⟩ := hsc h2
    rw [hc] at hd
    cases hd
    exact hs hs2

theorem exampleState_cacheWF : CacheWF exampleState.courseCache := by
  intro k c h
  simp only [exampleState, List.mem_singleton, Prod.mk.injEq] at h
  obtain ⟨hk, hc⟩ := h
  rw [hk, hc]
  rfl

/-- Witness of C25: user `v` requests `z`, `c`, `y`, `b`, `a` in this order;
the missing ids are listed as `y`, `z`, the clashing ones as `a`, `b`, and the
three lists are in non-decreasing order. -/
theorem error_lists_sorted_witness :
    (RegisterCourses noFaults exampleState "v"
        [{ ID := "z" }, { ID := "c" }, { ID := "y" }, { ID := "b" },
          { ID := "a" }]).1.errors =
        { CourseNotFound := ["y", "z"]
          NotRegistrableStatus := ["c"]
          ScheduleConflict := ["a", "b"] } ∧
      (RegisterCourses noFaults exampleState "v"
        [{ ID := "z" }, { ID := "c" }, { ID := "y" }, { ID := "b" },
          { ID := "a" }]).1.errors.CourseNotFound.Pairwise idLE ∧
      (RegisterCourses noFaults exampleState "v"
        [{ ID := "z" }, { ID := "c" }, { ID := "y" }, { ID := "b" },
          { ID := "a" }]).1.errors.NotRegistrableStatus.Pairwise idLE ∧
      (RegisterCourses noFaults exampleState "v"
        [{ ID := "z" }, { ID := "c" }, { ID := "y" }, { ID := "b" },
          { ID := "a" }]).1.errors.ScheduleConflict.Pairwise idLE :=
  ⟨by decide,
    (error_lists_sorted exampleState "v"
      [{ ID := "z" }, { ID := "c" }, { ID := "y" }, { ID := "b" }, { ID := "a" }]).1,
    (error_lists_sorted exampleState "v"
      [{ ID := "z" }, { ID := "c" }, { ID := "y" }, { ID := "b" }, { ID := "a" }]).2
      exampleState_cacheWF⟩

/-- Witness of C27: in the request `z`, `c`, `b`, `a` of user `v` the id `c`
is in `NotRegistrableStatus` only. -/
theorem error_lists_disjoint_witness :
    ¬ ("c" ∈ (RegisterCourses noFaults exampleState "v"
          [{ ID := "z" }, { ID := "c" }, { ID := "b" }, { ID := "a" }]).1.errors.CourseNotFound ∧
        "c" ∈ (RegisterCourses noFaults exampleState "v"
          [{ ID := "z" }, { ID := "c" }, { ID := "b" },
            { ID := "a" }]).1.errors.NotRegistrableStatus) ∧
      ¬ ("c" ∈ (RegisterCourses noFaults exampleState "v"
          [{ ID := "z" }, { ID := "c" }, { ID := "b" }, { ID := "a" }]).1.errors.CourseNotFound ∧
        "c" ∈ (RegisterCourses noFaults exampleState "v"
          [{ ID := "z" }, { ID := "c" }, { ID := "b" },
            { ID := "a" }]).1.errors.ScheduleConflict) ∧
      ¬ ("c" ∈ (RegisterCourses noFaults exampleState "v"
          [{ ID := "z" }, { ID := "c" }, { ID := "b" },
            { ID := "a" }]).1.errors.NotRegistrableStatus ∧
        "c" ∈ (RegisterCourses noFaults exampleState "v"
          [{ ID := "z" }, { ID := "c" }, { ID := "b" },
            { ID := "a" }]).1.errors.ScheduleConflict) :=
  error_lists_disjoint exampleState "v"
    [{ ID := "z" }, { ID := "c" }, { ID := "b" }, { ID := "a" }] exampleState_cacheWF "c"

/-! ## Failures after the validation -/

/-- C21 (the code departs from the claim): user `v` requests the valid course
`b`.  When the batched insert fails, and likewise when the commit fails, the
handler answers 500 and the registrations table is the one of the start, but
`v` has already been added to the set `registrations:b` and stays in it. -/
theorem RegisterCourses_failed_insert_keeps_sadd :
    (RegisterCourses { noFaults with exec := true } exampleState "v" [{ ID := "b" }]).1 =
        Response.NoContent StatusInternalServerError ∧
      (RegisterCourses { noFaults with exec := true } exampleState "v"
          [{ ID := "b" }]).2.db = exampleState.db ∧
      (RegisterCourses { noFaults with exec := true } exampleState "v"
          [{ ID := "b" }]).2.redis = exampleState.redis ++ [("registrations:b", "v")] ∧
      (RegisterCourses { noFaults with commit := true } exampleState "v" [{ ID := "b" }]).1 =
        Response.NoContent StatusInternalServerError ∧
      (RegisterCourses { noFaults with commit := true } exampleState "v"
          [{ ID := "b" }]).2.db = exampleState.db ∧
      (RegisterCourses { noFaults with commit := true } exampleState "v"
          [{ ID := "b" }]).2.redis = exampleState.redis ++ [("registrations:b", "v")] ∧
      redisSIsMember exampleState.redis "registrations:b" "v" = false := by
  decide

/-- C26 (the code departs from the claim): closing the open course `a` with a
commit that fails answers 500 and leaves the row of the store with the status
registration, but `courseCache`, which had no entry for `a`, now maps `a` to
the row with the status closed. -/
theorem SetCourseStatus_failed_commit_changes_cache :
    (SetCourseStatus { noFaults with commit := true } exampleState "a" StatusClosed).1 =
        StatusResponse.NoContent StatusInternalServerError ∧
      (SetCourseStatus { noFaults with commit := true } exampleState "a" StatusClosed).2.db =
        exampleState.db ∧
      getCourse exampleState.db "a" = some (exampleCourse "a" 1 "monday" "registration") ∧
      syncMapLoad exampleState.courseCache "a" = none ∧
      syncMapLoad (SetCourseStatus { noFaults with commit := true } exampleState "a"
          StatusClosed).2.courseCache "a" =
        some (exampleCourse "a" 1 "monday" "closed") := by
  decide

/-- C29 (the code departs from the claim): the empty request passes the
validation with no error and no newly added course, so the batched insert is
reached with `n = 0`; the repeat count is then `-1`, `strings.Repeat` panics
and no statement is built.  For `n + 1` courses the statement is built and has
`2 (n + 1)` placeholders, and the arguments are the course id and the user id
of each course in order, two per course. -/
theorem insert_statement_undefined_without_candidate :
    validate noFaults exampleState.db exampleState.courseCache "u" (sortSlice []) =
        Except.ok
          { errors :=
              { CourseNotFound := [], NotRegistrableStatus := [], ScheduleConflict := [] }
            newlyAdded := []
            courseCache := exampleState.courseCache } ∧
      stringsRepeat ",(?,?)" (((([] : List Course).length : Nat) : Int) - 1) = none ∧
      insertQuery ([] : List Course).length = none ∧
      (∀ n : Nat, ∃ q, insertQuery (n + 1) = some q ∧ placeholders q = 2 * (n + 1)) ∧
      ∀ (userID : String) (newlyAdded : List Course),
        (regArgsOf userID newlyAdded).length = 2 * newlyAdded.length ∧
        bindRows (regArgsOf userID newlyAdded) = rowsOf userID newlyAdded :=
  ⟨rfl, by decide, insertQuery_zero, insertQuery_succ,
    fun userID newlyAdded =>
      ⟨length_regArgsOf userID newlyAdded, bindRows_regArgsOf userID newlyAdded⟩⟩

/-! ## The summary of `GetGrades` -/

theorem wrapInt_wrapInt_add (a b : Int) : wrapInt (wrapInt a + b) = wrapInt (a + b) := by
  unfold wrapInt
  omega

theorem wrapInt_of_range (a : Int) (h1 : -(2 ^ 63) ≤ a) (h2 : a < 2 ^ 63) : wrapInt a = a := by
  unfold wrapInt
  omega

/-- The total the loop over the classes returns is the sum of the non-null
scores of the user, added to the total it starts from, wrapped to 64 bits. -/
theorem scoreLoop_total (submissionsCounts : List (String × Int))
    (myScores : List (String × Option Int)) (classes : List Class) :
    ∀ (classScores : List ClassScore) (myTotalScore : Int),
      wrapInt (scoreLoop submissionsCounts myScores classes classScores myTotalScore).2 =
        wrapInt (myTotalScore + sumScores myScores classes) := by
  induction classes with
  | nil => intro classScores myTotalScore; simp [scoreLoop, sumScores]
  | cons cls rest ih =>
    intro classScores myTotalScore
    have hsum : sumScores myScores (cls :: rest) =
        nonNullScore myScores cls + sumScores myScores rest := by
      simp [sumScores]
    rw [hsum]
    unfold nonNullScore
    simp only [scoreLoop]
    cases hl : mapLoad myScores cls.ID with
    | none =>
      simp only
      rw [ih]
      congr 1
      omega
    | some v =>
      cases v with
      | none =>
        simp only
        rw [ih]
        congr 1
        omega
      | some score =>
        simp only
        rw [ih, wrapInt_wrapInt_add]
        congr 1
        omega

/-- The total the loop over the classes returns is a 64-bit value when the
total it starts from is one. -/
theorem scoreLoop_range (submissionsCounts : List (String × Int))
    (myScores : List (String × Option Int)) (classes : List Class) :
    ∀ (classScores : List ClassScore) (myTotalScore : Int),
      wrapInt myTotalScore = myTotalScore →
      wrapInt (scoreLoop submissionsCounts myScores classes classScores myTotalScore).2 =
        (scoreLoop submissionsCounts myScores classes classScores myTotalScore).2 := by
  induction classes with
  | nil => intro classScores myTotalScore h; simpa [scoreLoop] using h
  | cons cls rest ih =>
    intro classScores myTotalScore h
    simp only [scoreLoop]
    cases hl : mapLoad myScores cls.ID with
    | none => exact ih _ _ h
    | some v =>
      cases v with
      | none => exact ih _ _ h
      | some score =>
        apply ih
        unfold wrapInt
        omega

/-- The total score of a course in the response is the sum of the non-null
scores of the user over the classes of the course, wrapped to 64 bits. -/
theorem scoreLoop_total_zero (submissionsCounts : List (String × Int))
    (myScores : List (String × Option Int)) (classes : List Class) :
    (scoreLoop submissionsCounts myScores classes [] 0).2 =
      wrapInt (sumScores myScores classes) := by
  rw [← scoreLoop_range submissionsCounts myScores classes [] 0 (by decide), scoreLoop_total,
    zero_add]

/-- C28, a divergence: the user is registered in one closed course with two
classes and has the stored score 4611686018427387904 for each; the
distribution of the course is served from the cache.  The handler answers 200
with a total score of -9223372036854775808 for the course, the 64-bit sum
having wrapped around, while the sum of the non-null scores of the user over
the classes of the course is 9223372036854775808. -/
theorem GetGrades_total_score_wraps :
    (GetGrades overflowEnv "u" overflowCache).1 = GradesResponse.JSON StatusOK overflowBody ∧
      overflowEnv.selectRegisteredCourses "u" = some [exampleCourse "c" 2 "monday" "closed"] ∧
      (overflowBody.CourseResults.map fun r => r.TotalScore) = [-9223372036854775808] ∧
      courseTotalScore overflowEnv "u" (exampleCourse "c" 2 "monday" "closed") =
        9223372036854775808 := by
  decide

/-- Witness of C23: the key `c` of the course cache of the example is still a
key after a request of user `v` for `b` whose insert fails. -/
theorem cache_keys_only_grow_witness :
    (syncMapLoad (RegisterCourses { noFaults with exec := true } exampleState "v"
      [{ ID := "b" }]).2.courseCache "c").isSome = true :=
  cache_keys_only_grow.1 { noFaults with exec := true } exampleState "v" [{ ID := "b" }] "c"
    (by decide)

/-- Witness of C24: a refresh of the distribution of course `b` leaves the
cached value and timestamp of course `a`. -/
theorem cache_keys_independent_witness :
    mapLoad (cacheOf (totalScoreLookup gradesExampleEnv courseGradeCache "b")).cachedTotalScore
        "a" = mapLoad courseGradeCache.cachedTotalScore "a" ∧
      mapLoad (cacheOf (totalScoreLookup gradesExampleEnv courseGradeCache "b")).totalScoreCachedAt
        "a" = mapLoad courseGradeCache.totalScoreCachedAt "a" :=
  cache_keys_independent.1 gradesExampleEnv courseGradeCache "b" "a" (by decide)

end Isucholar
